import Mathlib

/-!
# Verification of the mdrun set-up (`src/programs/mdrun/runner.cpp`) and of the
file table and text reader (`src/gmxlib/gmxfio.c`)

Namespace `Runner`: shallow embedding of `increase_nstlist`,
`prepare_verlet_scheme`, `override_nsteps_cmdline`, `my_integrator` and of the
blocks of `mdrunner` that choose the GPU mode, spawn the thread-MPI ranks and
assign the duties.  Namespace `Gmxfio`: the table of files, the sizes of the
binary backend and the reader and the string escaping of the text backend.

Conventions of the embedding
* `real` and `float` values are rationals (`ℚ`); comparisons are exact.
* `int` values are `Int`; the tuner only assigns and compares them.
* Functions that live outside `runner.cpp` (`calc_verlet_buffer_size`,
  `max_cutoff2`, `change_dd_cutoff`, the `EI_*` classification of
  integrators, ...) are fields of the record `Extern`; every theorem holds for
  all of them.  `change_dd_cutoff` mutates the decomposition held in `cr`, so
  it is a state transformer on an abstract decomposition state `D`.
* `gmx_fatal` and `gmx_incons` abort the run: they are the `error` results of
  `Except Err`.  Output written to the log file, to stderr and through
  `gmx_warning` is collected in a list of `Event`s.  Output to the `debug`
  stream is not modelled.
-/

namespace Runner

/-! ## Data model -/

/-- Ways in which the embedded code stops without returning. -/
inductive Err where
  /-- Call of `gmx_fatal` with the given message. -/
  | gmx_fatal (msg : String)
  /-- Call of `gmx_incons` with the given message. -/
  | gmx_incons (msg : String)
  /-- Call of `gmx_comm` with the given message. -/
  | gmx_comm (msg : String)
  /-- Call of `gmx_fatal_collective` with the given message. -/
  | gmx_fatal_collective (msg : String)
  /-- Read of `nstlist_try` at an index that is not below `NNSTL`. -/
  | index_out_of_range
  /-- The iteration bound of a loop of the embedding was used up. -/
  | out_of_fuel
  deriving DecidableEq, Repr

/-- The fields of `t_inputrec` that the embedded code reads or writes.  The
other fields are constant during the calls modelled here and are part of the
external functions. -/
structure t_inputrec where
  eI : Int
  etc : Int
  nstlist : Int
  rlist : ℚ
  verletbuf_tol : ℚ
  ePBC : Int
  cutoff_scheme : Int
  nsteps : Int := 0
  delta_t : ℚ := 0
  coulombtype : Int := 0
  vdwtype : Int := 0
  deriving DecidableEq, Repr

/-- The parts of `t_commrec` the embedded code looks at: the values of the
macros `MASTER(cr)`, `SIMMASTER(cr)`, `DOMAINDECOMP(cr)` and `PAR(cr)`, the
decomposition state that `change_dd_cutoff` updates, and the fields
`npmenodes` and `duty`. -/
structure t_commrec (D : Type) where
  MASTER : Bool
  SIMMASTER : Bool
  DOMAINDECOMP : Bool
  dd : D
  PAR : Bool := false
  npmenodes : Int := 0
  duty : Nat := 0

/-- Cluster sizes of the pair-list set-up (`verletbuf_list_setup_t`). -/
structure verletbuf_list_setup_t where
  cluster_size_i : Int
  cluster_size_j : Int
  deriving DecidableEq, Repr

/-- The one feature of `gmx::CpuInfo` that the tuner queries. -/
structure CpuInfo where
  X86_Avx512ER : Bool
  deriving DecidableEq, Repr

/-- Text written by the tuner.  Formatted messages keep their arguments. -/
inductive Text where
  | lit (s : String)
  /-- The note `nstl_gpu`, formatted with the current interval. -/
  | nstl_gpu (nstlist : Int)
  /-- The message "Changing nstlist from %d to %d, rlist from %g to %g". -/
  | changing_nstlist (nstlist_orig nstlist : Int) (rlist rlist_new : ℚ)
  /-- The message "Changing rlist from %g to %g for non-bonded %dx%d atom kernels". -/
  | changing_rlist (rlist rlist_new : ℚ) (cluster_size_i cluster_size_j : Int)
  /-- The message "Overriding nsteps with value passed on the command line: %s
  steps", followed by ", %.3g ps" when a time is given. -/
  | overriding_nsteps (nsteps : Int) (ps : Option ℚ)
  deriving DecidableEq, Repr

/-- One output action. -/
inductive Event where
  /-- Text printed with `fprintf(fp, ...)` to the log file. -/
  | log (t : Text)
  /-- Text printed with `fprintf(stderr, ...)`. -/
  | stderr (t : Text)
  /-- Text passed to `gmx_warning` or to the warning level of the logger. -/
  | warning (t : Text)
  deriving DecidableEq, Repr

/-- What a call leaves behind when it returns: the input record, the
decomposition state and the output produced. -/
structure Run (D : Type) where
  ir : t_inputrec
  dd : D
  out : List Event

/-- The functions, macros and constants used by the tuner whose definitions
are outside `runner.cpp`.  `M` is the type of the topology `gmx_mtop_t`, `B`
the type of the box matrix and `D` the type of the decomposition state. -/
structure Extern (M B D : Type) where
  /-- Macro `EI_DYNAMICS`. -/
  EI_DYNAMICS : Int → Bool
  /-- Macro `EI_MD`. -/
  EI_MD : Int → Bool
  /-- Enumerator `etcNO`. -/
  etcNO : Int
  /-- Enumerator `ecutsVERLET`. -/
  ecutsVERLET : Int
  /-- Constant `DIM`. -/
  DIM : Int
  /-- Field `mtop->natoms`. -/
  natoms : M → Int
  /-- Determinant of the box, `det(box)`. -/
  det : B → ℚ
  /-- The function `std::cbrt` on `float`. -/
  cbrt : ℚ → ℚ
  /-- The list set-up written by `verletbuf_get_list_setup(bSIMD, bGPU, &ls)`. -/
  verletbuf_get_list_setup : Bool → Bool → verletbuf_list_setup_t
  /-- The radius written by
  `calc_verlet_buffer_size(mtop, boxvol, ir, -1, &ls, nullptr, &rlist)`. -/
  calc_verlet_buffer_size : M → ℚ → t_inputrec → verletbuf_list_setup_t → ℚ
  /-- The function `nbnxn_get_rlist_effective_inc(cluster_size_j, atom_density)`. -/
  nbnxn_get_rlist_effective_inc : Int → ℚ → ℚ
  /-- The function `max_cutoff2(ePBC, box)`. -/
  max_cutoff2 : Int → B → ℚ
  /-- The function `inputrec2nboundeddim(ir)`. -/
  inputrec2nboundeddim : t_inputrec → Int
  /-- The function `change_dd_cutoff(cr, &state, ir, cutoff_req)`, called on a
  state that holds `box`: its answer and the decomposition state it leaves. -/
  change_dd_cutoff : D → B → t_inputrec → ℚ → Bool × D
  /-- The function `nbnxn_gpu_acceleration_supported(mdlog, ir, bRerunMD)`. -/
  nbnxn_gpu_acceleration_supported : t_inputrec → Bool → Bool

/-! ## Constants of `runner.cpp` -/

/-- Reference interval for the cost of the non-bonded kernels. -/
def nbnxnReferenceNstlist : Int := 10

/-- The values to try when switching. -/
def nstlist_try : List Int := [20, 25, 40]

/-- Number of elements in the list of trials. -/
def NNSTL : Nat := nstlist_try.length

def nbnxn_cpu_listfac_ok : ℚ := 105 / 100
def nbnxn_cpu_listfac_max : ℚ := 109 / 100
def nbnxn_knl_listfac_ok : ℚ := 122 / 100
def nbnxn_knl_listfac_max : ℚ := 13 / 10
def nbnxn_gpu_listfac_ok : ℚ := 120 / 100
def nbnxn_gpu_listfac_max : ℚ := 130 / 100

def nve_err : String := "Can not increase nstlist because an NVE ensemble is used"
def vbd_err : String :=
  "Can not increase nstlist because verlet-buffer-tolerance is not set or used"
def box_err : String := "Can not increase nstlist because the box is too small"
def dd_err : String :=
  "Can not increase nstlist because of domain decomposition limitations"

/-- Text of the fatal error of line 402. -/
def old_tpr_msg : String :=
  "You are using an old tpr file with a GPU, please generate a new tpr file with an up to date version of grompp"

/-- Read of `nstlist_try[i]`. -/
def nstlist_try_at (i : Nat) : Except Err Int :=
  match nstlist_try[i]? with
  | some v => .ok v
  | none => .error .index_out_of_range

/-- The function `gmx::square`. -/
def square (x : ℚ) : ℚ := x * x

/-! ## `increase_nstlist` -/

/-- The loop `while (nstlist_ind < NNSTL && ir->nstlist >= nstlist_try[nstlist_ind])
nstlist_ind++` (lines 375-378), started at `nstlist_ind`. -/
def scan_nstlist_ind (nstlist : Int) : Nat → Nat → Except Err Nat
  | 0, _ => .error .out_of_fuel
  | fuel + 1, nstlist_ind =>
    if nstlist_ind < NNSTL then
      match nstlist_try_at nstlist_ind with
      | .error e => .error e
      | .ok v =>
        if nstlist ≥ v then scan_nstlist_ind nstlist fuel (nstlist_ind + 1)
        else .ok nstlist_ind
    else .ok nstlist_ind

/-- Outcome of the first block of `increase_nstlist` (lines 360-384). -/
inductive Entry where
  /-- The function returns at once, having written `out`. -/
  | done (out : List Event)
  /-- The function goes on with this value of `nstlist_ind`. -/
  | search (nstlist_ind : Nat) (out : List Event)
  deriving DecidableEq, Repr

/-- Lines 360-384: the block guarded by `nstlist_cmdline <= 0`. -/
def entry_block (fp : Bool) (ir : t_inputrec) (nstlist_cmdline : Int) (bGPU : Bool) :
    Except Err Entry :=
  if nstlist_cmdline ≤ 0 then
    if ir.nstlist = 1 then .ok (.done [])
    else
      match nstlist_try_at 0 with
      | .error e => .error e
      | .ok first =>
        let out := if fp && bGPU && decide (ir.nstlist < first)
          then [Event.log (.nstl_gpu ir.nstlist)] else []
        match scan_nstlist_ind ir.nstlist (NNSTL + 1) 0 with
        | .error e => .error e
        | .ok nstlist_ind =>
          if nstlist_ind = NNSTL then .ok (.done out) else .ok (.search nstlist_ind out)
  else .ok (.search 0 [])

/-- Lines 419-433: the pair `(listfac_ok, listfac_max)` for the hardware class. -/
def listfac (bGPU : Bool) (cpuinfo : CpuInfo) : ℚ × ℚ :=
  if bGPU then (nbnxn_gpu_listfac_ok, nbnxn_gpu_listfac_max)
  else if cpuinfo.X86_Avx512ER then (nbnxn_knl_listfac_ok, nbnxn_knl_listfac_max)
  else (nbnxn_cpu_listfac_ok, nbnxn_cpu_listfac_max)

/-- The local variables of `increase_nstlist` that live across the `do`-`while`
loop, together with `*ir` and the decomposition state. -/
structure Tune (D : Type) where
  ir : t_inputrec
  dd : D
  nstlist_ind : Nat
  nstlist_prev : Int
  rlist_prev : ℚ
  rlist_new : ℚ
  bBox : Bool
  bDD : Bool
  bCont : Bool

variable {M B D : Type}

/-- Lines 483-493: the decomposition check of one iteration, the value of
`bDD` and the decomposition state after it. -/
def dd_check (E : Extern M B D) (cr : t_commrec D) (box : B) (ir : t_inputrec)
    (dd : D) (bBox : Bool) (rlist_new : ℚ) : Except Err (Bool × D) :=
  if bBox && cr.DOMAINDECOMP then
    if E.inputrec2nboundeddim ir < E.DIM then
      .error (.gmx_incons
        "Changing nstlist with domain decomposition and unbounded dimensions is not implemented yet")
    else .ok (E.change_dd_cutoff dd box ir rlist_new)
  else .ok (true, dd)

/-- Lines 501-522: acceptance of the candidate in automatic mode and the
increment of `nstlist_ind`. -/
def decide_candidate (nstlist_cmdline : Int) (rlist_ok rlist_max : ℚ) (s : Tune D)
    (ir : t_inputrec) (dd : D) (rlist_new : ℚ) (bBox bDD : Bool) : Tune D :=
  if nstlist_cmdline ≤ 0 then
    if bBox && bDD && decide (rlist_new ≤ rlist_max) then
      { ir := ir, dd := dd, nstlist_ind := s.nstlist_ind + 1,
        nstlist_prev := ir.nstlist, rlist_prev := rlist_new, rlist_new := rlist_new,
        bBox := bBox, bDD := bDD,
        bCont := decide (s.nstlist_ind + 1 < NNSTL) && decide (rlist_new < rlist_ok) }
    else
      { ir := { ir with nstlist := s.nstlist_prev }, dd := dd,
        nstlist_ind := s.nstlist_ind + 1,
        nstlist_prev := s.nstlist_prev, rlist_prev := s.rlist_prev,
        rlist_new := s.rlist_prev, bBox := true, bDD := true, bCont := false }
  else
    { ir := ir, dd := dd, nstlist_ind := s.nstlist_ind + 1,
      nstlist_prev := s.nstlist_prev, rlist_prev := s.rlist_prev, rlist_new := rlist_new,
      bBox := bBox, bDD := bDD, bCont := false }

/-- Lines 471-523: one pass through the body of the `do`-`while` loop. -/
def tune_body (E : Extern M B D) (cr : t_commrec D) (nstlist_cmdline : Int) (mtop : M)
    (box : B) (ls : verletbuf_list_setup_t) (rlist_ok rlist_max : ℚ) (s : Tune D) :
    Except Err (Tune D) :=
  match (if nstlist_cmdline ≤ 0 then
      (nstlist_try_at s.nstlist_ind).map (fun v => { s.ir with nstlist := v })
    else .ok s.ir) with
  | .error e => .error e
  | .ok ir =>
    let rlist_new := E.calc_verlet_buffer_size mtop (E.det box) ir ls
    let bBox := decide (square rlist_new < E.max_cutoff2 ir.ePBC box)
    match dd_check E cr box ir s.dd bBox rlist_new with
    | .error e => .error e
    | .ok (bDD, dd) =>
      .ok (decide_candidate nstlist_cmdline rlist_ok rlist_max s ir dd rlist_new bBox bDD)

/-- Lines 470-524: the loop `do body while (bCont)`, with an iteration bound. -/
def tune_loop (E : Extern M B D) (cr : t_commrec D) (nstlist_cmdline : Int) (mtop : M)
    (box : B) (ls : verletbuf_list_setup_t) (rlist_ok rlist_max : ℚ) :
    Nat → Tune D → Except Err (Tune D)
  | 0, _ => .error .out_of_fuel
  | fuel + 1, s =>
    match tune_body E cr nstlist_cmdline mtop box ls rlist_ok rlist_max s with
    | .error e => .error e
    | .ok s1 =>
      if s1.bCont then tune_loop E cr nstlist_cmdline mtop box ls rlist_ok rlist_max fuel s1
      else .ok s1

/-- Lines 526-549: the block after the loop.  `rlist` is `ir->rlist`, which
the loop does not write. -/
def finish_tuning (fp : Bool) (cr : t_commrec D) (nstlist_orig : Int) (out : List Event)
    (s : Tune D) : Run D :=
  if !s.bBox || !s.bDD then
    { ir := { s.ir with nstlist := nstlist_orig }, dd := s.dd,
      out := out ++ [Event.warning (.lit (if !s.bBox then box_err else dd_err))]
        ++ (if fp then [Event.log (.lit (if s.bBox then box_err else dd_err))] else []) }
  else if s.ir.nstlist ≠ nstlist_orig ∨ s.rlist_new ≠ s.ir.rlist then
    let buf := Text.changing_nstlist nstlist_orig s.ir.nstlist s.ir.rlist s.rlist_new
    { ir := { s.ir with rlist := s.rlist_new }, dd := s.dd,
      out := out ++ (if cr.MASTER then [Event.stderr buf] else [])
        ++ (if fp then [Event.log buf] else []) }
  else { ir := s.ir, dd := s.dd, out := out }

/-- Lines 458-461: the bounds `(rlist_ok, rlist_max)`. -/
def rlist_bounds (E : Extern M B D) (mtop : M) (box : B) (ls : verletbuf_list_setup_t)
    (listfac_ok listfac_max rlistWithReferenceNstlist : ℚ) : ℚ × ℚ :=
  let rlist_inc :=
    E.nbnxn_get_rlist_effective_inc ls.cluster_size_j ((E.natoms mtop : ℚ) / E.det box)
  ((rlistWithReferenceNstlist + rlist_inc) * E.cbrt listfac_ok - rlist_inc,
   (rlistWithReferenceNstlist + rlist_inc) * E.cbrt listfac_max - rlist_inc)

/-- Lines 419-549: the part of `increase_nstlist` after the early returns. -/
def search_block (E : Extern M B D) (fp : Bool) (cr : t_commrec D) (ir : t_inputrec)
    (nstlist_cmdline : Int) (mtop : M) (box : B) (bGPU : Bool) (cpuinfo : CpuInfo)
    (nstlist_ind : Nat) (out : List Event) : Except Err (Run D) :=
  let lf := listfac bGPU cpuinfo
  let nstlist_orig := ir.nstlist
  -- lines 436-444; the text put in `buf` there is never printed
  let ir1 := if nstlist_cmdline > 0 then { ir with nstlist := nstlist_cmdline } else ir
  let ls := E.verletbuf_get_list_setup true bGPU
  -- lines 451-455: the radius for the reference interval, `ir->nstlist` is restored
  let rlistWithReferenceNstlist :=
    E.calc_verlet_buffer_size mtop (E.det box) { ir1 with nstlist := nbnxnReferenceNstlist } ls
  let bounds := rlist_bounds E mtop box ls lf.1 lf.2 rlistWithReferenceNstlist
  let s0 : Tune D :=
    { ir := ir1, dd := cr.dd, nstlist_ind := nstlist_ind, nstlist_prev := nstlist_orig,
      rlist_prev := ir1.rlist, rlist_new := 0, bBox := true, bDD := true, bCont := false }
  match tune_loop E cr nstlist_cmdline mtop box ls bounds.1 bounds.2 NNSTL s0 with
  | .error e => .error e
  | .ok s => .ok (finish_tuning fp cr nstlist_orig out s)

/-- The function `increase_nstlist` (lines 341-550). -/
def increase_nstlist (E : Extern M B D) (fp : Bool) (cr : t_commrec D) (ir : t_inputrec)
    (nstlist_cmdline : Int) (mtop : M) (box : B) (bGPU : Bool) (cpuinfo : CpuInfo) :
    Except Err (Run D) :=
  match entry_block fp ir nstlist_cmdline bGPU with
  | .error e => .error e
  | .ok (.done out) => .ok { ir := ir, dd := cr.dd, out := out }
  | .ok (.search nstlist_ind out) =>
    if E.EI_MD ir.eI && decide (ir.etc = E.etcNO) then
      .ok { ir := ir, dd := cr.dd,
            out := out ++ (if cr.MASTER then [Event.stderr (.lit nve_err)] else [])
              ++ (if fp then [Event.log (.lit nve_err)] else []) }
    else if decide (ir.verletbuf_tol = 0) && bGPU then
      .error (.gmx_fatal old_tpr_msg)
    else if ir.verletbuf_tol < 0 then
      .ok { ir := ir, dd := cr.dd,
            out := out ++ (if cr.MASTER then [Event.stderr (.lit vbd_err)] else [])
              ++ (if fp then [Event.log (.lit vbd_err)] else []) }
    else search_block E fp cr ir nstlist_cmdline mtop box bGPU cpuinfo nstlist_ind out

/-! ## `prepare_verlet_scheme` and the set-up block of `mdrunner` -/

/-- Type of `increase_nstlist` once the external functions are fixed. -/
abbrev Tuner (M B D : Type) : Type :=
  Bool → t_commrec D → t_inputrec → Int → M → B → Bool → CpuInfo → Except Err (Run D)

/-- Lines 563-589 of `prepare_verlet_scheme`: the update of `ir->rlist` for the
current run set-up; the result is the input record and the text logged. -/
def update_rlist (E : Extern M B D) (fplog : Bool) (ir : t_inputrec) (mtop : M) (box : B)
    (bUseGPU : Bool) : t_inputrec × List Event :=
  if E.EI_DYNAMICS ir.eI && decide (ir.verletbuf_tol > 0)
      && !(E.EI_MD ir.eI && decide (ir.etc = E.etcNO)) then
    let ls := E.verletbuf_get_list_setup true bUseGPU
    let rlist_new := E.calc_verlet_buffer_size mtop (E.det box) ir ls
    if rlist_new ≠ ir.rlist then
      ({ ir with rlist := rlist_new },
       if fplog then
         [Event.log (.changing_rlist ir.rlist rlist_new ls.cluster_size_i ls.cluster_size_j)]
       else [])
    else (ir, [])
  else (ir, [])

/-- The function `prepare_verlet_scheme` (lines 553-602), with the function
called at line 600 as the argument `tuner`. -/
def prepare_verlet_scheme_with (tuner : Tuner M B D) (E : Extern M B D) (fplog : Bool)
    (cr : t_commrec D) (ir : t_inputrec) (nstlist_cmdline : Int) (mtop : M) (box : B)
    (bUseGPU : Bool) (cpuinfo : CpuInfo) : Except Err (Run D) :=
  -- lines 563-589
  let upd := update_rlist E fplog ir mtop box bUseGPU
  -- lines 591-595
  if nstlist_cmdline > 0 ∧ (E.EI_DYNAMICS upd.1.eI = false ∨ upd.1.verletbuf_tol ≤ 0) then
    .error (.gmx_fatal ("Can not set nstlist without " ++
      (if E.EI_DYNAMICS upd.1.eI = false then "dynamics" else "verlet-buffer-tolerance")))
  -- lines 597-601
  else if E.EI_DYNAMICS upd.1.eI then
    match tuner fplog cr upd.1 nstlist_cmdline mtop box bUseGPU cpuinfo with
    | .error e => .error e
    | .ok r => .ok { r with out := upd.2 ++ r.out }
  else .ok { ir := upd.1, dd := cr.dd, out := upd.2 }

/-- The function `prepare_verlet_scheme`. -/
def prepare_verlet_scheme (E : Extern M B D) (fplog : Bool) (cr : t_commrec D)
    (ir : t_inputrec) (nstlist_cmdline : Int) (mtop : M) (box : B) (bUseGPU : Bool)
    (cpuinfo : CpuInfo) : Except Err (Run D) :=
  prepare_verlet_scheme_with (increase_nstlist E) E fplog cr ir nstlist_cmdline mtop box
    bUseGPU cpuinfo

/-- Text of the note logged when a GPU is found with the group scheme. -/
def gpu_group_note : String :=
  "NOTE: GPU(s) found, but the current simulation can not use GPUs"

/-- Lines 781-838 of `mdrunner`: the block in which the master rank decides
whether GPUs are used and prepares the Verlet scheme.  `inputrec`, `mtop` and
`box` are what `read_tpx_state` has read, `n_dev_compatible` is
`hwinfo->gpu_info.n_dev_compatible` and `GMX_EMULATE_GPU` tells whether that
environment variable is set.  The result holds the value of `bUseGPU`. -/
def mdrunner_setup_with (tuner : Tuner M B D) (E : Extern M B D) (fplog : Bool)
    (cr : t_commrec D) (inputrec : t_inputrec) (nstlist_cmdline : Int) (mtop : M) (box : B)
    (n_dev_compatible : Int) (GMX_EMULATE_GPU bForceUseGPU bRerunMD : Bool)
    (cpuinfo : CpuInfo) : Except Err (Bool × Run D) :=
  if cr.SIMMASTER then
    if inputrec.cutoff_scheme = E.ecutsVERLET then
      let bUseGPU := decide (n_dev_compatible > 0) || GMX_EMULATE_GPU
      if bUseGPU && !E.nbnxn_gpu_acceleration_supported inputrec bRerunMD then
        if bForceUseGPU then
          .error (.gmx_fatal
            "GPU acceleration requested, but not supported with the given input settings")
        else
          (prepare_verlet_scheme_with tuner E fplog cr inputrec nstlist_cmdline mtop box
            false cpuinfo).map (fun r => (false, r))
      else
        (prepare_verlet_scheme_with tuner E fplog cr inputrec nstlist_cmdline mtop box
          bUseGPU cpuinfo).map (fun r => (bUseGPU, r))
    else if nstlist_cmdline > 0 then
      .error (.gmx_fatal "Can not set nstlist with the group cut-off scheme")
    else if bForceUseGPU then
      .error (.gmx_fatal "GPU requested, but can't be used without cutoff-scheme=Verlet")
    else
      .ok (false, { ir := inputrec, dd := cr.dd,
                    out := if n_dev_compatible > 0
                      then [Event.warning (.lit gpu_group_note)] else [] })
  else .ok (false, { ir := inputrec, dd := cr.dd, out := [] })

/-- The set-up block of `mdrunner` with `increase_nstlist` as the tuner. -/
def mdrunner_setup (E : Extern M B D) (fplog : Bool) (cr : t_commrec D)
    (inputrec : t_inputrec) (nstlist_cmdline : Int) (mtop : M) (box : B)
    (n_dev_compatible : Int) (GMX_EMULATE_GPU bForceUseGPU bRerunMD : Bool)
    (cpuinfo : CpuInfo) : Except Err (Bool × Run D) :=
  mdrunner_setup_with (increase_nstlist E) E fplog cr inputrec nstlist_cmdline mtop box
    n_dev_compatible GMX_EMULATE_GPU bForceUseGPU bRerunMD cpuinfo

/-! ## `override_nsteps_cmdline` and the restart block of `mdrunner` -/

/-- The function `override_nsteps_cmdline` (lines 608-641): the input record
it leaves and the text it logs.  `EI_DYNAMICS` is the macro of that name.  The
number printed after the text of the fatal error is left out. -/
def override_nsteps_cmdline (EI_DYNAMICS : Int → Bool) (nsteps_cmdline : Int)
    (ir : t_inputrec) : Except Err (t_inputrec × List Event) :=
  if nsteps_cmdline > -2 then
    let ir1 := { ir with nsteps := nsteps_cmdline }
    .ok (ir1,
      [Event.warning
        (if EI_DYNAMICS ir1.eI && decide (nsteps_cmdline ≠ -1) then
          .overriding_nsteps nsteps_cmdline (some |(nsteps_cmdline : ℚ) * ir1.delta_t|)
         else .overriding_nsteps nsteps_cmdline none)])
  else if nsteps_cmdline < -2 then
    .error (.gmx_fatal "Invalid nsteps value passed on the command line")
  else .ok (ir, [])

/-- Lines 1012-1041 of `mdrunner`, as far as the input record goes: when the
flag `MD_STARTFROMCPT` is set, `load_checkpoint` writes the input record, and
then `override_nsteps_cmdline` is called.  `load_checkpoint` is the external
function, taken as a function from the input record to the one it leaves. -/
def mdrunner_restart_block (EI_DYNAMICS : Int → Bool)
    (load_checkpoint : t_inputrec → Except Err t_inputrec) (MD_STARTFROMCPT : Bool)
    (nsteps_cmdline : Int) (inputrec : t_inputrec) : Except Err (t_inputrec × List Event) :=
  match (if MD_STARTFROMCPT then load_checkpoint inputrec else .ok inputrec) with
  | .error e => .error e
  | .ok ir => override_nsteps_cmdline EI_DYNAMICS nsteps_cmdline ir

/-! ## `my_integrator` -/

/-- The integrator functions that `my_integrator` can return. -/
inductive integrator_t where
  | do_md | do_steep | do_cg | do_nm | do_lbfgs | do_tpi
  deriving DecidableEq, Repr

/-- The exceptions that `my_integrator` can throw. -/
inductive Thrown where
  | APIError (msg : String)
  | NotImplementedError (msg : String)
  deriving DecidableEq, Repr

/-- The values of the enumerators of the integrator enumeration, which is
declared outside `runner.cpp`. -/
structure Integrators where
  eiMD : Nat
  eiSteep : Nat
  eiCG : Nat
  eiBD : Nat
  eiSD2_REMOVED : Nat
  eiNM : Nat
  eiLBFGS : Nat
  eiTPI : Nat
  eiTPIC : Nat
  eiSD1 : Nat
  eiVV : Nat
  eiVVAK : Nat
  deriving DecidableEq, Repr

/-- The enumerators in the order of the case labels of `my_integrator`. -/
def Integrators.labels (N : Integrators) : List Nat :=
  [N.eiMD, N.eiBD, N.eiSD1, N.eiVV, N.eiVVAK, N.eiSteep, N.eiCG, N.eiNM, N.eiLBFGS,
   N.eiTPI, N.eiTPIC, N.eiSD2_REMOVED]

/-- The function `my_integrator` (lines 647-681).  `EI_DYNAMICS` and `EI_TPI`
are the macros of these names.  The case labels of a `switch` are pairwise
different; the chain of tests below selects the same case as the `switch`
whenever they are. -/
def my_integrator (N : Integrators) (EI_DYNAMICS EI_TPI : Nat → Bool) (ei : Nat) :
    Except Thrown integrator_t :=
  if ei = N.eiMD ∨ ei = N.eiBD ∨ ei = N.eiSD1 ∨ ei = N.eiVV ∨ ei = N.eiVVAK then
    if !EI_DYNAMICS ei then
      .error (.APIError "do_md integrator would be called for a non-dynamical integrator")
    else .ok .do_md
  else if ei = N.eiSteep then .ok .do_steep
  else if ei = N.eiCG then .ok .do_cg
  else if ei = N.eiNM then .ok .do_nm
  else if ei = N.eiLBFGS then .ok .do_lbfgs
  else if ei = N.eiTPI ∨ ei = N.eiTPIC then
    if !EI_TPI ei then
      .error (.APIError "do_tpi integrator would be called for a non-TPI integrator")
    else .ok .do_tpi
  else if ei = N.eiSD2_REMOVED then
    .error (.NotImplementedError "SD2 integrator has been removed")
  else .error (.APIError "Non existing integrator selected")

/-- Modelled from the spec: the macro `EI_DYNAMICS` of the header that declares
the integrator enumeration, which is not under `src/`.  The dynamical
integrators, those run by the dynamics stepper, are `eiMD`, `eiBD`, `eiSD1`,
`eiVV` and `eiVVAK`. -/
def EI_DYNAMICS_of (N : Integrators) (e : Nat) : Bool :=
  decide (e = N.eiMD ∨ e = N.eiBD ∨ e = N.eiSD1 ∨ e = N.eiVV ∨ e = N.eiVVAK)

/-- Modelled from the spec: the macro `EI_TPI` of the same header.  The
insertion integrators are `eiTPI` and `eiTPIC`. -/
def EI_TPI_of (N : Integrators) (e : Nat) : Bool :=
  decide (e = N.eiTPI ∨ e = N.eiTPIC)

/-! ## The choice of the GPU mode in `mdrunner` -/

/-- The C library function `strncmp` on strings given by their characters
before the terminating NUL. -/
def strncmp : List Char → List Char → Nat → Int
  | _, _, 0 => 0
  | [], [], _ + 1 => 0
  | [], b :: _, _ + 1 => -(b.toNat : Int)
  | a :: _, [], _ + 1 => (a.toNat : Int)
  | a :: as, b :: bs, n + 1 =>
    if a = b then strncmp as bs n else (a.toNat : Int) - (b.toNat : Int)

/-- Line 752: `bForceUseGPU`. -/
def bForceUseGPU (nbpu_opt : String) : Bool :=
  decide (strncmp nbpu_opt.data "gpu".data 3 = 0)

/-- Line 753: `bTryUseGPU`. -/
def bTryUseGPU (nbpu_opt : String) : Bool :=
  decide (strncmp nbpu_opt.data "auto".data 4 = 0) || bForceUseGPU nbpu_opt

/-- Lines 752 and 781-838 of `mdrunner`: the decision step of the master rank
for the option string `nbpu_opt`. -/
def mdrunner_gpu_decision (E : Extern M B D) (fplog : Bool) (cr : t_commrec D)
    (inputrec : t_inputrec) (nstlist_cmdline : Int) (mtop : M) (box : B)
    (n_dev_compatible : Int) (GMX_EMULATE_GPU : Bool) (nbpu_opt : String) (bRerunMD : Bool)
    (cpuinfo : CpuInfo) : Except Err (Bool × Run D) :=
  mdrunner_setup E fplog cr inputrec nstlist_cmdline mtop box n_dev_compatible GMX_EMULATE_GPU
    (bForceUseGPU nbpu_opt) bRerunMD cpuinfo

/-! ## Spawning of thread-MPI ranks -/

/-- The fields of `gmx_hw_opt_t` that `runner.cpp` reads or writes, and, in
`others`, the remaining ones, which it only passes on. -/
structure gmx_hw_opt_t where
  nthreads_tmpi : Int
  others : List Int
  deriving DecidableEq, Repr

/-- The structure `mdrunner_arglist` (lines 143-177).  Its fields are the
parameters of `mdrunner`, so a value of this type also stands for the
arguments of one call of `mdrunner`.  A `FILE` pointer is `none` when it is
null. -/
structure mdrunner_arglist (D : Type) where
  hw_opt : gmx_hw_opt_t
  fplog : Option Nat
  cr : t_commrec D
  nfile : Int
  fnm : List String
  oenv : Nat
  bVerbose : Bool
  nstglobalcomm : Int
  ddxyz : Int × Int × Int
  dd_rank_order : Int
  npme : Int
  rdd : ℚ
  rconstr : ℚ
  dddlb_opt : String
  dlb_scale : ℚ
  ddcsx : String
  ddcsy : String
  ddcsz : String
  nbpu_opt : String
  nstlist_cmdline : Int
  nsteps_cmdline : Int
  nstepout : Int
  resetstep : Int
  nmultisim : Int
  repl_ex_nst : Int
  repl_ex_nex : Int
  repl_ex_seed : Int
  pforce : ℚ
  cpt_period : ℚ
  max_hours : ℚ
  imdport : Int
  Flags : Nat

/-- The functions and constants of thread-MPI and of the libraries that the
spawning code uses.  The calling thread is an explicit argument of
`reinitialize_commrec_for_this_thread`; the main thread is thread 0. -/
structure Threads (D : Type) where
  /-- Constant `TMPI_SUCCESS`. -/
  TMPI_SUCCESS : Int
  /-- Value returned by `tMPI_Init_fn(TRUE, N, TMPI_AFFINITY_NONE,
  mdrunner_start_fn, mda)`. -/
  tMPI_Init_fn : Int → mdrunner_arglist D → Int
  /-- The function `reinitialize_commrec_for_this_thread(cr)` on the given thread. -/
  reinitialize_commrec_for_this_thread : Nat → t_commrec D → t_commrec D
  /-- The function `dup_tfn(nfile, fnm)`. -/
  dup_tfn : Int → List String → List String
  /-- The function `check_and_update_hw_opt_2(hw_opt, cutoff_scheme)`, as the
  options it leaves. -/
  check_and_update_hw_opt_2 : gmx_hw_opt_t → Int → gmx_hw_opt_t
  /-- The function `get_nthreads_mpi(hwinfo, hw_opt, inputrec, mtop, mdlog,
  bUseGPU, doMembed)`. -/
  get_nthreads_mpi : gmx_hw_opt_t → t_inputrec → Bool → Bool → Int

/-- What `mdrunner_start_threads` leaves: the pointer it returns (`none` for
the null pointer) and, when `tMPI_Init_fn` was called, the argument list
handed to the new threads. -/
structure Started (D : Type) where
  cr : Option (t_commrec D)
  mda : Option (mdrunner_arglist D)

/-- The function `mdrunner_start_threads` (lines 223-300).  The structure
`mda` comes from `snew`, which fills it with zeros, and the field `imdport` is
not assigned, so it is 0. -/
def mdrunner_start_threads (X : Threads D) (hw_opt : gmx_hw_opt_t) (fplog : Option Nat)
    (cr : t_commrec D) (nfile : Int) (fnm : List String) (oenv : Nat) (bVerbose : Bool)
    (nstglobalcomm : Int) (ddxyz : Int × Int × Int) (dd_rank_order : Int) (npme : Int)
    (rdd rconstr : ℚ) (dddlb_opt : String) (dlb_scale : ℚ) (ddcsx ddcsy ddcsz : String)
    (nbpu_opt : String) (nstlist_cmdline : Int) (nsteps_cmdline : Int)
    (nstepout resetstep : Int) (nmultisim repl_ex_nst repl_ex_nex repl_ex_seed : Int)
    (pforce cpt_period max_hours : ℚ) (Flags : Nat) : Started D :=
  if hw_opt.nthreads_tmpi < 2 then { cr := some cr, mda := none }
  else
    let fnmn := X.dup_tfn nfile fnm
    let mda : mdrunner_arglist D :=
      { hw_opt := hw_opt, fplog := fplog, cr := cr, nfile := nfile, fnm := fnmn, oenv := oenv,
        bVerbose := bVerbose, nstglobalcomm := nstglobalcomm,
        ddxyz := (ddxyz.1, ddxyz.2.1, ddxyz.2.2), dd_rank_order := dd_rank_order, npme := npme,
        rdd := rdd, rconstr := rconstr, dddlb_opt := dddlb_opt, dlb_scale := dlb_scale,
        ddcsx := ddcsx, ddcsy := ddcsy, ddcsz := ddcsz, nbpu_opt := nbpu_opt,
        nstlist_cmdline := nstlist_cmdline, nsteps_cmdline := nsteps_cmdline,
        nstepout := nstepout, resetstep := resetstep, nmultisim := nmultisim,
        repl_ex_nst := repl_ex_nst, repl_ex_nex := repl_ex_nex, repl_ex_seed := repl_ex_seed,
        pforce := pforce, cpt_period := cpt_period, max_hours := max_hours,
        imdport := 0, Flags := Flags }
    if X.tMPI_Init_fn hw_opt.nthreads_tmpi mda ≠ X.TMPI_SUCCESS then
      { cr := none, mda := some mda }
    else { cr := some (X.reinitialize_commrec_for_this_thread 0 cr), mda := some mda }

/-- The function `mdrunner_start_fn` (lines 183-216), run by the spawned thread
`thread` on the argument list `mda`: the arguments with which it calls
`mdrunner`. -/
def mdrunner_start_fn (X : Threads D) (thread : Nat) (mda : mdrunner_arglist D) :
    mdrunner_arglist D :=
  let mc := mda
  let fnm := X.dup_tfn mc.nfile mc.fnm
  let cr := X.reinitialize_commrec_for_this_thread thread mc.cr
  let fplog := if cr.MASTER then mc.fplog else none
  { hw_opt := mc.hw_opt, fplog := fplog, cr := cr, nfile := mc.nfile, fnm := fnm,
    oenv := mc.oenv, bVerbose := mc.bVerbose, nstglobalcomm := mc.nstglobalcomm,
    ddxyz := mc.ddxyz, dd_rank_order := mc.dd_rank_order, npme := mc.npme, rdd := mc.rdd,
    rconstr := mc.rconstr, dddlb_opt := mc.dddlb_opt, dlb_scale := mc.dlb_scale,
    ddcsx := mc.ddcsx, ddcsy := mc.ddcsy, ddcsz := mc.ddcsz, nbpu_opt := mc.nbpu_opt,
    nstlist_cmdline := mc.nstlist_cmdline, nsteps_cmdline := mc.nsteps_cmdline,
    nstepout := mc.nstepout, resetstep := mc.resetstep, nmultisim := mc.nmultisim,
    repl_ex_nst := mc.repl_ex_nst, repl_ex_nex := mc.repl_ex_nex,
    repl_ex_seed := mc.repl_ex_seed, pforce := mc.pforce, cpt_period := mc.cpt_period,
    max_hours := mc.max_hours, imdport := mc.imdport, Flags := mc.Flags }

/-- What the spawning block of `mdrunner` leaves: the communication record,
the hardware options and, when threads were spawned, their argument list. -/
structure Spawned (D : Type) where
  cr : t_commrec D
  hw_opt : gmx_hw_opt_t
  mda : Option (mdrunner_arglist D)

/-- The call of `mdrunner_start_threads` at lines 872-880, where `hw_opt` holds
the current hardware options and `a` the values of the other parameters of
`mdrunner`. -/
def start_threads_call (X : Threads D) (hw_opt : gmx_hw_opt_t) (a : mdrunner_arglist D) :
    Started D :=
  mdrunner_start_threads X hw_opt a.fplog a.cr a.nfile a.fnm a.oenv a.bVerbose
    a.nstglobalcomm a.ddxyz a.dd_rank_order a.npme a.rdd a.rconstr a.dddlb_opt
    a.dlb_scale a.ddcsx a.ddcsy a.ddcsz a.nbpu_opt a.nstlist_cmdline a.nsteps_cmdline
    a.nstepout a.resetstep a.nmultisim a.repl_ex_nst a.repl_ex_nex a.repl_ex_seed
    a.pforce a.cpt_period a.max_hours a.Flags

/-- The hardware options after lines 859-866: `check_and_update_hw_opt_2` and
the assignment of `get_nthreads_mpi(...)` to `hw_opt->nthreads_tmpi`. -/
def spawn_hw_opt (X : Threads D) (a : mdrunner_arglist D) (inputrec : t_inputrec)
    (bUseGPU doMembed : Bool) : gmx_hw_opt_t :=
  let hw_opt1 := X.check_and_update_hw_opt_2 a.hw_opt inputrec.cutoff_scheme
  { hw_opt1 with nthreads_tmpi := X.get_nthreads_mpi hw_opt1 inputrec bUseGPU doMembed }

/-- Lines 847-888 of `mdrunner` (thread-MPI build).  The record `a` holds the
values of the parameters of `mdrunner` when the block is reached. -/
def mdrunner_spawn_block (X : Threads D) (a : mdrunner_arglist D) (inputrec : t_inputrec)
    (bUseGPU doMembed : Bool) : Except Err (Spawned D) :=
  if a.cr.SIMMASTER then
    if a.npme > 0 ∧ a.hw_opt.nthreads_tmpi ≤ 0 then
      .error (.gmx_fatal
        "You need to explicitly specify the number of MPI threads (-ntmpi) when using separate PME ranks")
    else
      let hw_opt := spawn_hw_opt X a inputrec bUseGPU doMembed
      if hw_opt.nthreads_tmpi > 1 then
        let st := start_threads_call X hw_opt a
        match st.cr with
        | none => .error (.gmx_comm "Failed to spawn threads")
        | some cr => .ok { cr := cr, hw_opt := hw_opt, mda := st.mda }
      else .ok { cr := a.cr, hw_opt := hw_opt, mda := none }
  else .ok { cr := a.cr, hw_opt := a.hw_opt, mda := none }

/-! ## Separate PME ranks and duties -/

/-- Lines 945-954 of `mdrunner`: the value of `npme` after the check that PME
is used at all.  `EEL_PME` and `EVDW_PME` are the macros of these names. -/
def mdrunner_pme_check (EEL_PME EVDW_PME : Int → Bool) (inputrec : t_inputrec)
    (npme : Int) : Except Err Int :=
  if !(EEL_PME inputrec.coulombtype || EVDW_PME inputrec.vdwtype) then
    if npme > 0 then
      .error (.gmx_fatal_collective
        "PME-only ranks are requested, but the system does not use PME for electrostatics or LJ")
    else .ok 0
  else .ok npme

/-- The macros and constants used at lines 1063-1089. -/
structure Duties where
  /-- Macro `EI_TPI`. -/
  EI_TPI : Int → Bool
  /-- Enumerator `eiNM`. -/
  eiNM : Int
  /-- Enumerator `epbcSCREW`. -/
  epbcSCREW : Int
  /-- Constant `DUTY_PP`. -/
  DUTY_PP : Nat
  /-- Constant `DUTY_PME`. -/
  DUTY_PME : Nat

/-- What lines 1063-1089 leave: the communication record and the values of
`npme_major` and `npme_minor`. -/
structure Decomposed (D : Type) where
  cr : t_commrec D
  npme_major : Int
  npme_minor : Int

/-- Lines 1063-1089 of `mdrunner`.  The argument `init_domain_decomposition`
stands for the external function of that name, with the arguments `cr`,
`ddxyz` and `npme`: it gives the communication record with the new
decomposition and the values written to `npme_major` and `npme_minor`. -/
def mdrunner_duty_block (U : Duties)
    (init_domain_decomposition :
      t_commrec D → Int × Int × Int → Int → Except Err (Decomposed D))
    (cr : t_commrec D) (inputrec : t_inputrec) (ddxyz : Int × Int × Int) (npme : Int) :
    Except Err (Decomposed D) :=
  if cr.PAR && !(U.EI_TPI inputrec.eI || decide (inputrec.eI = U.eiNM)) then
    init_domain_decomposition cr ddxyz npme
  else
    let cr1 := { cr with npmenodes := 0, duty := U.DUTY_PP ||| U.DUTY_PME }
    if inputrec.ePBC = U.epbcSCREW then
      .error (.gmx_fatal "pbc=screw is only implemented with domain decomposition")
    else .ok { cr := cr1, npme_major := 1, npme_minor := 1 }

/-! ## A concrete instance, used to run the embedding on examples -/

/-- External functions for the examples: the integrator classes are those of
the enumeration `eiMD, eiSteep, eiCG, eiBD, eiSD2_REMOVED, eiNM, eiLBFGS,
eiTPI, eiTPIC, eiSD1, eiVV, eiVVAK`; the list radius for an interval is given
by `radius`, the squared box limit is `cutoff2`, and the decomposition, whose
state counts the calls made, accepts a radius up to `ddmax`.  The cube root is
replaced by the identity and the effective increment is 0, so that `rlist_ok`
and `rlist_max` are 1.05 and 1.09 times the radius for the reference interval
on a plain CPU. -/
def exampleExtern (radius : Int → ℚ) (cutoff2 ddmax : ℚ) : Extern Unit Unit Nat where
  EI_DYNAMICS e := e = 0 ∨ e = 3 ∨ e = 9 ∨ e = 10 ∨ e = 11
  EI_MD e := e = 0 ∨ e = 10 ∨ e = 11
  etcNO := 0
  ecutsVERLET := 0
  DIM := 3
  natoms _ := 3000
  det _ := 27
  cbrt x := x
  verletbuf_get_list_setup _ bGPU := if bGPU then ⟨8, 8⟩ else ⟨4, 4⟩
  calc_verlet_buffer_size _ _ ir _ := radius ir.nstlist
  nbnxn_get_rlist_effective_inc _ _ := 0
  max_cutoff2 _ _ := cutoff2
  inputrec2nboundeddim _ := 3
  change_dd_cutoff d _ _ r := (decide (r ≤ ddmax), d + 1)
  nbnxn_gpu_acceleration_supported _ _ := true

/-- An input record for the examples: stochastic dynamics (`eiSD1`) with
temperature coupling, Verlet scheme, interval 10, radius 1. -/
def exampleIr : t_inputrec :=
  { eI := 9, etc := 1, nstlist := 10, rlist := 1, verletbuf_tol := 5 / 1000,
    ePBC := 0, cutoff_scheme := 0 }

/-- A communication record for the examples. -/
def exampleCr (domdec : Bool) : t_commrec Nat :=
  { MASTER := true, SIMMASTER := true, DOMAINDECOMP := domdec, dd := 0 }

/-- List radius of the examples: `r20`, `r25` and `r40` for the three entries of
`nstlist_try`, 1 for every other interval. -/
def exampleRadius (r20 r25 r40 : ℚ) (n : Int) : ℚ :=
  if n = 20 then r20 else if n = 25 then r25 else if n = 40 then r40 else 1

/-- The scenario of the specification: the box limits the cut-off to 2.0
(squared limit 4); the candidate 20 has radius 1.04 and the candidate 25 has
radius 2.2. -/
def exampleSmallBox : Extern Unit Unit Nat :=
  exampleExtern (exampleRadius (104 / 100) (22 / 10) 1) 4 1

/-- The candidate 20 has radius 1.07, between `rlist_ok` = 1.05 and
`rlist_max` = 1.09; the candidates 25 and 40 have radius 2. -/
def exampleBetween : Extern Unit Unit Nat :=
  exampleExtern (exampleRadius (107 / 100) 2 2) 4 1

/-- The state in which the loop is entered for `exampleIr` in automatic mode. -/
def exampleStart : Tune Nat :=
  { ir := exampleIr, dd := 0, nstlist_ind := 0, nstlist_prev := 10, rlist_prev := 1,
    rlist_new := 0, bBox := true, bDD := true, bCont := false }

/-- The usual values of the enumerators: `eiMD, eiSteep, eiCG, eiBD,
eiSD2_REMOVED, eiNM, eiLBFGS, eiTPI, eiTPIC, eiSD1, eiVV, eiVVAK` counted from 0. -/
def exampleIntegrators : Integrators :=
  { eiMD := 0, eiSteep := 1, eiCG := 2, eiBD := 3, eiSD2_REMOVED := 4, eiNM := 5, eiLBFGS := 6,
    eiTPI := 7, eiTPIC := 8, eiSD1 := 9, eiVV := 10, eiVVAK := 11 }

/-- Thread-MPI for the examples: spawning succeeds, thread 0 is the master of
the new group, `get_nthreads_mpi` keeps a positive request and chooses 4
ranks otherwise. -/
def exampleThreads : Threads Nat where
  TMPI_SUCCESS := 0
  tMPI_Init_fn _ _ := 0
  reinitialize_commrec_for_this_thread t cr :=
    { cr with MASTER := decide (t = 0), SIMMASTER := decide (t = 0), PAR := true }
  dup_tfn _ fnm := fnm
  check_and_update_hw_opt_2 hw_opt _ := hw_opt
  get_nthreads_mpi hw_opt _ _ _ := if hw_opt.nthreads_tmpi > 0 then hw_opt.nthreads_tmpi else 4

/-- Arguments of `mdrunner` for the examples: automatic number of ranks
(`-ntmpi 0`), a log file, IMD port 8888. -/
def exampleArgs : mdrunner_arglist Nat :=
  { hw_opt := { nthreads_tmpi := 0, others := [] }, fplog := some 1, cr := exampleCr false,
    nfile := 1, fnm := ["topol.tpr"], oenv := 0, bVerbose := false, nstglobalcomm := -1,
    ddxyz := (0, 0, 0), dd_rank_order := 1, npme := -1, rdd := 0, rconstr := 0,
    dddlb_opt := "auto", dlb_scale := 4 / 5, ddcsx := "", ddcsy := "", ddcsz := "",
    nbpu_opt := "auto", nstlist_cmdline := 0, nsteps_cmdline := -2, nstepout := 100,
    resetstep := -1, nmultisim := 0, repl_ex_nst := 0, repl_ex_nex := 0, repl_ex_seed := -1,
    pforce := -1, cpt_period := 15, max_hours := -1, imdport := 8888, Flags := 0 }

/-- The argument list that the example hands to the spawned threads. -/
def exampleMda : mdrunner_arglist Nat :=
  { exampleArgs with hw_opt := { nthreads_tmpi := 4, others := [] }, imdport := 0 }

/-- What the spawning block leaves in the example. -/
def exampleSpawned : Spawned Nat :=
  { cr := { exampleCr false with PAR := true }, hw_opt := { nthreads_tmpi := 4, others := [] },
    mda := some exampleMda }

/-- The macros and constants of the duty block for the examples: `eiTPI` = 7,
`eiTPIC` = 8, `eiNM` = 5, `epbcSCREW` = 4, `DUTY_PP` = 1, `DUTY_PME` = 2. -/
def exampleDuties : Duties :=
  { EI_TPI := fun e => decide (e = 7 ∨ e = 8), eiNM := 5, epbcSCREW := 4, DUTY_PP := 1,
    DUTY_PME := 2 }

/-! ## Vocabulary of the statements -/

/-- Number of leading entries of `nstlist_try` that are not above `nstlist`:
the index at which the search starts. -/
def start_index (nstlist : Int) : Nat :=
  (nstlist_try.takeWhile (fun v => decide (v ≤ nstlist))).length

/-- The list radius that `calc_verlet_buffer_size` computes when `ir->nstlist`
is `v` (lines 453 and 478). -/
def radius_for (E : Extern M B D) (mtop : M) (box : B) (ls : verletbuf_list_setup_t)
    (ir : t_inputrec) (v : Int) : ℚ :=
  E.calc_verlet_buffer_size mtop (E.det box) { ir with nstlist := v } ls

/-- The test `bBox` of line 481: the square of the radius is below
`max_cutoff2` of the box. -/
def fits_box (E : Extern M B D) (box : B) (ir : t_inputrec) (r : ℚ) : Bool :=
  decide (square r < E.max_cutoff2 ir.ePBC box)

/-- The bounds `(rlist_ok, rlist_max)` that `increase_nstlist` computes for
these inputs (lines 419-461). -/
def tuner_bounds (E : Extern M B D) (ir : t_inputrec) (mtop : M) (box : B) (bGPU : Bool)
    (cpuinfo : CpuInfo) : ℚ × ℚ :=
  rlist_bounds E mtop box (E.verletbuf_get_list_setup true bGPU) (listfac bGPU cpuinfo).1
    (listfac bGPU cpuinfo).2
    (radius_for E mtop box (E.verletbuf_get_list_setup true bGPU) ir nbnxnReferenceNstlist)

/-- The call returns with a result that satisfies `P`, or it is aborted by
`gmx_fatal` or `gmx_incons`; it does not stop in any other way. -/
def EndsWith {α : Type} (res : Except Err α) (P : α → Prop) : Prop :=
  match res with
  | .ok r => P r
  | .error (.gmx_fatal _) => True
  | .error (.gmx_incons _) => True
  | .error _ => False

/-- The candidates `vs`, tried in this order from the decomposition state `d`,
are all accepted and leave the state `dfin`: each one fits the box, is accepted by the
decomposition check and has a radius not above `rlist_max`, and each one that
is followed by another has a radius below `rlist_ok`. -/
def Accepts (E : Extern M B D) (cr : t_commrec D) (mtop : M) (box : B)
    (ls : verletbuf_list_setup_t) (rlist_ok rlist_max : ℚ) (ir : t_inputrec) :
    List Int → D → D → Prop
  | [], d, dfin => dfin = d
  | v :: vs, d, dfin =>
    fits_box E box ir (radius_for E mtop box ls ir v) = true
    ∧ radius_for E mtop box ls ir v ≤ rlist_max
    ∧ (vs ≠ [] → radius_for E mtop box ls ir v < rlist_ok)
    ∧ ∃ d1, dd_check E cr box { ir with nstlist := v } d true (radius_for E mtop box ls ir v)
          = .ok (true, d1)
        ∧ Accepts E cr mtop box ls rlist_ok rlist_max ir vs d1 dfin

/-- The note for GPU runs written at line 372. -/
def gpu_note (fp : Bool) (ir : t_inputrec) (bGPU : Bool) : List Event :=
  if fp && bGPU && decide (ir.nstlist < 20) then [Event.log (.nstl_gpu ir.nstlist)] else []

/-- The tests of lines 386-417 all fail, so that `increase_nstlist` neither
returns nor aborts there: the run is not an NVE run, it is not an old run
input with a GPU, and the tolerance is not negative. -/
def Searches (E : Extern M B D) (ir : t_inputrec) (bGPU : Bool) : Prop :=
  ¬ (E.EI_MD ir.eI = true ∧ ir.etc = E.etcNO) ∧ ¬ (ir.verletbuf_tol = 0 ∧ bGPU = true)
    ∧ ¬ ir.verletbuf_tol < 0

/-- The two collections of external functions give identical answers: every
function returns the same value on the same arguments and the constants are
equal. -/
def SameAnswers (E1 E2 : Extern M B D) : Prop :=
  (∀ e, E1.EI_DYNAMICS e = E2.EI_DYNAMICS e) ∧ (∀ e, E1.EI_MD e = E2.EI_MD e)
  ∧ E1.etcNO = E2.etcNO ∧ E1.ecutsVERLET = E2.ecutsVERLET ∧ E1.DIM = E2.DIM
  ∧ (∀ m, E1.natoms m = E2.natoms m) ∧ (∀ b, E1.det b = E2.det b)
  ∧ (∀ x, E1.cbrt x = E2.cbrt x)
  ∧ (∀ a b, E1.verletbuf_get_list_setup a b = E2.verletbuf_get_list_setup a b)
  ∧ (∀ m v ir ls, E1.calc_verlet_buffer_size m v ir ls = E2.calc_verlet_buffer_size m v ir ls)
  ∧ (∀ c x, E1.nbnxn_get_rlist_effective_inc c x = E2.nbnxn_get_rlist_effective_inc c x)
  ∧ (∀ e b, E1.max_cutoff2 e b = E2.max_cutoff2 e b)
  ∧ (∀ ir, E1.inputrec2nboundeddim ir = E2.inputrec2nboundeddim ir)
  ∧ (∀ d b ir r, E1.change_dd_cutoff d b ir r = E2.change_dd_cutoff d b ir r)
  ∧ (∀ ir b, E1.nbnxn_gpu_acceleration_supported ir b
      = E2.nbnxn_gpu_acceleration_supported ir b)

/-- What a run leaves in `*ir` and in the decomposition. -/
def Run.state (r : Run D) : t_inputrec × D := (r.ir, r.dd)

/-! ## The search loop as a walk over the remaining candidates -/

/-- The search of lines 470-524 in automatic mode, written as a recursion over
the list of candidates still to try: `n` and `r` are the interval and radius
accepted last, `d` is the decomposition state.  `tune_loop_eq_walk` shows that
the loop computes this. -/
def walk (E : Extern M B D) (cr : t_commrec D) (mtop : M) (box : B)
    (ls : verletbuf_list_setup_t) (rlist_ok rlist_max : ℚ) (ir : t_inputrec) :
    List Int → Int → ℚ → D → Except Err (Int × ℚ × D)
  | [], n, r, d => .ok (n, r, d)
  | v :: vs, n, r, d =>
    match dd_check E cr box { ir with nstlist := v } d
        (fits_box E box ir (radius_for E mtop box ls ir v)) (radius_for E mtop box ls ir v) with
    | .error e => .error e
    | .ok (bDD, d1) =>
      if fits_box E box ir (radius_for E mtop box ls ir v) && bDD
          && decide (radius_for E mtop box ls ir v ≤ rlist_max) then
        if !vs.isEmpty && decide (radius_for E mtop box ls ir v < rlist_ok) then
          walk E cr mtop box ls rlist_ok rlist_max ir vs v (radius_for E mtop box ls ir v) d1
        else .ok (v, radius_for E mtop box ls ir v, d1)
      else .ok (n, r, d1)

/-- The variables of the loop that the code after the loop reads. -/
def Tune.core (t : Tune D) : t_inputrec × ℚ × Bool × Bool × D :=
  (t.ir, t.rlist_new, t.bBox, t.bDD, t.dd)

/-- The block after the loop (lines 526-549) applied to the outcome of a walk:
interval `p.1`, radius `p.2.1`, decomposition state `p.2.2`, with `bBox` and
`bDD` true. -/
def tuned (fp : Bool) (cr : t_commrec D) (ir : t_inputrec) (out : List Event)
    (p : Int × ℚ × D) : Run D :=
  finish_tuning fp cr ir.nstlist out
    { ir := { ir with nstlist := p.1 }, dd := p.2.2, nstlist_ind := 0, nstlist_prev := 0,
      rlist_prev := 0, rlist_new := p.2.1, bBox := true, bDD := true, bCont := false }

end Runner

namespace Gmxfio

/-! ## String fields of the text backend (`src/gmxlib/gmxfio.c`)

A C string is given by the list of its characters before the terminating NUL;
a buffer handed to a function is a list of characters that may hold a NUL, and
the end of the list counts as a NUL. -/

/-- The loop of `encode_string` (lines 182-187) from index `i` on, where `src`
is what is left of the source from that index: the characters written to
`dst` and the final value of `i`. -/
def encode_loop (maxlen : Int) : List Char → Nat → List Char × Nat
  | [], i => ([], i)
  | c :: src, i =>
    if c ≠ '\x00' ∧ (i : Int) < maxlen - 1 then
      let r := encode_loop maxlen src (i + 1)
      ((if c = ' ' ∨ c = '\t' then '_' else c) :: r.1, r.2)
    else ([], i)

/-- The function `encode_string` (lines 178-191): the string left in `dst`. -/
def encode_string (maxlen : Int) (src : List Char) : List Char :=
  (encode_loop maxlen src 0).1

/-- The test `i == maxlen` of line 189, under which `encode_string` reports a
truncation. -/
def encode_string_reports (maxlen : Int) (src : List Char) : Bool :=
  decide (((encode_loop maxlen src 0).2 : Int) = maxlen)

/-- The loop of `decode_string` (lines 197-202) from index `i` on. -/
def decode_loop (maxlen : Int) : List Char → Nat → List Char × Nat
  | [], i => ([], i)
  | c :: src, i =>
    if c ≠ '\x00' ∧ (i : Int) < maxlen - 1 then
      let r := decode_loop maxlen src (i + 1)
      ((if c = '_' then ' ' else c) :: r.1, r.2)
    else ([], i)

/-- The function `decode_string` (lines 193-206): the string left in `dst`. -/
def decode_string (maxlen : Int) (src : List Char) : List Char :=
  (decode_loop maxlen src 0).1

/-- The function `strlen` on a buffer. -/
def strlen (s : List Char) : Nat := (s.takeWhile (fun c => c ≠ '\x00')).length

/-- The text that `do_ascwrite` hands to `fprintf` for an item of kind
`eioSTRING` (line 254). -/
def ascwrite_string (item : List Char) : List Char := encode_string 256 item

/-- What `do_ascread` stores for an item of kind `eioSTRING` read from the
token `cptr` (line 387). -/
def ascread_string (cptr : List Char) : List Char :=
  decode_string ((strlen cptr : Int) + 1) cptr

/-- The character written by `encode_string` for the character `c`. -/
def encode_char (c : Char) : Char := if c = ' ' ∨ c = '\t' then '_' else c

/-- The character written by `decode_string` for the character `c`. -/
def decode_char (c : Char) : Char := if c = '_' then ' ' else c

/-! ## The table of files (`src/gmxlib/gmxfio.c`)

The static variables `FIO`, `nFIO`, `curfio`, `do_read` and `do_write` are the
fields of the record `Fio`; `nFIO` is the length of the table `FIO_table`.  The pointer
`curfio` is given by the index of the record it points to.  Functions that
`gmxfio.c` takes from other files are the fields of the record `Files`. -/

/-- Ways in which the embedded code of `gmxfio.c` stops without returning. -/
inductive Err where
  /-- Call of `gmx_fatal` with the given message. -/
  | gmx_fatal (msg : String)
  /-- Call of `gmx_file` with the given message. -/
  | gmx_file (msg : String)
  /-- Call of `gmx_open` for the given file name. -/
  | gmx_open (fn : String)
  /-- Failure of `range_check(n, 0, nFIO)`, a fatal error. -/
  | range_check (n : Int)
  /-- Read through the pointer `curfio` while it is `NULL`. -/
  | null_dereference
  /-- Access to an array at an index that is not below its length. -/
  | index_out_of_range
  /-- The iteration bound of a loop of the embedding was used up. -/
  | out_of_fuel
  deriving DecidableEq, Repr

/-- The enumerators of file types that `gmxfio.c` names; the enumeration is
declared outside `gmxfio.c`. -/
structure FileTypes where
  efTPR : Int
  efTRR : Int
  efEDR : Int
  efXTC : Int
  efMTX : Int
  efTPA : Int
  efGRO : Int
  efPDB : Int
  efTPB : Int
  efTRJ : Int
  efENE : Int
  deriving DecidableEq, Repr

/-- The eleven enumerators in the order of lines 65-67. -/
def FileTypes.named (T : FileTypes) : List Int :=
  [T.efTPR, T.efTRR, T.efEDR, T.efXTC, T.efMTX, T.efTPA, T.efGRO, T.efPDB,
   T.efTPB, T.efTRJ, T.efENE]

/-- Line 65. -/
def ftpXDR (T : FileTypes) : List Int := [T.efTPR, T.efTRR, T.efEDR, T.efXTC, T.efMTX]

/-- Line 66. -/
def ftpASC (T : FileTypes) : List Int := [T.efTPA, T.efGRO, T.efPDB]

/-- Line 67. -/
def ftpBIN (T : FileTypes) : List Int := [T.efTPB, T.efTRJ, T.efENE]

/-- The macro `asize`: the number of elements of an array. -/
def asize (a : List Int) : Int := a.length

/-- The loop of `in_ftpset` (lines 78-80): `k` passes are left, `i` is the index
of the next one. -/
def in_ftpset_loop (ftp : Int) (set : List Int) : Nat → Nat → Bool → Except Err Bool
  | 0, _, bResult => .ok bResult
  | k + 1, i, bResult =>
    match set[i]? with
    | none => .error .index_out_of_range
    | some v => in_ftpset_loop ftp set k (i + 1) (if ftp = v then true else bResult)

/-- The function `in_ftpset` (lines 72-83). -/
def in_ftpset (ftp : Int) (nset : Int) (set : List Int) : Except Err Bool :=
  in_ftpset_loop ftp set nset.toNat 0 false

/-- The functions that `do_read` and `do_write` can point to. -/
inductive do_func where
  | do_dummy
  | do_xdr
  | do_ascread
  | do_ascwrite
  | do_binread
  | do_binwrite
  deriving DecidableEq, Repr

/-- A `FILE *` or `XDR *` that is not `NULL`. -/
inductive FilePtr where
  | stdin
  | stdout
  /-- The stream that `ffopen` or `xdropen` opened for this name and mode. -/
  | opened (fn : String) (mode : List Char)
  deriving DecidableEq, Repr

/-- The record `t_fileio` (lines 56-62). -/
structure t_fileio where
  iFTP : Int
  bOpen : Bool
  bRead : Bool
  bDouble : Bool
  bDebug : Bool
  bStdio : Bool
  fn : String
  fp : Option FilePtr
  xdr : Option FilePtr
  deriving DecidableEq, Repr

/-- The static variables of lines 94-95 and 123-125. -/
structure Fio where
  /-- The array `FIO`; its length is `nFIO`. -/
  FIO_table : List t_fileio
  curfio : Option Nat
  do_read : do_func
  do_write : do_func
  deriving DecidableEq, Repr

/-- The record `*curfio`; reading it while `curfio` is `NULL` is the result
`null_dereference`. -/
def Fio.cur (st : Fio) : Except Err t_fileio :=
  match st.curfio with
  | none => .error .null_dereference
  | some c =>
    match st.FIO_table[c]? with
    | none => .error .index_out_of_range
    | some cur => .ok cur

/-- The static variables before any call. -/
def Fio.initial : Fio :=
  { FIO_table := [], curfio := none, do_read := .do_dummy, do_write := .do_dummy }

/-- Constant `DIM`. -/
def DIM : Nat := 3

/-- The values of `sizeof` for the types that the binary backend transfers,
and the choice of the type `real`. -/
structure Sizes where
  sizeof_float : Nat
  sizeof_double : Nat
  sizeof_int : Nat
  sizeof_unsigned_char : Nat
  sizeof_unsigned_short : Nat
  /-- Whether `real` is `double`; it is `float` otherwise. -/
  real_is_double : Bool
  deriving DecidableEq, Repr

/-- The value of `sizeof(real)`. -/
def Sizes.sizeof_real (S : Sizes) : Nat :=
  if S.real_is_double then S.sizeof_double else S.sizeof_float

/-- The value of `sizeof(rvec)`; `rvec` is `real[DIM]`. -/
def Sizes.sizeof_rvec (S : Sizes) : Nat := DIM * S.sizeof_real

/-- The value of `sizeof(ivec)`; `ivec` is `int[DIM]`. -/
def Sizes.sizeof_ivec (S : Sizes) : Nat := DIM * S.sizeof_int

/-- The functions and constants used by the table functions whose definitions
are outside `gmxfio.c`. -/
structure Files where
  /-- The function `fn2ftp`; it is also called with `NULL`. -/
  fn2ftp : Option String → Int
  /-- The function `ftp2ftype`. -/
  ftp2ftype : Int → List Char
  /-- The function `ftp2ext`. -/
  ftp2ext : Int → String
  /-- The function `fexist`. -/
  fexist : String → Bool
  /-- The function `backup_fn`. -/
  backup_fn : String → String
  /-- The value returned by `rename`. -/
  rename : String → String → Int
  /-- Whether `xdropen(xdr, fn, mode)` succeeds. -/
  xdropen : String → List Char → Bool
  /-- The function `ffopen`, which returns the stream or does not return. -/
  ffopen : String → List Char → Except Err FilePtr
  /-- The values of `sizeof`. -/
  sizes : Sizes

/-- Text printed to stderr by `gmx_fio_open`. -/
inductive Note where
  /-- The message "Back Off! I just backed up %s to %s". -/
  | backed_up (fn bf : String)
  /-- The message "Sorry, I couldn't backup %s to %s". -/
  | not_backed_up (fn bf : String)
  deriving DecidableEq, Repr

/-- The macro `gmx_fio_check` (line 631), `range_check(fio, 0, nFIO)`: a fatal
error unless `0 <= fio < nFIO`; otherwise the index as a natural number. -/
def gmx_fio_check (fio : Int) (st : Fio) : Except Err Nat :=
  if 0 ≤ fio ∧ fio < st.FIO_table.length then .ok fio.toNat else .error (.range_check fio)

/-- Lines 646-664 of `gmx_fio_open`: the string `newmode`.  The size of the
array `newmode` is not modelled. -/
def open_newmode (T : FileTypes) (X : Files) (fn : Option String) (mode : List Char) :
    Except Err (List Char) :=
  let copied : Except Err (List Char) :=
    if X.fn2ftp fn = T.efTPA then .ok mode
    else if mode.head? = some 'r' then .ok ['r']
    else if mode.head? = some 'w' then .ok ['w']
    else if mode.head? = some 'a' then .ok ['a']
    else .error (.gmx_fatal ("DEATH HORROR in gmx_fio_open, mode is " ++ String.mk mode))
  match copied with
  | .error e => .error e
  | .ok newmode =>
    if Runner.strncmp (X.ftp2ftype (X.fn2ftp fn)) "ASCII".data 5 ≠ 0 then
      if 'b' ∉ newmode ∧ 'B' ∉ newmode then .ok (newmode ++ ['b']) else .ok newmode
    else .ok newmode

/-- The loop of lines 667-672 from index `i` on, where the list holds the
records from that index: the final value of `i`, which is the index of the
first record that is not open, or `nFIO`. -/
def first_closed : List t_fileio → Nat → Nat
  | [], i => i
  | r :: rs, i => if !r.bOpen then i else first_closed rs (i + 1)

/-- Lines 680-727 of `gmx_fio_open`: the values assigned to the fields of the
slot, and the text printed. -/
def open_record (T : FileTypes) (X : Files) (fn : Option String) (newmode : List Char) :
    Except Err (t_fileio × List Note) :=
  let bRead := decide (newmode.head? = some 'r')
  match fn with
  | some name =>
    let iFTP := X.fn2ftp (some name)
    match in_ftpset iFTP (asize (ftpXDR T)) (ftpXDR T) with
    | .error e => .error e
    | .ok true =>
      let checked : Except Err (List Note) :=
        if newmode.head? = some 'w' then
          if X.fexist name then
            if X.rename name (X.backup_fn name) = 0 then
              .ok [Note.backed_up name (X.backup_fn name)]
            else .ok [Note.not_backed_up name (X.backup_fn name)]
          else .ok []
        else if !X.fexist name then .error (.gmx_open name)
        else .ok []
      match checked with
      | .error e => .error e
      | .ok out =>
        if !X.xdropen name newmode then .error (.gmx_open name)
        else
          .ok ({ iFTP := iFTP, bOpen := true, bRead := bRead,
                 bDouble := decide (X.sizes.sizeof_real = X.sizes.sizeof_double),
                 bDebug := false, bStdio := false, fn := name, fp := none,
                 xdr := some (.opened name newmode) }, out)
    | .ok false =>
      match X.ffopen name newmode with
      | .error e => .error e
      | .ok fp =>
        .ok ({ iFTP := iFTP, bOpen := true, bRead := bRead,
               bDouble := decide (X.sizes.sizeof_real = X.sizes.sizeof_double),
               bDebug := false, bStdio := false, fn := name, fp := some fp, xdr := none }, [])
  | none =>
    .ok ({ iFTP := T.efTPA, bOpen := true, bRead := bRead,
           bDouble := decide (X.sizes.sizeof_real = X.sizes.sizeof_double),
           bDebug := false, bStdio := true, fn := "STDIO",
           fp := some (if bRead then .stdin else .stdout), xdr := none }, [])

/-- What `gmx_fio_open` leaves behind when it returns: the value returned, the
static variables and the text printed. -/
structure Opened where
  nfio : Nat
  st : Fio
  out : List Note
  deriving DecidableEq, Repr

/-- The function `gmx_fio_open` (lines 638-730). -/
def gmx_fio_open (T : FileTypes) (X : Files) (fn : Option String) (mode : List Char)
    (st : Fio) : Except Err Opened :=
  match open_newmode T X fn mode with
  | .error e => .error e
  | .ok newmode =>
    let i := first_closed st.FIO_table 0
    match open_record T X fn newmode with
    | .error e => .error e
    | .ok (fio, out) =>
      if i = st.FIO_table.length then
        .ok { nfio := st.FIO_table.length, st := { st with FIO_table := st.FIO_table ++ [fio] }, out := out }
      else .ok { nfio := i, st := { st with FIO_table := st.FIO_table.set i fio }, out := out }

/-- The function `gmx_fio_close` (lines 733-751).  The streams it closes and
the storage it frees are not modelled. -/
def gmx_fio_close (fio : Int) (st : Fio) : Except Err Fio :=
  match gmx_fio_check fio st with
  | .error e => .error e
  | .ok i =>
    .ok { st with FIO_table := st.FIO_table.modify (fun r => { r with bOpen := false }) i,
                  do_read := .do_dummy, do_write := .do_dummy }

/-- The function `gmx_fio_select` (lines 753-788), with `USE_XDR` defined. -/
def gmx_fio_select (T : FileTypes) (X : Files) (fio : Int) (st : Fio) : Except Err Fio :=
  match gmx_fio_check fio st with
  | .error e => .error e
  | .ok i =>
    match st.FIO_table[i]? with
    | none => .error .index_out_of_range
    | some r =>
      match in_ftpset r.iFTP (asize (ftpXDR T)) (ftpXDR T) with
      | .error e => .error e
      | .ok true => .ok { st with do_read := .do_xdr, do_write := .do_xdr, curfio := some i }
      | .ok false =>
        match in_ftpset r.iFTP (asize (ftpASC T)) (ftpASC T) with
        | .error e => .error e
        | .ok true =>
          .ok { st with do_read := .do_ascread, do_write := .do_ascwrite, curfio := some i }
        | .ok false =>
          match in_ftpset r.iFTP (asize (ftpBIN T)) (ftpBIN T) with
          | .error e => .error e
          | .ok true =>
            .ok { st with do_read := .do_binread, do_write := .do_binwrite, curfio := some i }
          | .ok false =>
            -- line 784: the argument `ftp2ext(curfio->iFTP)` is evaluated first
            st.cur.bind (fun cur =>
              .error (.gmx_fatal ("Can not read/write topologies to file type "
                ++ X.ftp2ext cur.iFTP)))

/-- The function `gmx_fio_setprecision` (lines 790-794). -/
def gmx_fio_setprecision (fio : Int) (bDouble : Bool) (st : Fio) : Except Err Fio :=
  match gmx_fio_check fio st with
  | .error e => .error e
  | .ok i => .ok { st with FIO_table := st.FIO_table.modify (fun r => { r with bDouble := bDouble }) i }

/-- The function `gmx_fio_getname` (lines 808-812). -/
def gmx_fio_getname (fio : Int) (st : Fio) : Except Err String :=
  match gmx_fio_check fio st with
  | .error e => .error e
  | .ok _ => st.cur.map (fun cur => cur.fn)

/-- The function `gmx_fio_getftp` (lines 820-824). -/
def gmx_fio_getftp (fio : Int) (st : Fio) : Except Err Int :=
  match gmx_fio_check fio st with
  | .error e => .error e
  | .ok i =>
    match st.FIO_table[i]? with
    | none => .error .index_out_of_range
    | some r => .ok r.iFTP

/-- The function `gmx_fio_getread` (lines 887-892). -/
def gmx_fio_getread (fio : Int) (st : Fio) : Except Err Bool :=
  match gmx_fio_check fio st with
  | .error e => .error e
  | .ok i =>
    match st.FIO_table[i]? with
    | none => .error .index_out_of_range
    | some r => .ok r.bRead

/-! ## The raw-binary backend -/

/-- The kinds of items, in the order of `eioNames` (line 126); `other` stands
for every other value of the argument `eio`. -/
inductive Eio where
  | eioREAL
  | eioINT
  | eioNUCHAR
  | eioUSHORT
  | eioRVEC
  | eioNRVEC
  | eioIVEC
  | eioSTRING
  | other (eio : Int)
  deriving DecidableEq, Repr

/-- The function `_check_nitem` (lines 157-163). -/
def check_nitem (eio : Eio) (nitem : Nat) : Except Err Unit :=
  if nitem ≠ 1 ∧ ¬ (eio = .eioNRVEC ∨ eio = .eioNUCHAR) then
    .error (.gmx_fatal "nitem may differ from 1 only for NUCHAR or NRVEC")
  else .ok ()

/-- The function `fe` (lines 167-173), called through the macro `FE`. -/
def fe (cur : t_fileio) : Err :=
  .gmx_fatal (if cur.bRead then "Trying to read" else "Trying to write")

/-- The function `do_binwrite` (lines 402-447) for the record `cur` that
`curfio` points to: the number of bytes handed to `fwrite` during the call,
the nested call included.  `len` is `strlen((char *)item)`, which only the
kind `eioSTRING` reads.  The first argument bounds the depth of the nested
calls. -/
def do_binwrite_depth (S : Sizes) (cur : t_fileio) :
    Nat → Eio → Nat → Nat → Except Err Nat
  | 0, _, _, _ => .error .out_of_fuel
  | depth + 1, eio, nitem, len =>
    match check_nitem eio nitem with
    | .error e => .error e
    | .ok _ =>
      match eio with
      | .eioREAL => .ok (S.sizeof_real * nitem)
      | .eioINT => .ok (S.sizeof_int * nitem)
      | .eioNUCHAR => .ok (S.sizeof_unsigned_char * nitem)
      | .eioUSHORT => .ok (S.sizeof_unsigned_short * nitem)
      | .eioRVEC => .ok (S.sizeof_rvec * nitem)
      | .eioNRVEC => .ok (S.sizeof_rvec * nitem)
      | .eioIVEC => .ok (S.sizeof_ivec * nitem)
      | .eioSTRING =>
        -- `size = ssize = strlen((char *)item)+1`, then the length is written
        match do_binwrite_depth S cur depth .eioINT 1 len with
        | .error e => .error e
        | .ok written => .ok (written + (len + 1) * nitem)
      | .other _ => .error (fe cur)

/-- The function `do_binwrite`. -/
def do_binwrite (S : Sizes) (cur : t_fileio) (eio : Eio) (nitem : Nat) (len : Nat) :
    Except Err Nat :=
  do_binwrite_depth S cur 2 eio nitem len

/-- The function `do_binread` (lines 449-505) for the record `cur` that
`curfio` points to: the number of bytes that the call consumes, the nested
call included.  With an item `fread` is asked for `size*nitem` bytes, without
one `fseek` skips as many.  `ssize` is the value that the nested call stores
in `ssize`, which only the kind `eioSTRING` reads. -/
def do_binread_depth (S : Sizes) (cur : t_fileio) :
    Nat → Eio → Nat → Nat → Except Err Nat
  | 0, _, _, _ => .error .out_of_fuel
  | depth + 1, eio, nitem, ssize =>
    match check_nitem eio nitem with
    | .error e => .error e
    | .ok _ =>
      match eio with
      | .eioREAL =>
        .ok ((if cur.bDouble then S.sizeof_double else S.sizeof_float) * nitem)
      | .eioINT => .ok (S.sizeof_int * nitem)
      | .eioNUCHAR => .ok (S.sizeof_unsigned_char * nitem)
      | .eioUSHORT => .ok (S.sizeof_unsigned_short * nitem)
      | .eioRVEC =>
        .ok ((if cur.bDouble then S.sizeof_double * DIM else S.sizeof_float * DIM) * nitem)
      | .eioNRVEC =>
        .ok ((if cur.bDouble then S.sizeof_double * DIM else S.sizeof_float * DIM) * nitem)
      | .eioIVEC => .ok (S.sizeof_ivec * nitem)
      | .eioSTRING =>
        match do_binread_depth S cur depth .eioINT 1 ssize with
        | .error e => .error e
        | .ok consumed => .ok (consumed + ssize * nitem)
      | .other _ => .error (fe cur)

/-- The function `do_binread`. -/
def do_binread (S : Sizes) (cur : t_fileio) (eio : Eio) (nitem : Nat) (ssize : Nat) :
    Except Err Nat :=
  do_binread_depth S cur 2 eio nitem ssize

/-! ## The reader of the text backend

The file is given by the strings that `fgets2` returns for it one after the
other, each without the end of the line and without a NUL.  The static array
`buf` holds the line read last, followed by a NUL. -/

/-- The function `isspace` of the C library in the "C" locale. -/
def isspace (c : Char) : Bool :=
  c = ' ' ∨ c = '\t' ∨ c = '\n' ∨ c = '\x0b' ∨ c = '\x0c' ∨ c = '\r'

/-- Line 279. -/
def MAXBUF : Nat := 20

/-- The static variables `buf`, `bufindex` and `nbuf` of `next_item`, and the
part of the file that has not been read. -/
structure Reader where
  lines : List (List Char)
  buf : List Char
  bufindex : List Nat
  nbuf : Nat
  deriving DecidableEq, Repr

/-- The static variables when a file with these lines is about to be read. -/
def Reader.start (lines : List (List Char)) : Reader :=
  { lines := lines, buf := [], bufindex := List.replicate MAXBUF 0, nbuf := 0 }

/-- The loops of lines 301-302 and 308-309 from index `i` on, where the list
holds `buf` from that index: `i` is increased while the character is neither
NUL nor a semicolon and satisfies `p`. -/
def scan_run (p : Char → Bool) : List Char → Nat → Nat
  | [], i => i
  | c :: cs, i => if c ≠ '\x00' ∧ c ≠ ';' ∧ p c = true then scan_run p cs (i + 1) else i

/-- The values of `buf`, `bufindex` and `nbuf` after the loop of lines 299-324. -/
structure Split where
  buf : List Char
  bufindex : List Nat
  nbuf : Nat
  deriving DecidableEq, Repr

/-- The loop `do ... while ((ccc != '\0') && (ccc != ';'))` of lines 299-324,
with an iteration bound.  A write to `bufindex` at an index that is not below
`MAXBUF` is the result `index_out_of_range`. -/
def split_loop : Nat → List Char → Nat → List Nat → Nat → Except Err Split
  | 0, _, _, _, _ => .error .out_of_fuel
  | fuel + 1, buf, i, bufindex, nbuf =>
    let j0 := scan_run isspace (buf.drop i) i
    let i1 := scan_run (fun c => !isspace c) (buf.drop j0) j0
    let ccc := buf.getD i1 '\x00'
    if i1 > j0 then
      if nbuf < MAXBUF then
        if ccc ≠ '\x00' ∧ ccc ≠ ';' then
          split_loop fuel (buf.set i1 '\x00') (i1 + 1) (bufindex.set nbuf j0) (nbuf + 1)
        else .ok { buf := buf.set i1 '\x00', bufindex := bufindex.set nbuf j0, nbuf := nbuf + 1 }
      else .error .index_out_of_range
    else if ccc ≠ '\x00' ∧ ccc ≠ ';' then split_loop fuel buf i1 bufindex nbuf
    else .ok { buf := buf, bufindex := bufindex, nbuf := nbuf }

/-- The loop `for(i=1; (i<nbuf); i++) bufindex[i-1] = bufindex[i]` of lines
287-288: `k` passes are left, `i` is the index of the next one. -/
def shift_loop : Nat → Nat → List Nat → Except Err (List Nat)
  | 0, _, bufindex => .ok bufindex
  | k + 1, i, bufindex =>
    match bufindex[i]? with
    | none => .error .index_out_of_range
    | some v => shift_loop k (i + 1) (bufindex.set (i - 1) v)

/-- The C string that starts at `buf + j0`. -/
def cstring_at (buf : List Char) (j0 : Nat) : List Char :=
  (buf.drop j0).takeWhile (fun c => c ≠ '\x00')

/-- The function `next_item` (lines 269-328): the string returned and the
static variables after the call.  At the end of the file `fgets2` returns
`NULL` and `gmx_file` is called. -/
def next_item : List (List Char) → List Char → List Nat → Nat →
    Except Err (List Char × Reader)
  | lines, buf, bufindex, nbuf + 1 =>
    match bufindex[0]? with
    | none => .error .index_out_of_range
    | some j0 =>
      match shift_loop nbuf 1 bufindex with
      | .error e => .error e
      | .ok shifted =>
        .ok (cstring_at buf j0,
             { lines := lines, buf := buf, bufindex := shifted, nbuf := nbuf })
  | [], _, _, 0 => .error (.gmx_file "End of file")
  | line :: lines, _, bufindex, 0 =>
    match split_loop (line.length + 1) (line ++ ['\x00']) 0 bufindex 0 with
    | .error e => .error e
    | .ok s => next_item lines s.buf s.bufindex s.nbuf

/-- The function `next_item` on the record of its static variables. -/
def Reader.next_item (r : Reader) : Except Err (List Char × Reader) :=
  Gmxfio.next_item r.lines r.buf r.bufindex r.nbuf

/-- The first `n` calls of `next_item`: the strings returned, in order, and the
static variables after the last call. -/
def read_items : Nat → Reader → Except Err (List (List Char) × Reader)
  | 0, r => .ok ([], r)
  | n + 1, r =>
    match r.next_item with
    | .error e => .error e
    | .ok (item, r1) =>
      match read_items n r1 with
      | .error e => .error e
      | .ok (items, r2) => .ok (item :: items, r2)

/-! ## Lines of unsigned characters in the text backend -/

/-- The text that `printf` produces for `%4d` and the like: the decimal digits
of `n`, padded with blanks on the left to `width` characters. -/
def fmt_d (width : Nat) (n : Nat) : List Char :=
  List.replicate (width - (Nat.toDigits 10 n).length) ' ' ++ Nat.toDigits 10 n

/-- The function `dbgstr` (lines 130-141) for the record `cur` that `curfio`
points to. -/
def dbgstr (cur : t_fileio) (add_comment : Option String) (desc : String) : List Char :=
  if !cur.bDebug then []
  else ("  ; " ++ add_comment.getD "" ++ " " ++ desc).data

/-- The loop of lines 228-229 of `do_ascwrite`: the text printed for the
elements of `ucptr` from index `i` on; `k` passes are left. -/
def ascwrite_nuchar_loop (ucptr : List Nat) : Nat → Nat → Except Err (List Char)
  | 0, _ => .ok []
  | k + 1, i =>
    match ucptr[i]? with
    | none => .error .index_out_of_range
    | some v =>
      match ascwrite_nuchar_loop ucptr k (i + 1) with
      | .error e => .error e
      | .ok rest => .ok (fmt_d 4 v ++ rest)

/-- The case `eioNUCHAR` of `do_ascwrite` (lines 226-231): the line printed,
without the end of the line. -/
def ascwrite_nuchar (cur : t_fileio) (add_comment : Option String) (desc : String)
    (ucptr : List Nat) (nitem : Nat) : Except Err (List Char) :=
  match ascwrite_nuchar_loop ucptr nitem 0 with
  | .error e => .error e
  | .ok text => .ok (text ++ dbgstr cur add_comment desc)

/-- The case `eioNUCHAR` of `do_ascread` (lines 350-356): the strings that are
handed to `sscanf`, one for each of the `nitem` elements, and the static
variables after the call. -/
def ascread_nuchar (nitem : Nat) (r : Reader) : Except Err (List (List Char) × Reader) :=
  read_items nitem r

/-! ## Vocabulary of the statements on the text reader -/

/-- The items of a line: the maximal runs of characters that are neither
white space nor a semicolon, up to the first semicolon.  `cur` is the run that
is being collected. -/
def items_from : List Char → List Char → List (List Char)
  | [], cur => if cur = [] then [] else [cur]
  | c :: cs, cur =>
    if c = ';' then (if cur = [] then [] else [cur])
    else if isspace c then (if cur = [] then [] else [cur]) ++ items_from cs []
    else items_from cs (cur ++ [c])

/-- The items of a line. -/
def items_of (line : List Char) : List (List Char) := items_from line []

/-- The handles that are in use after a sequence of calls: a call of
`gmx_fio_open` adds the handle it returns, a call of `gmx_fio_close` removes
its argument. -/
inductive Call where
  | fio_open (fn : Option String) (mode : List Char)
  | fio_close (fio : Int)
  deriving DecidableEq, Repr

/-- The static variables and the list of handles in use after the calls `cs`,
made in this order from the variables `st` with the handles `hs` in use. -/
def run_calls (T : FileTypes) (X : Files) :
    List Call → Fio → List Nat → Except Err (Fio × List Nat)
  | [], st, hs => .ok (st, hs)
  | .fio_open fn mode :: cs, st, hs =>
    match gmx_fio_open T X fn mode st with
    | .error e => .error e
    | .ok o => run_calls T X cs o.st (o.nfio :: hs)
  | .fio_close fio :: cs, st, hs =>
    match gmx_fio_close fio st with
    | .error e => .error e
    | .ok st1 => run_calls T X cs st1 (hs.filter (fun h => (h : Int) ≠ fio))

/-- The handles `hs` are in use for the static variables `st`: they are
pairwise distinct, and each of them lies in `[0, nFIO)` and has a slot that is
marked open. -/
def InUse (st : Fio) (hs : List Nat) : Prop :=
  hs.Nodup ∧ ∀ h ∈ hs, h < st.FIO_table.length
    ∧ (st.FIO_table[h]?).map (fun r => r.bOpen) = some true

/-- File types for the examples: the eleven enumerators named in `gmxfio.c`
are numbered from 0 in the order of lines 65-67. -/
def exampleTypes : FileTypes :=
  { efTPR := 0, efTRR := 1, efEDR := 2, efXTC := 3, efMTX := 4, efTPA := 5, efGRO := 6,
    efPDB := 7, efTPB := 8, efTRJ := 9, efENE := 10 }

/-- External functions for the examples: the type of a file follows from its
name (20 stands for a type that `gmxfio.c` does not name), every file exists
and can be opened, `real` is `float`. -/
def exampleFiles : Files where
  fn2ftp fn :=
    if fn = some "topol.tpr" then 0 else if fn = some "traj.trr" then 1
    else if fn = some "topol.tpa" then 5 else if fn = some "conf.gro" then 6
    else if fn = some "topol.tpb" then 8 else 20
  ftp2ftype ftp := if ftp = 5 ∨ ftp = 6 ∨ ftp = 7 ∨ ftp = 20 then "ASCII".data else "Binary".data
  ftp2ext ftp := if ftp = 20 then "g96" else "???"
  fexist _ := true
  backup_fn fn := "#" ++ fn ++ ".1#"
  rename _ _ := 0
  xdropen _ _ := true
  ffopen fn mode := .ok (.opened fn mode)
  sizes := { sizeof_float := 4, sizeof_double := 8, sizeof_int := 4, sizeof_unsigned_char := 1,
             sizeof_unsigned_short := 2, real_is_double := false }

/-- The record of a text file that is being written, for the examples. -/
def exampleText : t_fileio :=
  { iFTP := 5, bOpen := true, bRead := false, bDebug := false, bDouble := false,
    bStdio := false, fn := "topol.tpa", fp := some (.opened "topol.tpa" ['w']), xdr := none }

/-- The strings `items` are buffered: `nbuf` is their number, and the entries
of `bufindex` below `nbuf` are the indices in `buf` at which they start, in
order. -/
def Buffered (buf : List Char) (bufindex : List Nat) (nbuf : Nat)
    (items : List (List Char)) : Prop :=
  nbuf = items.length ∧ bufindex.length = MAXBUF ∧ items.length ≤ MAXBUF
    ∧ ∀ (k : Nat) (t : List Char), items[k]? = some t → ∃ j : Nat, bufindex[k]? = some j ∧ cstring_at buf j = t

/-- The lines are well formed for the reader: they hold no NUL and at most
`MAXBUF` items each. -/
def Readable (lines : List (List Char)) : Prop :=
  ∀ l ∈ lines, (∀ c ∈ l, c ≠ '\x00') ∧ (items_of l).length ≤ MAXBUF

/-- The strings `rest` are what the reader `r` has still to return: the items
buffered, followed by the items of the lines not yet read. -/
def Remaining (r : Reader) (rest : List (List Char)) : Prop :=
  Readable r.lines
    ∧ ∃ items, Buffered r.buf r.bufindex r.nbuf items
        ∧ items ++ (r.lines.map items_of).flatten = rest

end Gmxfio

namespace Runner

variable {M B D : Type}

/-! ## Lemmas on the loops -/

theorem scan_eq (n : Int) : scan_nstlist_ind n (NNSTL + 1) 0 = .ok (start_index n) := by
  simp only [NNSTL, nstlist_try, List.length, scan_nstlist_ind, nstlist_try_at, start_index]
  by_cases h1 : (20:Int) ≤ n <;> by_cases h2 : (25:Int) ≤ n <;> by_cases h3 : (40:Int) ≤ n <;>
    simp [List.takeWhile, h1, h2, h3]

theorem tune_body_auto (E : Extern M B D) (cr : t_commrec D) (cmd : Int) (mtop : M) (box : B)
    (ls : verletbuf_list_setup_t) (rlist_ok rlist_max : ℚ) (ir : t_inputrec) (hcmd : cmd ≤ 0)
    (s : Tune D) (v : Int) (hv : nstlist_try[s.nstlist_ind]? = some v)
    (hir : { s.ir with nstlist := v } = { ir with nstlist := v }) :
    tune_body E cr cmd mtop box ls rlist_ok rlist_max s =
      match dd_check E cr box { ir with nstlist := v } s.dd
        (fits_box E box ir (radius_for E mtop box ls ir v)) (radius_for E mtop box ls ir v) with
      | .error e => .error e
      | .ok (bDD, dd) =>
        .ok (decide_candidate cmd rlist_ok rlist_max s { ir with nstlist := v } dd
          (radius_for E mtop box ls ir v) (fits_box E box ir (radius_for E mtop box ls ir v)) bDD) := by
  simp only [tune_body, hcmd, if_true, nstlist_try_at, hv, Except.map, hir, radius_for,
    fits_box]

theorem drop_isEmpty (i : Nat) : (nstlist_try.drop (i + 1)).isEmpty = !decide (i + 1 < NNSTL) := by
  have h : ∀ b c : Bool, (b = true ↔ c = true) → b = c := by decide
  apply h
  simp only [List.isEmpty_iff, List.drop_eq_nil_iff, NNSTL, Bool.not_eq_true',
    decide_eq_false_iff_not, not_lt]

theorem tune_loop_eq_walk (E : Extern M B D) (cr : t_commrec D) (cmd : Int) (mtop : M) (box : B)
    (ls : verletbuf_list_setup_t) (rlist_ok rlist_max : ℚ) (ir : t_inputrec) (hcmd : cmd ≤ 0) :
    ∀ (fuel : Nat) (s : Tune D), s.nstlist_ind < NNSTL → NNSTL ≤ s.nstlist_ind + fuel →
      (∀ v, { s.ir with nstlist := v } = { ir with nstlist := v }) →
      (tune_loop E cr cmd mtop box ls rlist_ok rlist_max fuel s).map Tune.core
        = (walk E cr mtop box ls rlist_ok rlist_max ir (nstlist_try.drop s.nstlist_ind)
            s.nstlist_prev s.rlist_prev s.dd).map
            (fun p => ({ ir with nstlist := p.1 }, p.2.1, true, true, p.2.2)) := by
  intro fuel
  induction fuel with
  | zero => intro s h1 h2; omega
  | succ fuel ih =>
    intro s h1 h2 hir
    have hlt : s.nstlist_ind < nstlist_try.length := h1
    have hv : nstlist_try[s.nstlist_ind]? = some (nstlist_try[s.nstlist_ind]) :=
      List.getElem?_eq_getElem hlt
    have hdrop : nstlist_try.drop s.nstlist_ind
        = nstlist_try[s.nstlist_ind] :: nstlist_try.drop (s.nstlist_ind + 1) :=
      List.drop_eq_getElem_cons hlt
    generalize nstlist_try[s.nstlist_ind] = v at hv hdrop
    rw [tune_loop, tune_body_auto E cr cmd mtop box ls rlist_ok rlist_max ir hcmd s v hv (hir v),
      hdrop, walk]
    cases hdd : dd_check E cr box { ir with nstlist := v } s.dd
        (fits_box E box ir (radius_for E mtop box ls ir v)) (radius_for E mtop box ls ir v) with
    | error e => simp [Except.map]
    | ok p =>
      obtain ⟨bDD, d1⟩ := p
      simp only [decide_candidate, hcmd, if_true, drop_isEmpty]
      by_cases hacc : (fits_box E box ir (radius_for E mtop box ls ir v) && bDD
          && decide (radius_for E mtop box ls ir v ≤ rlist_max)) = true
      · simp only [hacc, if_true]
        by_cases hcont : (decide (s.nstlist_ind + 1 < NNSTL)
            && decide (radius_for E mtop box ls ir v < rlist_ok)) = true
        · have hc2 : (!(!decide (s.nstlist_ind + 1 < NNSTL))
              && decide (radius_for E mtop box ls ir v < rlist_ok)) = true := by simpa using hcont
          simp only [hcont, hc2, if_true]
          have hlt2 : s.nstlist_ind + 1 < NNSTL := by
            simp only [Bool.and_eq_true, decide_eq_true_eq] at hcont; exact hcont.1
          exact ih _ hlt2 (by simp only; omega) (fun w => rfl)
        · have hc2 : ¬ (!(!decide (s.nstlist_ind + 1 < NNSTL))
              && decide (radius_for E mtop box ls ir v < rlist_ok)) = true := by simpa using hcont
          simp only [hcont, hc2, if_false, Except.map, Tune.core]
          simp only [Bool.and_eq_true] at hacc
          simp [hacc.1.1, hacc.1.2]
      · simp only [hacc, if_false, Except.map, Tune.core]
        simp

theorem finish_tuning_core (fp : Bool) (cr : t_commrec D) (n : Int) (out : List Event)
    (s t : Tune D) (h : s.core = t.core) :
    finish_tuning fp cr n out s = finish_tuning fp cr n out t := by
  obtain ⟨a1, a2, a3, a4, a5, a6, a7, a8, a9⟩ := s
  obtain ⟨b1, b2, b3, b4, b5, b6, b7, b8, b9⟩ := t
  simp only [Tune.core, Prod.mk.injEq] at h
  obtain ⟨rfl, rfl, rfl, rfl, rfl⟩ := h
  rfl

theorem search_block_auto (E : Extern M B D) (fp : Bool) (cr : t_commrec D) (ir : t_inputrec)
    (cmd : Int) (mtop : M) (box : B) (bGPU : Bool) (cpuinfo : CpuInfo) (i : Nat)
    (out : List Event) (hcmd : cmd ≤ 0) (hi : i < NNSTL) :
    search_block E fp cr ir cmd mtop box bGPU cpuinfo i out
      = (walk E cr mtop box (E.verletbuf_get_list_setup true bGPU)
          (tuner_bounds E ir mtop box bGPU cpuinfo).1 (tuner_bounds E ir mtop box bGPU cpuinfo).2
          ir (nstlist_try.drop i) ir.nstlist ir.rlist cr.dd).map (tuned fp cr ir out) := by
  have hn : ¬ cmd > 0 := by omega
  have key := tune_loop_eq_walk E cr cmd mtop box (E.verletbuf_get_list_setup true bGPU)
    (tuner_bounds E ir mtop box bGPU cpuinfo).1 (tuner_bounds E ir mtop box bGPU cpuinfo).2 ir hcmd
    NNSTL
    { ir := ir, dd := cr.dd, nstlist_ind := i, nstlist_prev := ir.nstlist,
      rlist_prev := ir.rlist, rlist_new := 0, bBox := true, bDD := true, bCont := false }
    hi (by simp only; omega) (fun v => rfl)
  simp only [search_block, hn, if_false]
  simp only [tuner_bounds, radius_for] at key ⊢
  revert key
  cases tune_loop E cr cmd mtop box (E.verletbuf_get_list_setup true bGPU) _ _ NNSTL _ with
  | error e =>
    cases walk E cr mtop box (E.verletbuf_get_list_setup true bGPU) _ _ ir _ _ _ _ with
    | error e2 => intro key; simp only [Except.map, Except.error.injEq] at key; simp [Except.map, key]
    | ok p => intro key; simp [Except.map] at key
  | ok s =>
    cases walk E cr mtop box (E.verletbuf_get_list_setup true bGPU) _ _ ir _ _ _ _ with
    | error e2 => intro key; simp [Except.map] at key
    | ok p =>
      intro key
      simp only [Except.map, Except.ok.injEq] at key
      simp only [Except.map, Except.ok.injEq, tuned]
      exact finish_tuning_core fp cr ir.nstlist out _ _ (by rw [key]; rfl)

theorem start_cases (n : Int) :
    (n < 20 ∧ start_index n = 0) ∨ (20 ≤ n ∧ n < 25 ∧ start_index n = 1)
      ∨ (25 ≤ n ∧ n < 40 ∧ start_index n = 2) ∨ (40 ≤ n ∧ start_index n = 3) := by
  simp only [start_index, nstlist_try]
  by_cases h1 : (20:Int) ≤ n <;> by_cases h2 : (25:Int) ≤ n <;> by_cases h3 : (40:Int) ≤ n <;>
    simp [List.takeWhile, h1, h2, h3] <;> omega

theorem drop_start_index (n : Int) :
    nstlist_try.drop (start_index n) = nstlist_try.filter (fun v => decide (n < v)) := by
  have f : ∀ (a : Int) (l : List Int), (a :: l).filter (fun v => decide (n < v))
      = if n < a then a :: l.filter (fun v => decide (n < v))
        else l.filter (fun v => decide (n < v)) := by
    intro a l; by_cases h : n < a <;> simp [List.filter, h]
  rcases start_cases n with ⟨h, e⟩ | ⟨h, h2, e⟩ | ⟨h, h2, e⟩ | ⟨h, e⟩ <;>
    rw [e] <;> simp only [nstlist_try, f, List.filter_nil, List.drop] <;>
    simp only [show (n < 20) ↔ _ from by first | exact iff_true_intro (by omega) | exact iff_false_intro (by omega),
      show (n < 25) ↔ _ from by first | exact iff_true_intro (by omega) | exact iff_false_intro (by omega),
      show (n < 40) ↔ _ from by first | exact iff_true_intro (by omega) | exact iff_false_intro (by omega),
      if_true, if_false]

theorem entry_block_auto (fp : Bool) (ir : t_inputrec) (cmd : Int) (bGPU : Bool)
    (hcmd : cmd ≤ 0) (hone : ir.nstlist ≠ 1) :
    entry_block fp ir cmd bGPU =
      .ok (if start_index ir.nstlist = NNSTL then .done (gpu_note fp ir bGPU)
           else .search (start_index ir.nstlist) (gpu_note fp ir bGPU)) := by
  simp only [entry_block, hcmd, if_true, hone, if_false, scan_eq, gpu_note]
  simp only [nstlist_try_at, nstlist_try, List.getElem?_cons_zero]
  split <;> rfl

theorem tuned_ir (fp : Bool) (cr : t_commrec D) (ir : t_inputrec) (out : List Event)
    (p : Int × ℚ × D) :
    (tuned fp cr ir out p).ir = { ir with nstlist := p.1, rlist := p.2.1 }
      ∧ (tuned fp cr ir out p).dd = p.2.2 := by
  obtain ⟨n, r, d⟩ := p
  simp only [tuned, finish_tuning, Bool.not_true, Bool.or_self, Bool.false_eq_true, if_false]
  by_cases h : n ≠ ir.nstlist ∨ r ≠ ir.rlist
  · simp [h]
  · simp only [h, if_false, and_true]
    simp only [not_or, not_not] at h
    rw [h.2]

theorem walk_error (E : Extern M B D) (cr : t_commrec D) (mtop : M) (box : B)
    (ls : verletbuf_list_setup_t) (rlist_ok rlist_max : ℚ) (ir : t_inputrec) :
    ∀ (cs : List Int) (n : Int) (r : ℚ) (d : D) (e : Err),
      walk E cr mtop box ls rlist_ok rlist_max ir cs n r d = .error e →
      ∃ msg, e = .gmx_incons msg := by
  intro cs
  induction cs with
  | nil => intro n r d e h; simp [walk] at h
  | cons v vs ih =>
    intro n r d e h
    rw [walk] at h
    cases hdd : dd_check E cr box { ir with nstlist := v } d
        (fits_box E box ir (radius_for E mtop box ls ir v)) (radius_for E mtop box ls ir v) with
    | error e2 =>
      rw [hdd] at h
      simp only [Except.error.injEq] at h
      subst h
      simp only [dd_check] at hdd
      split at hdd
      · split at hdd
        · exact ⟨_, (Except.error.inj hdd).symm⟩
        · cases hdd
      · cases hdd
    | ok p =>
      obtain ⟨bDD, d1⟩ := p
      rw [hdd] at h
      simp only at h
      split at h
      · split at h
        · exact ih _ _ _ _ h
        · cases h
      · cases h

theorem walk_accepts (E : Extern M B D) (cr : t_commrec D) (mtop : M) (box : B)
    (ls : verletbuf_list_setup_t) (rlist_ok rlist_max : ℚ) (ir : t_inputrec) :
    ∀ (cs : List Int) (n : Int) (r : ℚ) (d : D) (res : Int × ℚ × D),
      walk E cr mtop box ls rlist_ok rlist_max ir cs n r d = .ok res →
      (res.1 = n ∧ res.2.1 = r) ∨
      ∃ pre post dfin, cs = pre ++ post ∧ pre.getLast? = some res.1
        ∧ res.2.1 = radius_for E mtop box ls ir res.1
        ∧ Accepts E cr mtop box ls rlist_ok rlist_max ir pre d dfin := by
  intro cs
  induction cs with
  | nil => intro n r d res h; simp only [walk, Except.ok.injEq] at h; subst h; left; exact ⟨rfl, rfl⟩
  | cons v vs ih =>
    intro n r d res h
    rw [walk] at h
    cases hdd : dd_check E cr box { ir with nstlist := v } d
        (fits_box E box ir (radius_for E mtop box ls ir v)) (radius_for E mtop box ls ir v) with
    | error e2 => rw [hdd] at h; cases h
    | ok p =>
      obtain ⟨bDD, d1⟩ := p
      rw [hdd] at h
      simp only at h
      by_cases hacc : (fits_box E box ir (radius_for E mtop box ls ir v) && bDD
          && decide (radius_for E mtop box ls ir v ≤ rlist_max)) = true
      · rw [if_pos hacc] at h
        simp only [Bool.and_eq_true, decide_eq_true_eq] at hacc
        obtain ⟨⟨hbox, hbdd⟩, hmax⟩ := hacc
        subst hbdd
        rw [hbox] at hdd
        by_cases hcont : (!vs.isEmpty && decide (radius_for E mtop box ls ir v < rlist_ok)) = true
        · rw [if_pos hcont] at h
          simp only [Bool.and_eq_true, decide_eq_true_eq] at hcont
          rcases ih _ _ _ _ h with ⟨h1, h2⟩ | ⟨pre, post, dfin, hs, hl, hr, ha⟩
          · right
            refine ⟨[v], vs, d1, rfl, by simp [h1], by rw [h2, h1], ?_⟩
            exact ⟨hbox, hmax, fun hne => absurd rfl hne, d1, hdd, rfl⟩
          · right
            have hpne : pre ≠ [] := by
              intro hp; subst hp; simp at hl
            refine ⟨v :: pre, post, dfin, by simp [hs], ?_, hr, ?_⟩
            · cases pre with
              | nil => exact absurd rfl hpne
              | cons a t => rw [List.getLast?_cons_cons]; exact hl
            · exact ⟨hbox, hmax, fun _ => hcont.2, d1, hdd, ha⟩
        · rw [if_neg hcont] at h
          simp only [Except.ok.injEq] at h
          subst h
          right
          refine ⟨[v], vs, d1, rfl, rfl, rfl, ?_⟩
          exact ⟨hbox, hmax, fun hne => absurd rfl hne, d1, hdd, rfl⟩
      · rw [if_neg hacc] at h
        simp only [Except.ok.injEq] at h
        subst h
        left; exact ⟨rfl, rfl⟩

theorem increase_nstlist_auto (E : Extern M B D) (fp : Bool) (cr : t_commrec D)
    (ir : t_inputrec) (cmd : Int) (mtop : M) (box : B) (bGPU : Bool) (cpuinfo : CpuInfo)
    (hcmd : cmd ≤ 0) (hone : ir.nstlist ≠ 1) (hlt : start_index ir.nstlist < NNSTL)
    (hs : Searches E ir bGPU) :
    increase_nstlist E fp cr ir cmd mtop box bGPU cpuinfo
      = (walk E cr mtop box (E.verletbuf_get_list_setup true bGPU)
          (tuner_bounds E ir mtop box bGPU cpuinfo).1 (tuner_bounds E ir mtop box bGPU cpuinfo).2
          ir (nstlist_try.filter (fun v => decide (ir.nstlist < v))) ir.nstlist ir.rlist
          cr.dd).map (tuned fp cr ir (gpu_note fp ir bGPU)) := by
  obtain ⟨h1, h2, h3⟩ := hs
  have h1b : (E.EI_MD ir.eI && decide (ir.etc = E.etcNO)) = false := by
    simpa [Bool.and_eq_true] using h1
  have h2b : (decide (ir.verletbuf_tol = 0) && bGPU) = false := by
    simpa [Bool.and_eq_true] using h2
  rw [increase_nstlist, entry_block_auto fp ir cmd bGPU hcmd hone, if_neg (Nat.ne_of_lt hlt)]
  simp only [h1b, h2b, h3, if_false, Bool.false_eq_true]
  rw [search_block_auto E fp cr ir cmd mtop box bGPU cpuinfo _ _ hcmd hlt, drop_start_index]

/-- Outcomes of `increase_nstlist` in automatic mode. -/
theorem increase_nstlist_auto_cases (E : Extern M B D) (fp : Bool) (cr : t_commrec D)
    (ir : t_inputrec) (cmd : Int) (mtop : M) (box : B) (bGPU : Bool) (cpuinfo : CpuInfo)
    (hcmd : cmd ≤ 0) :
    (∃ out, increase_nstlist E fp cr ir cmd mtop box bGPU cpuinfo
        = .ok { ir := ir, dd := cr.dd, out := out })
    ∨ (increase_nstlist E fp cr ir cmd mtop box bGPU cpuinfo = .error (.gmx_fatal old_tpr_msg)
        ∧ ir.verletbuf_tol = 0 ∧ bGPU = true)
    ∨ (ir.nstlist ≠ 1 ∧ Searches E ir bGPU ∧
        increase_nstlist E fp cr ir cmd mtop box bGPU cpuinfo
          = (walk E cr mtop box (E.verletbuf_get_list_setup true bGPU)
              (tuner_bounds E ir mtop box bGPU cpuinfo).1
              (tuner_bounds E ir mtop box bGPU cpuinfo).2
              ir (nstlist_try.filter (fun v => decide (ir.nstlist < v))) ir.nstlist ir.rlist
              cr.dd).map (tuned fp cr ir (gpu_note fp ir bGPU))) := by
  by_cases hone : ir.nstlist = 1
  · left; exact ⟨[], by simp [increase_nstlist, entry_block, hcmd, hone]⟩
  by_cases hlt : start_index ir.nstlist < NNSTL
  swap
  · left
    have : start_index ir.nstlist = NNSTL := by
      rcases start_cases ir.nstlist with ⟨_, e⟩ | ⟨_, _, e⟩ | ⟨_, _, e⟩ | ⟨_, e⟩ <;>
        rw [e] at hlt ⊢ <;> simp [NNSTL, nstlist_try] at hlt ⊢
    exact ⟨_, by rw [increase_nstlist, entry_block_auto fp ir cmd bGPU hcmd hone, if_pos this]⟩
  have hstart : increase_nstlist E fp cr ir cmd mtop box bGPU cpuinfo =
      if (E.EI_MD ir.eI && decide (ir.etc = E.etcNO)) = true then
        .ok { ir := ir, dd := cr.dd,
              out := gpu_note fp ir bGPU
                ++ (if cr.MASTER then [Event.stderr (.lit nve_err)] else [])
                ++ (if fp then [Event.log (.lit nve_err)] else []) }
      else if (decide (ir.verletbuf_tol = 0) && bGPU) = true then
        .error (.gmx_fatal old_tpr_msg)
      else if ir.verletbuf_tol < 0 then
        .ok { ir := ir, dd := cr.dd,
              out := gpu_note fp ir bGPU
                ++ (if cr.MASTER then [Event.stderr (.lit vbd_err)] else [])
                ++ (if fp then [Event.log (.lit vbd_err)] else []) }
      else search_block E fp cr ir cmd mtop box bGPU cpuinfo (start_index ir.nstlist)
        (gpu_note fp ir bGPU) := by
    rw [increase_nstlist, entry_block_auto fp ir cmd bGPU hcmd hone, if_neg (Nat.ne_of_lt hlt)]
  by_cases h1 : (E.EI_MD ir.eI && decide (ir.etc = E.etcNO)) = true
  · left; exact ⟨_, by rw [hstart, if_pos h1]⟩
  by_cases h2 : (decide (ir.verletbuf_tol = 0) && bGPU) = true
  · right; left
    exact ⟨by rw [hstart, if_neg h1, if_pos h2], by simpa using h2⟩
  by_cases h3 : ir.verletbuf_tol < 0
  · left; exact ⟨_, by rw [hstart, if_neg h1, if_neg h2, if_pos h3]⟩
  · right; right
    have hs : Searches E ir bGPU :=
      ⟨by simpa [Bool.and_eq_true] using h1, by simpa [Bool.and_eq_true] using h2, h3⟩
    exact ⟨hone, hs, increase_nstlist_auto E fp cr ir cmd mtop box bGPU cpuinfo hcmd hone hlt hs⟩

theorem filter_of_find {α : Type} (p : α → Bool) (v : α) :
    ∀ l : List α, l.find? p = some v → ∃ vs, l.filter p = v :: vs := by
  intro l
  induction l with
  | nil => intro h; simp at h
  | cons a t ih =>
    intro h
    by_cases ha : p a = true
    · rw [List.find?_cons_of_pos _ ha] at h
      simp only [Option.some.injEq] at h
      subst h
      exact ⟨t.filter p, by simp [List.filter, ha]⟩
    · rw [List.find?_cons_of_neg _ ha] at h
      obtain ⟨vs, hvs⟩ := ih h
      exact ⟨vs, by simp [List.filter, ha, hvs]⟩

theorem dd_check_error (E : Extern M B D) (cr : t_commrec D) (box : B) (ir : t_inputrec)
    (d : D) (b : Bool) (r : ℚ) (e : Err) (h : dd_check E cr box ir d b r = .error e) :
    ∃ msg, e = .gmx_incons msg := by
  simp only [dd_check] at h
  split at h
  · split at h
    · exact ⟨_, (Except.error.inj h).symm⟩
    · cases h
  · cases h

theorem dd_check_false (E : Extern M B D) (cr : t_commrec D) (box : B) (ir : t_inputrec)
    (d : D) (r : ℚ) : dd_check E cr box ir d false r = .ok (true, d) := by
  simp [dd_check]

theorem walk_infeasible (E : Extern M B D) (cr : t_commrec D) (mtop : M) (box : B)
    (ls : verletbuf_list_setup_t) (rlist_ok rlist_max : ℚ) (ir : t_inputrec)
    (v : Int) (post : List Int) (d : D)
    (hfail : fits_box E box ir (radius_for E mtop box ls ir v) = false
      ∨ ∃ d1, dd_check E cr box { ir with nstlist := v } d true (radius_for E mtop box ls ir v)
          = .ok (false, d1)) :
    ∀ (pre : List Int) (n : Int) (r : ℚ) (d0 : D),
      Accepts E cr mtop box ls rlist_ok rlist_max ir pre d0 d →
      (∀ u ∈ pre, radius_for E mtop box ls ir u < rlist_ok) →
      ∃ dfin, walk E cr mtop box ls rlist_ok rlist_max ir (pre ++ v :: post) n r d0
        = .ok (pre.getLast?.getD n, (pre.getLast?.map (radius_for E mtop box ls ir)).getD r,
            dfin) := by
  intro pre
  induction pre with
  | nil =>
    intro n r d0 hacc _
    simp only [Accepts] at hacc
    subst hacc
    simp only [List.nil_append, walk, List.getLast?_nil, Option.getD_none, Option.map_none']
    by_cases hb : fits_box E box ir (radius_for E mtop box ls ir v) = true
    · rcases hfail with hf | ⟨d1, hd⟩
      · rw [hb] at hf; cases hf
      · rw [hb, hd]
        exact ⟨d1, by simp⟩
    · simp only [Bool.not_eq_true] at hb
      rw [hb, dd_check_false]
      exact ⟨d, by simp⟩
  | cons u us ih =>
    intro n r d0 hacc hok
    simp only [Accepts] at hacc
    obtain ⟨hbox, hmax, _, d1, hdd, hrest⟩ := hacc
    obtain ⟨dfin, hw⟩ := ih u (radius_for E mtop box ls ir u) d1 hrest
      (fun w hw => hok w (List.mem_cons_of_mem _ hw))
    refine ⟨dfin, ?_⟩
    have hu := hok u (List.mem_cons_self _ _)
    have hne : (us ++ v :: post).isEmpty = false := by
      cases us <;> rfl
    rw [List.cons_append, walk, hbox, hdd]
    simp only [Bool.and_self, Bool.true_and, decide_eq_true_eq, hmax, if_true, hu, hne,
      Bool.not_false, decide_True]
    rw [hw, List.getLast?_cons]
    cases us.getLast? <;> simp

theorem start_lt_of_candidates (n : Int) (v : Int) (l : List Int)
    (h : nstlist_try.filter (fun w => decide (n < w)) = v :: l) : start_index n < NNSTL := by
  rw [← drop_start_index] at h
  rcases start_cases n with ⟨_, e⟩ | ⟨_, _, e⟩ | ⟨_, _, e⟩ | ⟨_, e⟩ <;> rw [e] at h ⊢ <;>
    simp [NNSTL, nstlist_try] at h ⊢

theorem filter_le_last (pre post : List Int) (n : Int)
    (hsorted : (pre ++ post).Pairwise (fun a b => a < b)) (hl : pre.getLast? = some n) :
    (pre ++ post).filter (fun v => decide (v ≤ n)) = pre := by
  rw [List.pairwise_append] at hsorted
  obtain ⟨hp, _, hpq⟩ := hsorted
  have hn : n ∈ pre := List.mem_of_getLast?_eq_some hl
  obtain ⟨ys, rfl⟩ := List.getLast?_eq_some_iff.mp hl
  rw [List.pairwise_append] at hp
  have h1 : (ys ++ [n]).filter (fun v => decide (v ≤ n)) = ys ++ [n] := by
    rw [List.filter_eq_self]
    intro a ha
    rcases List.mem_append.mp ha with h | h
    · exact decide_eq_true (le_of_lt (hp.2.2 a h n (List.mem_singleton_self n)))
    · rw [List.mem_singleton.mp h]; exact decide_eq_true (le_refl n)
  have h2 : post.filter (fun v => decide (v ≤ n)) = [] := by
    rw [List.filter_eq_nil_iff]
    intro a ha
    have := hpq n hn a ha
    simp only [decide_eq_true_eq, not_le]; exact this
  rw [List.filter_append, h1, h2, List.append_nil]

theorem between_filter (orig n : Int) (l : List Int) :
    l.filter (fun v => decide (orig < v ∧ v ≤ n))
      = (l.filter (fun v => decide (orig < v))).filter (fun v => decide (v ≤ n)) := by
  rw [List.filter_filter]
  apply List.filter_congr
  intro x _
  by_cases h1 : orig < x <;> by_cases h2 : x ≤ n <;> simp [h1, h2]

theorem candidates_sorted (orig : Int) :
    (nstlist_try.filter (fun v => decide (orig < v))).Pairwise (fun a b => a < b) := by
  apply List.Pairwise.sublist (List.filter_sublist _)
  simp [nstlist_try]

theorem example_bounds (radius : Int → ℚ) (c dm : ℚ) (ir : t_inputrec) :
    tuner_bounds (exampleExtern radius c dm) ir () () false ⟨false⟩
      = (radius 10 * (105 / 100), radius 10 * (109 / 100)) := by
  simp [tuner_bounds, rlist_bounds, exampleExtern, listfac, radius_for, nbnxnReferenceNstlist,
    nbnxn_cpu_listfac_ok, nbnxn_cpu_listfac_max]

theorem sameAnswers_eq (E1 E2 : Extern M B D) (h : SameAnswers E1 E2) : E1 = E2 := by
  obtain ⟨h1, h2, h3, h4, h5, h6, h7, h8, h9, h10, h11, h12, h13, h14, h15⟩ := h
  cases E1; cases E2
  simp only [Extern.mk.injEq]
  simp only at h1 h2 h3 h4 h5 h6 h7 h8 h9 h10 h11 h12 h13 h14 h15
  refine ⟨funext h1, funext h2, h3, h4, h5, funext h6, funext h7, funext h8, ?_, ?_, ?_, ?_,
    funext h13, ?_, ?_⟩
  · funext a b; exact h9 a b
  · funext a b c d; exact h10 a b c d
  · funext a b; exact h11 a b
  · funext a b; exact h12 a b
  · funext a b c d; exact h14 a b c d
  · funext a b; exact h15 a b

theorem tune_loop_cr (E : Extern M B D) (cr1 cr2 : t_commrec D) (cmd : Int) (mtop : M) (box : B)
    (ls : verletbuf_list_setup_t) (rlist_ok rlist_max : ℚ)
    (h : cr1.DOMAINDECOMP = cr2.DOMAINDECOMP) :
    ∀ (fuel : Nat) (s : Tune D),
      tune_loop E cr1 cmd mtop box ls rlist_ok rlist_max fuel s
        = tune_loop E cr2 cmd mtop box ls rlist_ok rlist_max fuel s := by
  have hb : ∀ s : Tune D, tune_body E cr1 cmd mtop box ls rlist_ok rlist_max s
      = tune_body E cr2 cmd mtop box ls rlist_ok rlist_max s := by
    intro s; simp only [tune_body, dd_check, h]
  intro fuel
  induction fuel with
  | zero => intro s; rfl
  | succ n ih =>
    intro s
    rw [tune_loop, tune_loop, hb]
    cases tune_body E cr2 cmd mtop box ls rlist_ok rlist_max s with
    | error e => rfl
    | ok t => simp only [ih]

theorem finish_tuning_state (fp1 fp2 : Bool) (cr1 cr2 : t_commrec D) (n : Int)
    (out1 out2 : List Event) (s : Tune D) :
    (finish_tuning fp1 cr1 n out1 s).state = (finish_tuning fp2 cr2 n out2 s).state := by
  simp only [finish_tuning, Run.state]
  split
  · rfl
  · split <;> rfl

theorem search_block_state (E : Extern M B D) (fp1 fp2 : Bool) (cr1 cr2 : t_commrec D)
    (ir : t_inputrec) (cmd : Int) (mtop : M) (box : B) (bGPU : Bool) (cpuinfo : CpuInfo)
    (i : Nat) (out1 out2 : List Event)
    (hdom : cr1.DOMAINDECOMP = cr2.DOMAINDECOMP) (hdd : cr1.dd = cr2.dd) :
    (search_block E fp1 cr1 ir cmd mtop box bGPU cpuinfo i out1).map Run.state
      = (search_block E fp2 cr2 ir cmd mtop box bGPU cpuinfo i out2).map Run.state := by
  simp only [search_block, tune_loop_cr E cr1 cr2 cmd mtop box _ _ _ hdom, hdd]
  cases tune_loop E cr2 cmd mtop box _ _ _ NNSTL _ with
  | error e => rfl
  | ok t =>
    simp only [Except.map]
    rw [finish_tuning_state fp1 fp2 cr1 cr2 ir.nstlist out1 out2 t]

theorem entry_block_fp (fp1 fp2 : Bool) (ir : t_inputrec) (cmd : Int) (bGPU : Bool) :
    (∃ e, entry_block fp1 ir cmd bGPU = .error e ∧ entry_block fp2 ir cmd bGPU = .error e)
    ∨ (∃ o1 o2, entry_block fp1 ir cmd bGPU = .ok (.done o1)
        ∧ entry_block fp2 ir cmd bGPU = .ok (.done o2))
    ∨ (∃ i o1 o2, entry_block fp1 ir cmd bGPU = .ok (.search i o1)
        ∧ entry_block fp2 ir cmd bGPU = .ok (.search i o2)) := by
  by_cases hcmd : cmd ≤ 0
  · by_cases hone : ir.nstlist = 1
    · right; left; exact ⟨[], [], by simp [entry_block, hcmd, hone], by simp [entry_block, hcmd, hone]⟩
    · rw [entry_block_auto fp1 ir cmd bGPU hcmd hone, entry_block_auto fp2 ir cmd bGPU hcmd hone]
      by_cases h : start_index ir.nstlist = NNSTL
      · right; left; exact ⟨_, _, by rw [if_pos h], by rw [if_pos h]⟩
      · right; right; exact ⟨_, _, _, by rw [if_neg h], by rw [if_neg h]⟩
  · right; right
    exact ⟨0, [], [], by simp [entry_block, hcmd], by simp [entry_block, hcmd]⟩

theorem increase_nstlist_state (E : Extern M B D) (fp1 fp2 : Bool) (cr1 cr2 : t_commrec D)
    (ir : t_inputrec) (cmd : Int) (mtop : M) (box : B) (bGPU : Bool) (cpuinfo : CpuInfo)
    (hdom : cr1.DOMAINDECOMP = cr2.DOMAINDECOMP) (hdd : cr1.dd = cr2.dd) :
    (increase_nstlist E fp1 cr1 ir cmd mtop box bGPU cpuinfo).map Run.state
      = (increase_nstlist E fp2 cr2 ir cmd mtop box bGPU cpuinfo).map Run.state := by
  rcases entry_block_fp fp1 fp2 ir cmd bGPU with ⟨e, h1, h2⟩ | ⟨o1, o2, h1, h2⟩ | ⟨i, o1, o2, h1, h2⟩
  · simp only [increase_nstlist, h1, h2]
  · simp only [increase_nstlist, h1, h2, Except.map, Run.state, hdd]
  · simp only [increase_nstlist, h1, h2]
    split
    · simp only [Except.map, Run.state, hdd]
    · split
      · rfl
      · split
        · simp only [Except.map, Run.state, hdd]
        · exact search_block_state E fp1 fp2 cr1 cr2 ir cmd mtop box bGPU cpuinfo i o1 o2 hdom hdd

theorem prepare_verlet_scheme_state (E : Extern M B D) (fp1 fp2 : Bool) (cr1 cr2 : t_commrec D)
    (ir : t_inputrec) (cmd : Int) (mtop : M) (box : B) (bGPU : Bool) (cpuinfo : CpuInfo)
    (hdom : cr1.DOMAINDECOMP = cr2.DOMAINDECOMP) (hdd : cr1.dd = cr2.dd) :
    (prepare_verlet_scheme E fp1 cr1 ir cmd mtop box bGPU cpuinfo).map Run.state
      = (prepare_verlet_scheme E fp2 cr2 ir cmd mtop box bGPU cpuinfo).map Run.state := by
  have hu : (update_rlist E fp1 ir mtop box bGPU).1 = (update_rlist E fp2 ir mtop box bGPU).1 := by
    simp only [update_rlist]
    split
    · split <;> rfl
    · rfl
  simp only [prepare_verlet_scheme, prepare_verlet_scheme_with, hu]
  split
  · rfl
  · split
    · have key := increase_nstlist_state E fp1 fp2 cr1 cr2 (update_rlist E fp2 ir mtop box bGPU).1
        cmd mtop box bGPU cpuinfo hdom hdd
      revert key
      cases increase_nstlist E fp1 cr1 (update_rlist E fp2 ir mtop box bGPU).1 cmd mtop box bGPU
          cpuinfo with
      | error e1 =>
        cases increase_nstlist E fp2 cr2 (update_rlist E fp2 ir mtop box bGPU).1 cmd mtop box
            bGPU cpuinfo with
        | error e2 => intro key; simpa [Except.map] using key
        | ok r2 => intro key; simp [Except.map] at key
      | ok r1 =>
        cases increase_nstlist E fp2 cr2 (update_rlist E fp2 ir mtop box bGPU).1 cmd mtop box
            bGPU cpuinfo with
        | error e2 => intro key; simp [Except.map] at key
        | ok r2 =>
          intro key
          simp only [Except.map, Except.ok.injEq, Run.state, Prod.mk.injEq] at key ⊢
          exact key
    · simp only [Except.map, Run.state, hdd]

theorem tune_body_pinned (E : Extern M B D) (cr : t_commrec D) (cmd : Int) (mtop : M) (box : B)
    (ls : verletbuf_list_setup_t) (rlist_ok rlist_max : ℚ) (hcmd : 0 < cmd) (s : Tune D) :
    tune_body E cr cmd mtop box ls rlist_ok rlist_max s =
      match dd_check E cr box s.ir s.dd
        (fits_box E box s.ir (radius_for E mtop box ls s.ir s.ir.nstlist))
        (radius_for E mtop box ls s.ir s.ir.nstlist) with
      | .error e => .error e
      | .ok (bDD, dd) =>
        .ok { ir := s.ir, dd := dd, nstlist_ind := s.nstlist_ind + 1,
              nstlist_prev := s.nstlist_prev, rlist_prev := s.rlist_prev,
              rlist_new := radius_for E mtop box ls s.ir s.ir.nstlist,
              bBox := fits_box E box s.ir (radius_for E mtop box ls s.ir s.ir.nstlist),
              bDD := bDD, bCont := false } := by
  have hn : ¬ cmd ≤ 0 := by omega
  simp only [tune_body, hn, if_false, decide_candidate, radius_for, fits_box]

theorem tune_loop_pinned (E : Extern M B D) (cr : t_commrec D) (cmd : Int) (mtop : M) (box : B)
    (ls : verletbuf_list_setup_t) (rlist_ok rlist_max : ℚ) (hcmd : 0 < cmd) (fuel : Nat)
    (s : Tune D) :
    tune_loop E cr cmd mtop box ls rlist_ok rlist_max (fuel + 1) s
      = tune_body E cr cmd mtop box ls rlist_ok rlist_max s := by
  rw [tune_loop, tune_body_pinned E cr cmd mtop box ls rlist_ok rlist_max hcmd s]
  cases dd_check E cr box s.ir s.dd
      (fits_box E box s.ir (radius_for E mtop box ls s.ir s.ir.nstlist))
      (radius_for E mtop box ls s.ir s.ir.nstlist) with
  | error e => rfl
  | ok p => rfl

theorem increase_nstlist_pinned (E : Extern M B D) (fp : Bool) (cr : t_commrec D)
    (ir : t_inputrec) (cmd : Int) (mtop : M) (box : B) (bGPU : Bool) (cpuinfo : CpuInfo)
    (hcmd : 0 < cmd) (hs : Searches E ir bGPU) :
    increase_nstlist E fp cr ir cmd mtop box bGPU cpuinfo =
      match dd_check E cr box { ir with nstlist := cmd } cr.dd
        (fits_box E box ir
          (radius_for E mtop box (E.verletbuf_get_list_setup true bGPU) ir cmd))
        (radius_for E mtop box (E.verletbuf_get_list_setup true bGPU) ir cmd) with
      | .error e => .error e
      | .ok (bDD, d1) =>
        .ok (finish_tuning fp cr ir.nstlist []
          { ir := { ir with nstlist := cmd }, dd := d1, nstlist_ind := 1,
            nstlist_prev := ir.nstlist, rlist_prev := ir.rlist,
            rlist_new := radius_for E mtop box (E.verletbuf_get_list_setup true bGPU) ir cmd,
            bBox := fits_box E box ir
              (radius_for E mtop box (E.verletbuf_get_list_setup true bGPU) ir cmd),
            bDD := bDD, bCont := false }) := by
  obtain ⟨h1, h2, h3⟩ := hs
  have h1b : (E.EI_MD ir.eI && decide (ir.etc = E.etcNO)) = false := by
    simpa [Bool.and_eq_true] using h1
  have h2b : (decide (ir.verletbuf_tol = 0) && bGPU) = false := by
    simpa [Bool.and_eq_true] using h2
  have hn : ¬ cmd ≤ 0 := by omega
  have hN : NNSTL = 2 + 1 := rfl
  simp only [increase_nstlist, entry_block, hn, if_false, h1b, h2b, h3, Bool.false_eq_true,
    search_block, gt_iff_lt, hcmd, if_true, hN]
  rw [tune_loop_pinned E cr cmd mtop box _ _ _ hcmd, tune_body_pinned E cr cmd mtop box _ _ _ hcmd]
  simp only [radius_for, fits_box]
  cases dd_check E cr box { ir with nstlist := cmd } cr.dd _ _ with
  | error e => rfl
  | ok p => rfl

theorem increase_nstlist_pinned_cases (E : Extern M B D) (fp : Bool) (cr : t_commrec D)
    (ir : t_inputrec) (cmd : Int) (mtop : M) (box : B) (bGPU : Bool) (cpuinfo : CpuInfo)
    (hcmd : 0 < cmd) :
    (∃ out, increase_nstlist E fp cr ir cmd mtop box bGPU cpuinfo
        = .ok { ir := ir, dd := cr.dd, out := out })
    ∨ (increase_nstlist E fp cr ir cmd mtop box bGPU cpuinfo = .error (.gmx_fatal old_tpr_msg)
        ∧ ir.verletbuf_tol = 0 ∧ bGPU = true)
    ∨ Searches E ir bGPU := by
  have hn : ¬ cmd ≤ 0 := by omega
  have hstart : increase_nstlist E fp cr ir cmd mtop box bGPU cpuinfo =
      if (E.EI_MD ir.eI && decide (ir.etc = E.etcNO)) = true then
        .ok { ir := ir, dd := cr.dd,
              out := [] ++ (if cr.MASTER then [Event.stderr (.lit nve_err)] else [])
                ++ (if fp then [Event.log (.lit nve_err)] else []) }
      else if (decide (ir.verletbuf_tol = 0) && bGPU) = true then
        .error (.gmx_fatal old_tpr_msg)
      else if ir.verletbuf_tol < 0 then
        .ok { ir := ir, dd := cr.dd,
              out := [] ++ (if cr.MASTER then [Event.stderr (.lit vbd_err)] else [])
                ++ (if fp then [Event.log (.lit vbd_err)] else []) }
      else search_block E fp cr ir cmd mtop box bGPU cpuinfo 0 [] := by
    simp only [increase_nstlist, entry_block, hn, if_false]
  by_cases h1 : (E.EI_MD ir.eI && decide (ir.etc = E.etcNO)) = true
  · left; exact ⟨_, by rw [hstart, if_pos h1]⟩
  by_cases h2 : (decide (ir.verletbuf_tol = 0) && bGPU) = true
  · right; left
    exact ⟨by rw [hstart, if_neg h1, if_pos h2], by simpa using h2⟩
  by_cases h3 : ir.verletbuf_tol < 0
  · left; exact ⟨_, by rw [hstart, if_neg h1, if_neg h2, if_pos h3]⟩
  · right; right
    exact ⟨by simpa [Bool.and_eq_true] using h1, by simpa [Bool.and_eq_true] using h2, h3⟩

theorem increase_nstlist_error (E : Extern M B D) (fp : Bool) (cr : t_commrec D)
    (ir : t_inputrec) (cmd : Int) (mtop : M) (box : B) (bGPU : Bool) (cpuinfo : CpuInfo)
    (e : Err) (h : increase_nstlist E fp cr ir cmd mtop box bGPU cpuinfo = .error e) :
    e = .gmx_fatal old_tpr_msg ∨ ∃ msg, e = .gmx_incons msg := by
  by_cases hcmd : cmd ≤ 0
  · rcases increase_nstlist_auto_cases E fp cr ir cmd mtop box bGPU cpuinfo hcmd with
      ⟨out, h1⟩ | ⟨h1, _⟩ | ⟨_, _, h1⟩
    · rw [h1] at h; cases h
    · rw [h1] at h; exact Or.inl (Except.error.inj h).symm
    · rw [h1] at h
      cases hw : walk E cr mtop box (E.verletbuf_get_list_setup true bGPU)
        (tuner_bounds E ir mtop box bGPU cpuinfo).1 (tuner_bounds E ir mtop box bGPU cpuinfo).2
        ir (nstlist_try.filter (fun v => decide (ir.nstlist < v))) ir.nstlist ir.rlist cr.dd with
      | error e2 =>
        rw [hw] at h
        simp only [Except.map, Except.error.injEq] at h
        subst h
        exact Or.inr (walk_error _ _ _ _ _ _ _ _ _ _ _ _ _ hw)
      | ok p => rw [hw] at h; cases h
  · have hpos : 0 < cmd := by omega
    rcases increase_nstlist_pinned_cases E fp cr ir cmd mtop box bGPU cpuinfo hpos with
      ⟨out, h1⟩ | ⟨h1, _⟩ | hs
    · rw [h1] at h; cases h
    · rw [h1] at h; exact Or.inl (Except.error.inj h).symm
    · rw [increase_nstlist_pinned E fp cr ir cmd mtop box bGPU cpuinfo hpos hs] at h
      cases hdd : dd_check E cr box { ir with nstlist := cmd } cr.dd
        (fits_box E box ir
          (radius_for E mtop box (E.verletbuf_get_list_setup true bGPU) ir cmd))
        (radius_for E mtop box (E.verletbuf_get_list_setup true bGPU) ir cmd) with
      | error e2 =>
        rw [hdd] at h
        simp only [Except.error.injEq] at h
        subst h
        exact Or.inr (dd_check_error _ _ _ _ _ _ _ _ hdd)
      | ok p => rw [hdd] at h; cases h

theorem sameAnswers_refl (E : Extern M B D) : SameAnswers E E :=
  ⟨fun _ => rfl, fun _ => rfl, rfl, rfl, rfl, fun _ => rfl, fun _ => rfl, fun _ => rfl,
   fun _ _ => rfl, fun _ _ _ _ => rfl, fun _ _ => rfl, fun _ _ => rfl, fun _ => rfl,
   fun _ _ _ _ => rfl, fun _ _ => rfl⟩

theorem update_rlist_fields (E : Extern M B D) (fplog : Bool) (ir : t_inputrec) (mtop : M)
    (box : B) (bUseGPU : Bool) :
    (update_rlist E fplog ir mtop box bUseGPU).1
      = { ir with rlist := (update_rlist E fplog ir mtop box bUseGPU).1.rlist } := by
  simp only [update_rlist]
  split
  · split <;> rfl
  · rfl

theorem update_rlist_skip (E : Extern M B D) (fplog : Bool) (ir : t_inputrec) (mtop : M)
    (box : B) (bUseGPU : Bool)
    (h : E.EI_DYNAMICS ir.eI = false ∨ ir.verletbuf_tol ≤ 0
      ∨ (E.EI_MD ir.eI = true ∧ ir.etc = E.etcNO)) :
    update_rlist E fplog ir mtop box bUseGPU = (ir, []) := by
  have hc : ¬ (E.EI_DYNAMICS ir.eI && decide (ir.verletbuf_tol > 0)
      && !(E.EI_MD ir.eI && decide (ir.etc = E.etcNO))) = true := by
    simp only [Bool.and_eq_true, decide_eq_true_eq, Bool.not_eq_true', Bool.and_eq_false_imp,
      decide_eq_false_iff_not, not_and, gt_iff_lt]
    intro h1 h2
    rcases h with h | h | h
    · rw [h1.1] at h; cases h
    · exact absurd h1.2 (not_lt.mpr h)
    · exact absurd h.2 (h2 h.1)
  simp only [update_rlist, if_neg hc]

theorem fatal_msg_ne (what : String) :
    "Can not set nstlist without " ++ what ≠ old_tpr_msg := by
  intro h
  have := congrArg String.data h
  simp [old_tpr_msg, String.data_append] at this

/-! ## Theorems -/

/-- C1: with `ir->nstlist == 1` and no interval on the command line
(`nstlist_cmdline <= 0`), `increase_nstlist` returns at once: the input record
(so `nstlist == 1` and `rlist`) and the decomposition state are unchanged and
nothing is written, whatever the other inputs are. -/
theorem increase_nstlist_pinned_one (E : Extern M B D) (fp : Bool) (cr : t_commrec D)
    (ir : t_inputrec) (nstlist_cmdline : Int) (mtop : M) (box : B) (bGPU : Bool)
    (cpuinfo : CpuInfo) (hcmd : nstlist_cmdline ≤ 0) (hone : ir.nstlist = 1) :
    increase_nstlist E fp cr ir nstlist_cmdline mtop box bGPU cpuinfo
        = .ok { ir := ir, dd := cr.dd, out := [] }
      ∧ ir.nstlist = 1 := by
  simp [increase_nstlist, entry_block, hcmd, hone]

/-- C2: in automatic mode (`nstlist_cmdline <= 0`), if the list radius computed
for the first candidate tried, the smallest entry `v` of `nstlist_try` above
the original interval, exceeds the bound `rlist_max`, then `increase_nstlist`
returns with the input record unchanged (so `nstlist` is the original interval
and `rlist` is the original radius), unless the run is aborted by `gmx_fatal`
or `gmx_incons`. -/
theorem first_candidate_above_rlist_max (E : Extern M B D) (fp : Bool) (cr : t_commrec D)
    (ir : t_inputrec) (nstlist_cmdline : Int) (mtop : M) (box : B) (bGPU : Bool)
    (cpuinfo : CpuInfo) (v : Int) (hcmd : nstlist_cmdline ≤ 0)
    (hfirst : nstlist_try.find? (fun w => decide (ir.nstlist < w)) = some v)
    (hmax : (tuner_bounds E ir mtop box bGPU cpuinfo).2
      < radius_for E mtop box (E.verletbuf_get_list_setup true bGPU) ir v) :
    EndsWith (increase_nstlist E fp cr ir nstlist_cmdline mtop box bGPU cpuinfo)
      (fun res => res.ir = ir) := by
  rcases increase_nstlist_auto_cases E fp cr ir nstlist_cmdline mtop box bGPU cpuinfo hcmd with
    ⟨out, h⟩ | ⟨h, _⟩ | ⟨_, _, h⟩
  · rw [h]; rfl
  · rw [h]; trivial
  · rw [h]
    obtain ⟨vs, hvs⟩ := filter_of_find _ v nstlist_try hfirst
    rw [hvs, walk]
    cases hdd : dd_check E cr box { ir with nstlist := v } cr.dd
        (fits_box E box ir (radius_for E mtop box (E.verletbuf_get_list_setup true bGPU) ir v))
        (radius_for E mtop box (E.verletbuf_get_list_setup true bGPU) ir v) with
    | error e =>
      obtain ⟨msg, rfl⟩ : ∃ msg, e = .gmx_incons msg := by
        simp only [dd_check] at hdd
        split at hdd
        · split at hdd
          · exact ⟨_, (Except.error.inj hdd).symm⟩
          · cases hdd
        · cases hdd
      trivial
    | ok p =>
      obtain ⟨bDD, d1⟩ := p
      have hrej : ¬ (fits_box E box ir
          (radius_for E mtop box (E.verletbuf_get_list_setup true bGPU) ir v) && bDD
          && decide (radius_for E mtop box (E.verletbuf_get_list_setup true bGPU) ir v
            ≤ (tuner_bounds E ir mtop box bGPU cpuinfo).2)) = true := by
        simp only [Bool.and_eq_true, decide_eq_true_eq, not_and, not_le]
        intro _; exact hmax
      simp only [if_neg hrej, Except.map, EndsWith]
      rw [(tuned_ir fp cr ir _ _).1]

/-- C3: in automatic mode, let the candidates above the original interval be
`pre ++ v :: post`, where the candidates `pre` were all accepted with a radius
below `rlist_ok`, so that the search went on to `v`.  If `v` fails a
feasibility check (its radius does not fit the box, or `change_dd_cutoff`
rejects it), then `increase_nstlist` returns, without a fatal error, with the
interval and the radius of the last candidate of `pre`, and with the original
interval and radius when `pre` is empty. -/
theorem infeasible_candidate_reverts (E : Extern M B D) (fp : Bool) (cr : t_commrec D)
    (ir : t_inputrec) (nstlist_cmdline : Int) (mtop : M) (box : B) (bGPU : Bool)
    (cpuinfo : CpuInfo) (pre post : List Int) (v : Int) (d : D)
    (hcmd : nstlist_cmdline ≤ 0) (hone : ir.nstlist ≠ 1) (hs : Searches E ir bGPU)
    (hsplit : nstlist_try.filter (fun w => decide (ir.nstlist < w)) = pre ++ v :: post)
    (hpre : Accepts E cr mtop box (E.verletbuf_get_list_setup true bGPU)
      (tuner_bounds E ir mtop box bGPU cpuinfo).1 (tuner_bounds E ir mtop box bGPU cpuinfo).2
      ir pre cr.dd d)
    (hcont : ∀ u ∈ pre, radius_for E mtop box (E.verletbuf_get_list_setup true bGPU) ir u
      < (tuner_bounds E ir mtop box bGPU cpuinfo).1)
    (hfail : fits_box E box ir
        (radius_for E mtop box (E.verletbuf_get_list_setup true bGPU) ir v) = false
      ∨ ∃ d1, dd_check E cr box { ir with nstlist := v } d true
          (radius_for E mtop box (E.verletbuf_get_list_setup true bGPU) ir v)
          = .ok (false, d1)) :
    ∃ res, increase_nstlist E fp cr ir nstlist_cmdline mtop box bGPU cpuinfo = .ok res
      ∧ res.ir.nstlist = pre.getLast?.getD ir.nstlist
      ∧ res.ir.rlist = (pre.getLast?.map
          (radius_for E mtop box (E.verletbuf_get_list_setup true bGPU) ir)).getD ir.rlist := by
  have hlt : start_index ir.nstlist < NNSTL := by
    cases pre with
    | nil => exact start_lt_of_candidates _ _ _ hsplit
    | cons a t => exact start_lt_of_candidates _ _ _ hsplit
  obtain ⟨dfin, hw⟩ := walk_infeasible E cr mtop box (E.verletbuf_get_list_setup true bGPU)
    (tuner_bounds E ir mtop box bGPU cpuinfo).1 (tuner_bounds E ir mtop box bGPU cpuinfo).2
    ir v post d hfail pre ir.nstlist ir.rlist cr.dd hpre hcont
  rw [increase_nstlist_auto E fp cr ir nstlist_cmdline mtop box bGPU cpuinfo hcmd hone hlt hs,
    hsplit, hw]
  refine ⟨_, rfl, ?_, ?_⟩
  · rw [(tuned_ir fp cr ir _ _).1]
  · rw [(tuned_ir fp cr ir _ _).1]

/-- Counterexample to C4 as stated: the run input has tolerance 0, so that
`prepare_verlet_scheme` does not update `ir->rlist`, which is 1, while the
radius computed for the interval 10 is 5; the first candidate does not fit
the box; the run ends with interval 10 and radius 1, which is not the radius
computed for the final interval. -/
theorem unaccepted_search_keeps_rlist :
    radius_for (exampleExtern (fun n => if n = 10 then 5 else 3) 4 1) () ()
        ((exampleExtern (fun n => if n = 10 then 5 else 3) 4 1).verletbuf_get_list_setup
          true false)
        { exampleIr with verletbuf_tol := 0 } 10 = 5
    ∧ (prepare_verlet_scheme (exampleExtern (fun n => if n = 10 then 5 else 3) 4 1) false
        (exampleCr false) { exampleIr with verletbuf_tol := 0 } 0 () () false ⟨false⟩).map
        (fun r => (r.ir.nstlist, r.ir.rlist)) = .ok (10, 1)
    ∧ (increase_nstlist (exampleExtern (fun n => if n = 10 then 5 else 3) 4 1) false
        (exampleCr false) { exampleIr with verletbuf_tol := 0 } 0 () () false ⟨false⟩).map
        (fun r => (r.ir.nstlist, r.ir.rlist)) = .ok (10, 1) := by
  refine ⟨?_, ?_, ?_⟩
  · norm_num [radius_for, exampleExtern, exampleIr]
  · norm_num [prepare_verlet_scheme, prepare_verlet_scheme_with, update_rlist,
      increase_nstlist, entry_block, scan_nstlist_ind, nstlist_try_at, search_block, tune_loop,
      tune_body, dd_check, decide_candidate, finish_tuning, rlist_bounds, listfac, exampleExtern,
      exampleIr, exampleCr, square, NNSTL, nstlist_try, nbnxnReferenceNstlist,
      nbnxn_cpu_listfac_ok, nbnxn_cpu_listfac_max, Except.map]
  · norm_num [increase_nstlist, entry_block, scan_nstlist_ind, nstlist_try_at, search_block,
      tune_loop, tune_body, dd_check, decide_candidate, finish_tuning, rlist_bounds, listfac,
      exampleExtern, exampleIr, exampleCr, square, NNSTL, nstlist_try, nbnxnReferenceNstlist,
      nbnxn_cpu_listfac_ok, nbnxn_cpu_listfac_max, Except.map]

/-- C4, amended: in automatic mode, when `increase_nstlist` returns (it can
only be aborted by `gmx_fatal` or `gmx_incons`), the final interval is the
original one or an entry of `nstlist_try` above it; the entries of
`nstlist_try` strictly above the original and not above the final interval
were, in ascending order, all accepted (box check and decomposition check
passed, radius not above `rlist_max`, and below `rlist_ok` for each one before
the last); the final radius is the one computed for the final interval if a
candidate was accepted, so that the final interval differs from the original
one, and is the unchanged original radius otherwise. -/
theorem final_interval_is_last_accepted (E : Extern M B D) (fp : Bool) (cr : t_commrec D)
    (ir : t_inputrec) (nstlist_cmdline : Int) (mtop : M) (box : B) (bGPU : Bool)
    (cpuinfo : CpuInfo) (hcmd : nstlist_cmdline ≤ 0) :
    EndsWith (increase_nstlist E fp cr ir nstlist_cmdline mtop box bGPU cpuinfo)
      (fun res =>
        (res.ir.nstlist = ir.nstlist
          ∨ (res.ir.nstlist ∈ nstlist_try ∧ ir.nstlist < res.ir.nstlist))
        ∧ (∃ dfin, Accepts E cr mtop box (E.verletbuf_get_list_setup true bGPU)
            (tuner_bounds E ir mtop box bGPU cpuinfo).1
            (tuner_bounds E ir mtop box bGPU cpuinfo).2 ir
            (nstlist_try.filter (fun v => decide (ir.nstlist < v ∧ v ≤ res.ir.nstlist)))
            cr.dd dfin)
        ∧ res.ir.rlist = (if res.ir.nstlist = ir.nstlist then ir.rlist
            else radius_for E mtop box (E.verletbuf_get_list_setup true bGPU) ir
              res.ir.nstlist)) := by
  have hempty : nstlist_try.filter (fun v => decide (ir.nstlist < v ∧ v ≤ ir.nstlist)) = [] := by
    rw [List.filter_eq_nil_iff]
    intro a _
    simp only [decide_eq_true_eq, not_and, not_le]
    intro h; exact h
  have hkeep : ∀ out : List Event,
      EndsWith (Except.ok ({ ir := ir, dd := cr.dd, out := out } : Run D))
      (fun res =>
        (res.ir.nstlist = ir.nstlist
          ∨ (res.ir.nstlist ∈ nstlist_try ∧ ir.nstlist < res.ir.nstlist))
        ∧ (∃ dfin, Accepts E cr mtop box (E.verletbuf_get_list_setup true bGPU)
            (tuner_bounds E ir mtop box bGPU cpuinfo).1
            (tuner_bounds E ir mtop box bGPU cpuinfo).2 ir
            (nstlist_try.filter (fun v => decide (ir.nstlist < v ∧ v ≤ res.ir.nstlist)))
            cr.dd dfin)
        ∧ res.ir.rlist = (if res.ir.nstlist = ir.nstlist then ir.rlist
            else radius_for E mtop box (E.verletbuf_get_list_setup true bGPU) ir
              res.ir.nstlist)) := by
    intro out
    change (_ ∨ _) ∧ (∃ _, _) ∧ _
    refine ⟨Or.inl rfl, ⟨cr.dd, ?_⟩, by simp⟩
    rw [hempty]; rfl
  rcases increase_nstlist_auto_cases E fp cr ir nstlist_cmdline mtop box bGPU cpuinfo hcmd with
    ⟨out, h⟩ | ⟨h, _⟩ | ⟨_, _, h⟩
  · rw [h]; exact hkeep out
  · rw [h]; trivial
  · rw [h]
    cases hw : walk E cr mtop box (E.verletbuf_get_list_setup true bGPU)
        (tuner_bounds E ir mtop box bGPU cpuinfo).1 (tuner_bounds E ir mtop box bGPU cpuinfo).2
        ir (nstlist_try.filter (fun v => decide (ir.nstlist < v))) ir.nstlist ir.rlist cr.dd with
    | error e =>
      obtain ⟨msg, rfl⟩ := walk_error _ _ _ _ _ _ _ _ _ _ _ _ _ hw
      trivial
    | ok p =>
      simp only [Except.map, EndsWith]
      rw [(tuned_ir fp cr ir _ p).1]
      simp only
      rcases walk_accepts _ _ _ _ _ _ _ _ _ _ _ _ _ hw with ⟨h1, h2⟩ | ⟨pre, post, dfin, hs, hl, hr, ha⟩
      · rw [h1, h2]
        refine ⟨Or.inl rfl, ⟨cr.dd, ?_⟩, by simp⟩
        rw [hempty]; rfl
      · have hmem : p.1 ∈ nstlist_try.filter (fun v => decide (ir.nstlist < v)) := by
          rw [hs]; exact List.mem_append_left _ (List.mem_of_getLast?_eq_some hl)
        rw [List.mem_filter, decide_eq_true_eq] at hmem
        have hne : p.1 ≠ ir.nstlist := by omega
        refine ⟨Or.inr hmem, ⟨dfin, ?_⟩, by rw [if_neg hne]; exact hr⟩
        rw [between_filter, hs, filter_le_last pre post p.1 (hs ▸ candidates_sorted ir.nstlist) hl]
        exact ha

/-- Witness for C1: an input record with interval 1 in automatic mode. -/
theorem increase_nstlist_pinned_one_witness :
    (0 : Int) ≤ 0 ∧ ({ exampleIr with nstlist := 1 } : t_inputrec).nstlist = 1
    ∧ increase_nstlist (exampleExtern (exampleRadius 1 1 1) 4 1) true (exampleCr true)
        { exampleIr with nstlist := 1 } 0 () () true ⟨false⟩
        = .ok { ir := { exampleIr with nstlist := 1 }, dd := 0, out := [] } :=
  ⟨by decide, rfl,
   (increase_nstlist_pinned_one (exampleExtern (exampleRadius 1 1 1) 4 1) true (exampleCr true)
      { exampleIr with nstlist := 1 } 0 () () true ⟨false⟩ (by decide) rfl).1⟩

/-- Witness for C2: the first candidate 20 has radius 2, above `rlist_max` = 1.09. -/
theorem first_candidate_above_rlist_max_witness :
    nstlist_try.find? (fun w => decide (exampleIr.nstlist < w)) = some 20
    ∧ (tuner_bounds (exampleExtern (exampleRadius 2 1 1) 4 1) exampleIr () () false ⟨false⟩).2
        < radius_for (exampleExtern (exampleRadius 2 1 1) 4 1) () ()
            ((exampleExtern (exampleRadius 2 1 1) 4 1).verletbuf_get_list_setup true false)
            exampleIr 20
    ∧ EndsWith (increase_nstlist (exampleExtern (exampleRadius 2 1 1) 4 1) false
        (exampleCr false) exampleIr 0 () () false ⟨false⟩) (fun res => res.ir = exampleIr) := by
  have h1 : nstlist_try.find? (fun w => decide (exampleIr.nstlist < w)) = some 20 := by
    simp [nstlist_try, exampleIr, List.find?]
  have h2 : (tuner_bounds (exampleExtern (exampleRadius 2 1 1) 4 1) exampleIr () () false ⟨false⟩).2
        < radius_for (exampleExtern (exampleRadius 2 1 1) 4 1) () ()
            ((exampleExtern (exampleRadius 2 1 1) 4 1).verletbuf_get_list_setup true false)
            exampleIr 20 := by
    rw [example_bounds]
    norm_num [radius_for, exampleExtern, exampleRadius]
  exact ⟨h1, h2, first_candidate_above_rlist_max _ false (exampleCr false) exampleIr 0 () ()
    false ⟨false⟩ 20 (by decide) h1 h2⟩

/-- Witness for C3, the scenario of the specification: the candidate 20 was
accepted with radius 1.04, the candidate 25 has radius 2.2 and does not fit the
box, whose limit is 2.0; the run ends with interval 20 and radius 1.04. -/
theorem infeasible_candidate_reverts_witness :
    fits_box exampleSmallBox () exampleIr
        (radius_for exampleSmallBox () () (exampleSmallBox.verletbuf_get_list_setup true false)
          exampleIr 25) = false
    ∧ ∃ res, increase_nstlist exampleSmallBox true (exampleCr false) exampleIr 0 () () false
          ⟨false⟩ = .ok res
        ∧ res.ir.nstlist = 20 ∧ res.ir.rlist = 104 / 100 := by
  have hfit : fits_box exampleSmallBox () exampleIr
      (radius_for exampleSmallBox () () (exampleSmallBox.verletbuf_get_list_setup true false)
        exampleIr 25) = false := by
    norm_num [fits_box, radius_for, exampleSmallBox, exampleExtern, exampleRadius, square]
  refine ⟨hfit, ?_⟩
  have h := infeasible_candidate_reverts exampleSmallBox true (exampleCr false) exampleIr 0 () ()
    false ⟨false⟩ [20] [40] 25 0 (by decide) (by decide)
    (by norm_num [Searches, exampleSmallBox, exampleExtern, exampleIr])
    (by simp [nstlist_try, exampleIr, List.filter])
    (by
      unfold exampleSmallBox
      rw [example_bounds]
      norm_num [Accepts, fits_box, radius_for, exampleExtern, exampleRadius, square, dd_check,
        exampleCr])
    (by
      unfold exampleSmallBox
      rw [example_bounds]
      norm_num [radius_for, exampleExtern, exampleRadius])
    (Or.inl hfit)
  obtain ⟨res, h1, h2, h3⟩ := h
  refine ⟨res, h1, ?_, ?_⟩
  · simpa using h2
  · rw [h3]
    norm_num [radius_for, exampleSmallBox, exampleExtern, exampleRadius]

/-- Witness for C4 amended on the scenario of the specification. -/
theorem final_interval_is_last_accepted_witness :
    EndsWith (increase_nstlist exampleSmallBox true (exampleCr false) exampleIr 0 () () false
        ⟨false⟩)
      (fun res =>
        (res.ir.nstlist = exampleIr.nstlist
          ∨ (res.ir.nstlist ∈ nstlist_try ∧ exampleIr.nstlist < res.ir.nstlist))
        ∧ (∃ dfin, Accepts exampleSmallBox (exampleCr false) () ()
            (exampleSmallBox.verletbuf_get_list_setup true false)
            (tuner_bounds exampleSmallBox exampleIr () () false ⟨false⟩).1
            (tuner_bounds exampleSmallBox exampleIr () () false ⟨false⟩).2 exampleIr
            (nstlist_try.filter
              (fun v => decide (exampleIr.nstlist < v ∧ v ≤ res.ir.nstlist)))
            (exampleCr false).dd dfin)
        ∧ res.ir.rlist = (if res.ir.nstlist = exampleIr.nstlist then exampleIr.rlist
            else radius_for exampleSmallBox () ()
              (exampleSmallBox.verletbuf_get_list_setup true false) exampleIr res.ir.nstlist)) :=
  final_interval_is_last_accepted exampleSmallBox true (exampleCr false) exampleIr 0 () () false
    ⟨false⟩ (by decide)

/-- Counterexample to C5 as stated: the candidate 20 has radius 1.07, which is
above the acceptable bound `rlist_ok` = 1.05 (and not above `rlist_max` = 1.09);
it is accepted all the same: the run ends with interval 20 and radius 1.07. -/
theorem accepted_above_rlist_ok :
    (tuner_bounds exampleBetween exampleIr () () false ⟨false⟩).1
        < radius_for exampleBetween () () (exampleBetween.verletbuf_get_list_setup true false)
            exampleIr 20
    ∧ (increase_nstlist exampleBetween false (exampleCr false) exampleIr 0 () () false
        ⟨false⟩).map (fun r => (r.ir.nstlist, r.ir.rlist)) = .ok (20, 107 / 100) := by
  constructor
  · unfold exampleBetween
    rw [example_bounds]
    norm_num [radius_for, exampleExtern, exampleRadius]
  · norm_num [increase_nstlist, entry_block, scan_nstlist_ind, nstlist_try_at, nstlist_try, NNSTL,
      exampleIr, exampleCr, search_block, tune_loop, tune_body, dd_check, decide_candidate,
      finish_tuning, rlist_bounds, listfac, exampleBetween, exampleExtern, exampleRadius, square,
      nbnxnReferenceNstlist, nbnxn_cpu_listfac_ok, nbnxn_cpu_listfac_max, Except.map]

/-- C5, amended: in automatic mode, one pass through the loop body on the
candidate `v = nstlist_try[nstlist_ind]`, whose decomposition check returns
`bDD`, makes `v` the current best (`ir->nstlist`, `nstlist_prev` and
`rlist_prev` are set to `v` and its radius) if the radius fits the box, `bDD`
holds and the radius is not above `rlist_max`; otherwise it puts back the
previous best.  `bCont` is set exactly when the candidate was accepted, more
candidates remain and the radius is below `rlist_ok`; the loop goes on to the
next pass exactly when `bCont` is set and stops otherwise. -/
theorem candidate_step (E : Extern M B D) (cr : t_commrec D) (nstlist_cmdline : Int) (mtop : M)
    (box : B) (ls : verletbuf_list_setup_t) (rlist_ok rlist_max : ℚ) (s : Tune D) (v : Int)
    (bDD : Bool) (d1 : D) (fuel : Nat) (hcmd : nstlist_cmdline ≤ 0)
    (hv : nstlist_try[s.nstlist_ind]? = some v)
    (hdd : dd_check E cr box { s.ir with nstlist := v } s.dd
        (fits_box E box s.ir (radius_for E mtop box ls s.ir v)) (radius_for E mtop box ls s.ir v)
      = .ok (bDD, d1)) :
    ∃ t, tune_body E cr nstlist_cmdline mtop box ls rlist_ok rlist_max s = .ok t
      ∧ (fits_box E box s.ir (radius_for E mtop box ls s.ir v) = true ∧ bDD = true
            ∧ radius_for E mtop box ls s.ir v ≤ rlist_max →
          t.ir.nstlist = v ∧ t.nstlist_prev = v
            ∧ t.rlist_prev = radius_for E mtop box ls s.ir v)
      ∧ (¬ (fits_box E box s.ir (radius_for E mtop box ls s.ir v) = true ∧ bDD = true
            ∧ radius_for E mtop box ls s.ir v ≤ rlist_max) →
          t.ir.nstlist = s.nstlist_prev ∧ t.nstlist_prev = s.nstlist_prev
            ∧ t.rlist_prev = s.rlist_prev)
      ∧ (t.bCont = true ↔
          (fits_box E box s.ir (radius_for E mtop box ls s.ir v) = true ∧ bDD = true
            ∧ radius_for E mtop box ls s.ir v ≤ rlist_max)
          ∧ s.nstlist_ind + 1 < NNSTL ∧ radius_for E mtop box ls s.ir v < rlist_ok)
      ∧ tune_loop E cr nstlist_cmdline mtop box ls rlist_ok rlist_max (fuel + 1) s
          = if t.bCont = true then
              tune_loop E cr nstlist_cmdline mtop box ls rlist_ok rlist_max fuel t
            else .ok t := by
  have hb := tune_body_auto E cr nstlist_cmdline mtop box ls rlist_ok rlist_max s.ir hcmd s v hv rfl
  rw [hdd] at hb
  simp only at hb
  refine ⟨_, hb, ?_, ?_, ?_, ?_⟩
  · rintro ⟨h1, h2, h3⟩
    simp [decide_candidate, hcmd, h1, h2, h3]
  · intro h
    have : ¬ ((fits_box E box s.ir (radius_for E mtop box ls s.ir v) && bDD
        && decide (radius_for E mtop box ls s.ir v ≤ rlist_max)) = true) := by
      simpa [Bool.and_eq_true, and_assoc] using h
    simp [decide_candidate, hcmd, this]
  · by_cases h : (fits_box E box s.ir (radius_for E mtop box ls s.ir v) && bDD
        && decide (radius_for E mtop box ls s.ir v ≤ rlist_max)) = true
    · have h2 := h
      simp only [Bool.and_eq_true, decide_eq_true_eq, and_assoc] at h2
      simp only [decide_candidate, hcmd, if_true, h, Bool.and_eq_true, decide_eq_true_eq]
      constructor
      · intro hc; exact ⟨h2, hc⟩
      · intro hc; exact hc.2
    · have h2 := h
      simp only [Bool.and_eq_true, decide_eq_true_eq, and_assoc] at h2
      simp only [decide_candidate, hcmd, if_true, h, if_false, Bool.false_eq_true, false_iff]
      intro hc; exact h2 hc.1
  · rw [tune_loop, hb]

/-- Witness for C5 amended: the first pass on the example with radius 1.07
accepts the candidate 20 and does not continue. -/
theorem candidate_step_witness :
    ∃ t, tune_body exampleBetween (exampleCr false) 0 () ()
          (exampleBetween.verletbuf_get_list_setup true false) (105 / 100) (109 / 100)
          exampleStart = .ok t
      ∧ t.ir.nstlist = 20 ∧ t.rlist_prev = 107 / 100 ∧ t.bCont = false := by
  obtain ⟨t, h1, h2, _, h4, _⟩ := candidate_step exampleBetween (exampleCr false) 0 () ()
    (exampleBetween.verletbuf_get_list_setup true false) (105 / 100) (109 / 100) exampleStart 20
    true 0 2 (by decide) (by simp [exampleStart, nstlist_try])
    (by simp [dd_check, exampleCr, exampleStart])
  have hr : radius_for exampleBetween () () (exampleBetween.verletbuf_get_list_setup true false)
      exampleStart.ir 20 = 107 / 100 := by
    norm_num [radius_for, exampleBetween, exampleExtern, exampleRadius]
  rw [hr] at h2 h4
  have h5 := h2 ⟨by norm_num [fits_box, square, exampleBetween, exampleExtern], rfl,
    by norm_num⟩
  refine ⟨t, h1, h5.1, h5.2.2, ?_⟩
  cases hb : t.bCont
  · rfl
  · have := (h4.mp hb).2.2
    norm_num at this

/-- C6: the tuner is deterministic.  Take two runs of `increase_nstlist`, and two
runs of `prepare_verlet_scheme`, with the same input record, command-line
interval, topology, box, hardware class (`bGPU` and the AVX-512ER feature),
the same decomposition state and `DOMAINDECOMP` flag, and identical answers
from every external function (`calc_verlet_buffer_size`, `max_cutoff2`,
`change_dd_cutoff`, ...); the log file and the `MASTER` flags may differ.  Then
both runs are aborted with the same error, or both return with the same input
record, so the same `nstlist` and `rlist`, and the same decomposition state. -/
theorem tuner_deterministic (E1 E2 : Extern M B D) (fp1 fp2 : Bool) (cr1 cr2 : t_commrec D)
    (ir : t_inputrec) (nstlist_cmdline : Int) (mtop : M) (box : B) (bGPU : Bool)
    (cpuinfo : CpuInfo) (hE : SameAnswers E1 E2)
    (hdom : cr1.DOMAINDECOMP = cr2.DOMAINDECOMP) (hdd : cr1.dd = cr2.dd) :
    (increase_nstlist E1 fp1 cr1 ir nstlist_cmdline mtop box bGPU cpuinfo).map Run.state
        = (increase_nstlist E2 fp2 cr2 ir nstlist_cmdline mtop box bGPU cpuinfo).map Run.state
    ∧ (prepare_verlet_scheme E1 fp1 cr1 ir nstlist_cmdline mtop box bGPU cpuinfo).map Run.state
        = (prepare_verlet_scheme E2 fp2 cr2 ir nstlist_cmdline mtop box bGPU cpuinfo).map
            Run.state := by
  have := sameAnswers_eq E1 E2 hE
  subst this
  exact ⟨increase_nstlist_state E1 fp1 fp2 cr1 cr2 ir nstlist_cmdline mtop box bGPU cpuinfo hdom hdd,
    prepare_verlet_scheme_state E1 fp1 fp2 cr1 cr2 ir nstlist_cmdline mtop box bGPU cpuinfo hdom hdd⟩

/-- Witness for C6: a run with a log file on the master rank and a run without a
log file on another rank. -/
theorem tuner_deterministic_witness :
    (increase_nstlist exampleSmallBox true (exampleCr true) exampleIr 0 () () false
        ⟨false⟩).map Run.state
      = (increase_nstlist exampleSmallBox false
          { MASTER := false, SIMMASTER := false, DOMAINDECOMP := true, dd := 0 } exampleIr 0 () ()
          false ⟨false⟩).map Run.state
    ∧ (prepare_verlet_scheme exampleSmallBox true (exampleCr true) exampleIr 0 () () false
        ⟨false⟩).map Run.state
      = (prepare_verlet_scheme exampleSmallBox false
          { MASTER := false, SIMMASTER := false, DOMAINDECOMP := true, dd := 0 } exampleIr 0 () ()
          false ⟨false⟩).map Run.state :=
  tuner_deterministic exampleSmallBox exampleSmallBox true false (exampleCr true)
    { MASTER := false, SIMMASTER := false, DOMAINDECOMP := true, dd := 0 } exampleIr 0 () ()
    false ⟨false⟩ (sameAnswers_refl _) rfl rfl

/-- C7: if the integrator is not a dynamics integrator (`EI_DYNAMICS` is false)
and no interval is given on the command line, `prepare_verlet_scheme` returns
with the input record (so `nstlist` and `rlist`) and the decomposition state
unchanged and writes nothing; this holds whatever function stands for
`increase_nstlist` at line 600, so that function is not called. -/
theorem non_dynamics_untouched (tuner : Tuner M B D) (E : Extern M B D) (fplog : Bool)
    (cr : t_commrec D) (ir : t_inputrec) (nstlist_cmdline : Int) (mtop : M) (box : B)
    (bUseGPU : Bool) (cpuinfo : CpuInfo) (hdyn : E.EI_DYNAMICS ir.eI = false)
    (hcmd : nstlist_cmdline ≤ 0) :
    prepare_verlet_scheme_with tuner E fplog cr ir nstlist_cmdline mtop box bUseGPU cpuinfo
        = .ok { ir := ir, dd := cr.dd, out := [] }
    ∧ prepare_verlet_scheme E fplog cr ir nstlist_cmdline mtop box bUseGPU cpuinfo
        = .ok { ir := ir, dd := cr.dd, out := [] } := by
  have hn : ¬ nstlist_cmdline > 0 := by omega
  have key : ∀ t : Tuner M B D,
      prepare_verlet_scheme_with t E fplog cr ir nstlist_cmdline mtop box bUseGPU cpuinfo
        = .ok { ir := ir, dd := cr.dd, out := [] } := by
    intro t
    simp only [prepare_verlet_scheme_with,
      update_rlist_skip E fplog ir mtop box bUseGPU (Or.inl hdyn), hn, false_and, if_false, hdyn,
      Bool.false_eq_true]
  exact ⟨key tuner, key _⟩

/-- Witness for C7: steepest descent (`eiSteep`), with a tuner that would abort
if it were called. -/
theorem non_dynamics_untouched_witness :
    (exampleExtern (exampleRadius 1 1 1) 4 1).EI_DYNAMICS
        ({ exampleIr with eI := 1 } : t_inputrec).eI = false
    ∧ prepare_verlet_scheme_with (fun _ _ _ _ _ _ _ _ => .error .out_of_fuel)
        (exampleExtern (exampleRadius 1 1 1) 4 1) true (exampleCr false)
        { exampleIr with eI := 1 } 0 () () false ⟨false⟩
        = .ok { ir := { exampleIr with eI := 1 }, dd := 0, out := [] }
    ∧ prepare_verlet_scheme (exampleExtern (exampleRadius 1 1 1) 4 1) true (exampleCr false)
        { exampleIr with eI := 1 } 0 () () false ⟨false⟩
        = .ok { ir := { exampleIr with eI := 1 }, dd := 0, out := [] } := by
  have h : (exampleExtern (exampleRadius 1 1 1) 4 1).EI_DYNAMICS
      ({ exampleIr with eI := 1 } : t_inputrec).eI = false := by
    simp [exampleExtern, exampleIr]
  exact ⟨h, non_dynamics_untouched _ _ true (exampleCr false) _ 0 () () false ⟨false⟩ h
    (by decide)⟩

/-- Counterexample to C8 as stated: with `verletbuf_tol == 0` (which is `<= 0`),
no interval on the command line, a dynamical integrator with temperature
coupling and no GPU, `prepare_verlet_scheme` and `increase_nstlist` change the
interval from 10 to 40. -/
theorem zero_tolerance_still_tunes :
    ({ exampleIr with verletbuf_tol := 0 } : t_inputrec).verletbuf_tol ≤ 0
    ∧ ({ exampleIr with verletbuf_tol := 0 } : t_inputrec).nstlist = 10
    ∧ (prepare_verlet_scheme (exampleExtern (exampleRadius 1 1 1) 4 1) false (exampleCr false)
        { exampleIr with verletbuf_tol := 0 } 0 () () false ⟨false⟩).map
          (fun r => r.ir.nstlist) = .ok 40
    ∧ (increase_nstlist (exampleExtern (exampleRadius 1 1 1) 4 1) false (exampleCr false)
        { exampleIr with verletbuf_tol := 0 } 0 () () false ⟨false⟩).map
          (fun r => r.ir.nstlist) = .ok 40 := by
  refine ⟨by norm_num [exampleIr], rfl, ?_, ?_⟩
  · norm_num [prepare_verlet_scheme, prepare_verlet_scheme_with, update_rlist, increase_nstlist,
      entry_block, scan_nstlist_ind, nstlist_try_at, nstlist_try, NNSTL,
      exampleIr, exampleCr, search_block, tune_loop, tune_body, dd_check, decide_candidate,
      finish_tuning, rlist_bounds, listfac, exampleExtern, exampleRadius, square,
      nbnxnReferenceNstlist, nbnxn_cpu_listfac_ok, nbnxn_cpu_listfac_max, Except.map]
  · norm_num [increase_nstlist,
      entry_block, scan_nstlist_ind, nstlist_try_at, nstlist_try, NNSTL,
      exampleIr, exampleCr, search_block, tune_loop, tune_body, dd_check, decide_candidate,
      finish_tuning, rlist_bounds, listfac, exampleExtern, exampleRadius, square,
      nbnxnReferenceNstlist, nbnxn_cpu_listfac_ok, nbnxn_cpu_listfac_max, Except.map]

/-- C8, amended: if the tolerance is negative (`ir->verletbuf_tol < 0`) and no
interval is given on the command line, `prepare_verlet_scheme` and
`increase_nstlist` return with the input record (so `nstlist` and `rlist`)
and the decomposition state unchanged, for every integrator, hardware class
and box. -/
theorem negative_tolerance_skips (E : Extern M B D) (fplog : Bool) (cr : t_commrec D)
    (ir : t_inputrec) (nstlist_cmdline : Int) (mtop : M) (box : B) (bUseGPU : Bool)
    (cpuinfo : CpuInfo) (htol : ir.verletbuf_tol < 0) (hcmd : nstlist_cmdline ≤ 0) :
    (∃ out, prepare_verlet_scheme E fplog cr ir nstlist_cmdline mtop box bUseGPU cpuinfo
        = .ok { ir := ir, dd := cr.dd, out := out })
    ∧ (∃ out, increase_nstlist E fplog cr ir nstlist_cmdline mtop box bUseGPU cpuinfo
        = .ok { ir := ir, dd := cr.dd, out := out }) := by
  have hinc : ∃ out, increase_nstlist E fplog cr ir nstlist_cmdline mtop box bUseGPU cpuinfo
      = .ok { ir := ir, dd := cr.dd, out := out } := by
    rcases increase_nstlist_auto_cases E fplog cr ir nstlist_cmdline mtop box bUseGPU cpuinfo
      hcmd with ⟨out, h⟩ | ⟨_, h0, _⟩ | ⟨_, hs, _⟩
    · exact ⟨out, h⟩
    · rw [h0] at htol; exact absurd htol (lt_irrefl 0)
    · exact absurd htol hs.2.2
  refine ⟨?_, hinc⟩
  obtain ⟨out, hout⟩ := hinc
  have hn : ¬ nstlist_cmdline > 0 := by omega
  simp only [prepare_verlet_scheme, prepare_verlet_scheme_with,
    update_rlist_skip E fplog ir mtop box bUseGPU (Or.inr (Or.inl (le_of_lt htol))), hn,
    false_and, if_false]
  split
  · rw [hout]; exact ⟨_, rfl⟩
  · exact ⟨_, rfl⟩

/-- Witness for C8 amended: tolerance -1. -/
theorem negative_tolerance_skips_witness :
    ({ exampleIr with verletbuf_tol := -1 } : t_inputrec).verletbuf_tol < 0
    ∧ (∃ out, prepare_verlet_scheme (exampleExtern (exampleRadius 1 1 1) 4 1) false
        (exampleCr false) { exampleIr with verletbuf_tol := -1 } 0 () () false ⟨false⟩
        = .ok { ir := { exampleIr with verletbuf_tol := -1 }, dd := (exampleCr false).dd,
                out := out })
    ∧ (∃ out, increase_nstlist (exampleExtern (exampleRadius 1 1 1) 4 1) false
        (exampleCr false) { exampleIr with verletbuf_tol := -1 } 0 () () false ⟨false⟩
        = .ok { ir := { exampleIr with verletbuf_tol := -1 }, dd := (exampleCr false).dd,
                out := out }) := by
  have h : ({ exampleIr with verletbuf_tol := -1 } : t_inputrec).verletbuf_tol < 0 := by
    norm_num
  exact ⟨h, negative_tolerance_skips _ false (exampleCr false) _ 0 () () false ⟨false⟩ h
    (by decide)⟩

/-- C9: `prepare_verlet_scheme` is aborted by the fatal error "Can not set
nstlist without ..." if and only if `nstlist_cmdline > 0` and the integrator is
not dynamical or `ir->verletbuf_tol <= 0`; in that case the error is raised
whatever function stands for `increase_nstlist`, so that function is not
reached; and when the cut-off scheme is not the Verlet scheme, the set-up
block of `mdrunner` on the master rank is aborted by a fatal error for every
`nstlist_cmdline > 0`. -/
theorem pinned_interval_fatal (E : Extern M B D) (fplog : Bool) (cr : t_commrec D)
    (ir : t_inputrec) (nstlist_cmdline : Int) (mtop : M) (box : B) (bUseGPU : Bool)
    (cpuinfo : CpuInfo) :
    ((∃ what, prepare_verlet_scheme E fplog cr ir nstlist_cmdline mtop box bUseGPU cpuinfo
          = .error (.gmx_fatal ("Can not set nstlist without " ++ what)))
      ↔ (0 < nstlist_cmdline ∧ (E.EI_DYNAMICS ir.eI = false ∨ ir.verletbuf_tol ≤ 0)))
    ∧ (0 < nstlist_cmdline → (E.EI_DYNAMICS ir.eI = false ∨ ir.verletbuf_tol ≤ 0) →
        ∀ tuner : Tuner M B D,
          prepare_verlet_scheme_with tuner E fplog cr ir nstlist_cmdline mtop box bUseGPU cpuinfo
            = .error (.gmx_fatal ("Can not set nstlist without " ++
                (if E.EI_DYNAMICS ir.eI = false then "dynamics"
                 else "verlet-buffer-tolerance"))))
    ∧ (0 < nstlist_cmdline → cr.SIMMASTER = true → ir.cutoff_scheme ≠ E.ecutsVERLET →
        ∀ (tuner : Tuner M B D) (n_dev_compatible : Int)
          (GMX_EMULATE_GPU bForceUseGPU bRerunMD : Bool),
          mdrunner_setup_with tuner E fplog cr ir nstlist_cmdline mtop box n_dev_compatible
              GMX_EMULATE_GPU bForceUseGPU bRerunMD cpuinfo
            = .error (.gmx_fatal "Can not set nstlist with the group cut-off scheme")) := by
  have hf := update_rlist_fields E fplog ir mtop box bUseGPU
  have heI : (update_rlist E fplog ir mtop box bUseGPU).1.eI = ir.eI := by rw [hf]
  have htol : (update_rlist E fplog ir mtop box bUseGPU).1.verletbuf_tol = ir.verletbuf_tol := by
    rw [hf]
  have hfatal : 0 < nstlist_cmdline → (E.EI_DYNAMICS ir.eI = false ∨ ir.verletbuf_tol ≤ 0) →
      ∀ tuner : Tuner M B D,
        prepare_verlet_scheme_with tuner E fplog cr ir nstlist_cmdline mtop box bUseGPU cpuinfo
          = .error (.gmx_fatal ("Can not set nstlist without " ++
              (if E.EI_DYNAMICS ir.eI = false then "dynamics"
               else "verlet-buffer-tolerance"))) := by
    intro hc hd tuner
    have hcond : nstlist_cmdline > 0 ∧ (E.EI_DYNAMICS ir.eI = false ∨ ir.verletbuf_tol ≤ 0) :=
      ⟨hc, hd⟩
    simp only [prepare_verlet_scheme_with, heI, htol, if_pos hcond]
  refine ⟨⟨?_, ?_⟩, hfatal, ?_⟩
  · rintro ⟨what, h⟩
    by_contra hcond
    have hcond2 : ¬ (nstlist_cmdline > 0
        ∧ (E.EI_DYNAMICS ir.eI = false ∨ ir.verletbuf_tol ≤ 0)) := hcond
    simp only [prepare_verlet_scheme, prepare_verlet_scheme_with, heI, htol, if_neg hcond2] at h
    split at h
    · cases hinc : increase_nstlist E fplog cr (update_rlist E fplog ir mtop box bUseGPU).1
          nstlist_cmdline mtop box bUseGPU cpuinfo with
      | error e =>
        rw [hinc] at h
        simp only [Except.error.injEq] at h
        subst h
        rcases increase_nstlist_error _ _ _ _ _ _ _ _ _ _ hinc with he | ⟨msg, he⟩
        · exact fatal_msg_ne what (Err.gmx_fatal.inj he)
        · cases he
      | ok r => rw [hinc] at h; cases h
    · cases h
  · rintro ⟨hc, hd⟩
    exact ⟨_, hfatal hc hd _⟩
  · intro hc hm hcut tuner n_dev emu force rerun
    have hc2 : nstlist_cmdline > 0 := hc
    simp only [mdrunner_setup_with, hm, if_true, if_neg hcut, if_pos hc2]

/-- Witness for C9: interval 20 pinned with steepest descent, and with the group
scheme. -/
theorem pinned_interval_fatal_witness :
    (∃ what, prepare_verlet_scheme (exampleExtern (exampleRadius 1 1 1) 4 1) true
        (exampleCr false) { exampleIr with eI := 1 } 20 () () false ⟨false⟩
        = .error (.gmx_fatal ("Can not set nstlist without " ++ what)))
    ∧ prepare_verlet_scheme_with (fun _ _ _ _ _ _ _ _ => .error .out_of_fuel)
        (exampleExtern (exampleRadius 1 1 1) 4 1) true
        (exampleCr false) { exampleIr with eI := 1 } 20 () () false ⟨false⟩
        = .error (.gmx_fatal "Can not set nstlist without dynamics")
    ∧ mdrunner_setup_with (fun _ _ _ _ _ _ _ _ => .error .out_of_fuel)
        (exampleExtern (exampleRadius 1 1 1) 4 1) true
        (exampleCr false) { exampleIr with cutoff_scheme := 1 } 20 () () 0 false false false
        ⟨false⟩
        = .error (.gmx_fatal "Can not set nstlist with the group cut-off scheme") := by
  have h := pinned_interval_fatal (exampleExtern (exampleRadius 1 1 1) 4 1) true
    (exampleCr false) { exampleIr with eI := 1 } 20 () () false ⟨false⟩
  have hd : (exampleExtern (exampleRadius 1 1 1) 4 1).EI_DYNAMICS
      ({ exampleIr with eI := 1 } : t_inputrec).eI = false := by
    simp [exampleExtern, exampleIr]
  refine ⟨h.1.mpr ⟨by decide, Or.inl hd⟩, ?_, ?_⟩
  · have h2 := h.2.1 (by decide) (Or.inl hd) (fun _ _ _ _ _ _ _ _ => .error .out_of_fuel)
    rw [if_pos hd] at h2
    exact h2
  · exact (pinned_interval_fatal (exampleExtern (exampleRadius 1 1 1) 4 1) true
      (exampleCr false) { exampleIr with cutoff_scheme := 1 } 20 () () false ⟨false⟩).2.2
      (by decide) rfl (by simp [exampleExtern, exampleIr]) _ 0 false false false

/-- C10: with a pinned interval (`nstlist_cmdline > 0`), no NVE run and a
positive tolerance, the loop body runs exactly once (the loop returns what
its first pass returns).  When the decomposition check of the pinned value
returns `bDD`, `increase_nstlist` returns without fatal error; if the radius
fits the box and `bDD` holds, the final interval is `nstlist_cmdline` and the
final radius is the one computed for it, whatever `rlist_ok` and `rlist_max`
are; otherwise the interval is the original one again, the radius is
unchanged and a warning is issued. -/
theorem pinned_interval_checked_once (E : Extern M B D) (fp : Bool) (cr : t_commrec D)
    (ir : t_inputrec) (nstlist_cmdline : Int) (mtop : M) (box : B) (bGPU : Bool)
    (cpuinfo : CpuInfo) (bDD : Bool) (d1 : D)
    (hcmd : 0 < nstlist_cmdline) (hnve : ¬ (E.EI_MD ir.eI = true ∧ ir.etc = E.etcNO))
    (htol : 0 < ir.verletbuf_tol)
    (hdd : dd_check E cr box { ir with nstlist := nstlist_cmdline } cr.dd
        (fits_box E box ir
          (radius_for E mtop box (E.verletbuf_get_list_setup true bGPU) ir nstlist_cmdline))
        (radius_for E mtop box (E.verletbuf_get_list_setup true bGPU) ir nstlist_cmdline)
      = .ok (bDD, d1)) :
    (∀ (ls : verletbuf_list_setup_t) (rlist_ok rlist_max : ℚ) (fuel : Nat) (s : Tune D),
        tune_loop E cr nstlist_cmdline mtop box ls rlist_ok rlist_max (fuel + 1) s
          = tune_body E cr nstlist_cmdline mtop box ls rlist_ok rlist_max s)
    ∧ ∃ res, increase_nstlist E fp cr ir nstlist_cmdline mtop box bGPU cpuinfo = .ok res
        ∧ (fits_box E box ir
              (radius_for E mtop box (E.verletbuf_get_list_setup true bGPU) ir nstlist_cmdline)
              = true ∧ bDD = true →
            res.ir.nstlist = nstlist_cmdline
            ∧ res.ir.rlist
              = radius_for E mtop box (E.verletbuf_get_list_setup true bGPU) ir nstlist_cmdline)
        ∧ (¬ (fits_box E box ir
              (radius_for E mtop box (E.verletbuf_get_list_setup true bGPU) ir nstlist_cmdline)
              = true ∧ bDD = true) →
            res.ir.nstlist = ir.nstlist ∧ res.ir.rlist = ir.rlist
            ∧ ∃ t, Event.warning t ∈ res.out) := by
  have hs : Searches E ir bGPU := by
    refine ⟨hnve, ?_, not_lt.mpr (le_of_lt htol)⟩
    rintro ⟨h0, _⟩
    rw [h0] at htol; exact lt_irrefl 0 htol
  refine ⟨fun ls rlist_ok rlist_max fuel s =>
    tune_loop_pinned E cr nstlist_cmdline mtop box ls rlist_ok rlist_max hcmd fuel s, ?_⟩
  rw [increase_nstlist_pinned E fp cr ir nstlist_cmdline mtop box bGPU cpuinfo hcmd hs, hdd]
  refine ⟨_, rfl, ?_, ?_⟩
  · rintro ⟨hb, hd⟩
    simp only [finish_tuning, hb, hd, Bool.not_true, Bool.or_self, Bool.false_eq_true, if_false]
    by_cases hch : nstlist_cmdline ≠ ir.nstlist
        ∨ radius_for E mtop box (E.verletbuf_get_list_setup true bGPU) ir nstlist_cmdline
          ≠ ir.rlist
    · rw [if_pos hch]; exact ⟨rfl, rfl⟩
    · rw [if_neg hch]
      simp only [not_or, not_not] at hch
      exact ⟨rfl, hch.2.symm⟩
  · intro hno
    have hc : (!fits_box E box ir
        (radius_for E mtop box (E.verletbuf_get_list_setup true bGPU) ir nstlist_cmdline)
        || !bDD) = true := by
      simp only [Bool.or_eq_true, Bool.not_eq_true']
      by_cases hb : fits_box E box ir
        (radius_for E mtop box (E.verletbuf_get_list_setup true bGPU) ir nstlist_cmdline) = true
      · right
        cases bDD
        · rfl
        · exact absurd ⟨hb, rfl⟩ hno
      · left; simpa using hb
    simp only [finish_tuning, hc, if_true]
    refine ⟨trivial, trivial, Text.lit (if (!fits_box E box ir
        (radius_for E mtop box (E.verletbuf_get_list_setup true bGPU) ir nstlist_cmdline)) = true
        then box_err else dd_err), ?_⟩
    simp

/-- Witness for C10: the pinned interval 25 has radius 1.5, above `rlist_max`,
and is taken. -/
theorem pinned_interval_checked_once_witness :
    (tuner_bounds (exampleExtern (exampleRadius 1 (3 / 2) 1) 4 1) exampleIr () () false
        ⟨false⟩).2 < 3 / 2
    ∧ ∃ res, increase_nstlist (exampleExtern (exampleRadius 1 (3 / 2) 1) 4 1) true
          (exampleCr false) exampleIr 25 () () false ⟨false⟩ = .ok res
        ∧ res.ir.nstlist = 25 ∧ res.ir.rlist = 3 / 2 := by
  constructor
  · rw [example_bounds]; norm_num [exampleRadius]
  have h := (pinned_interval_checked_once (exampleExtern (exampleRadius 1 (3 / 2) 1) 4 1) true
    (exampleCr false) exampleIr 25 () () false ⟨false⟩ true 0 (by decide)
    (by simp [exampleExtern, exampleIr])
    (by norm_num [exampleIr])
    (by simp [dd_check, exampleCr])).2
  obtain ⟨res, h1, h2, _⟩ := h
  have h3 := h2 ⟨by norm_num [fits_box, radius_for, exampleExtern, exampleRadius, square], rfl⟩
  refine ⟨res, h1, h3.1, ?_⟩
  rw [h3.2]
  norm_num [radius_for, exampleExtern, exampleRadius]

/-- C11: `override_nsteps_cmdline` makes the step count of the command line
win.  For `nsteps_cmdline > -2` (so also for -1) it returns with `ir->nsteps`
set to `nsteps_cmdline`; for `nsteps_cmdline == -2` it returns `ir` unchanged
and logs nothing; it is aborted by a fatal error exactly when
`nsteps_cmdline < -2`; whenever it returns, no field of `ir` other than
`nsteps` has changed; and in `mdrunner`, where it is called after
`load_checkpoint`, the final `nsteps` is `nsteps_cmdline`, whatever value the
checkpoint restored. -/
theorem override_nsteps_cmdline_wins (EI_DYNAMICS : Int → Bool)
    (load_checkpoint : t_inputrec → Except Err t_inputrec) (nsteps_cmdline : Int)
    (ir : t_inputrec) :
    (nsteps_cmdline > -2 →
      ∃ out, override_nsteps_cmdline EI_DYNAMICS nsteps_cmdline ir
        = .ok ({ ir with nsteps := nsteps_cmdline }, out))
    ∧ (nsteps_cmdline = -2 →
      override_nsteps_cmdline EI_DYNAMICS nsteps_cmdline ir = .ok (ir, []))
    ∧ ((∃ e, override_nsteps_cmdline EI_DYNAMICS nsteps_cmdline ir = .error e)
      ↔ nsteps_cmdline < -2)
    ∧ (∀ ir1 out, override_nsteps_cmdline EI_DYNAMICS nsteps_cmdline ir = .ok (ir1, out) →
      ir1 = { ir with nsteps := ir1.nsteps })
    ∧ (nsteps_cmdline > -2 → ∀ ir0, load_checkpoint ir = .ok ir0 →
      ∃ out, mdrunner_restart_block EI_DYNAMICS load_checkpoint true nsteps_cmdline ir
        = .ok ({ ir0 with nsteps := nsteps_cmdline }, out)) := by
  have h1 : ∀ ir : t_inputrec, nsteps_cmdline > -2 →
      ∃ out, override_nsteps_cmdline EI_DYNAMICS nsteps_cmdline ir
        = .ok ({ ir with nsteps := nsteps_cmdline }, out) := by
    intro ir h
    exact ⟨_, by rw [override_nsteps_cmdline, if_pos h]⟩
  refine ⟨h1 ir, ?_, ?_, ?_, ?_⟩
  · intro h
    subst h
    simp [override_nsteps_cmdline]
  · constructor
    · rintro ⟨e, he⟩
      by_contra hn
      simp only [override_nsteps_cmdline, if_neg hn] at he
      split at he <;> cases he
    · intro h
      have h2 : ¬ nsteps_cmdline > -2 := by omega
      exact ⟨_, by rw [override_nsteps_cmdline, if_neg h2, if_pos h]⟩
  · intro ir1 out h
    simp only [override_nsteps_cmdline] at h
    split at h
    · simp only [Except.ok.injEq, Prod.mk.injEq] at h
      rw [← h.1]
    · split at h
      · cases h
      · simp only [Except.ok.injEq, Prod.mk.injEq] at h
        rw [← h.1]
  · intro h ir0 h0
    simp only [mdrunner_restart_block, if_true, h0]
    exact h1 ir0 h

/-- Witness for C11: 500 steps override 1000; with a checkpoint that restores
7000 steps, the command-line value -1 wins. -/
theorem override_nsteps_cmdline_wins_witness :
    (∃ out, override_nsteps_cmdline (fun e => decide (e = 0)) 500
        { exampleIr with nsteps := 1000 } = .ok ({ exampleIr with nsteps := 500 }, out))
    ∧ (∃ out, mdrunner_restart_block (fun e => decide (e = 0))
        (fun ir => .ok { ir with nsteps := 7000 }) true (-1) exampleIr
        = .ok ({ exampleIr with nsteps := -1 }, out)) := by
  constructor
  · exact (override_nsteps_cmdline_wins (fun e => decide (e = 0)) (fun ir => .ok ir) 500
      { exampleIr with nsteps := 1000 }).1 (by decide)
  · exact (override_nsteps_cmdline_wins (fun e => decide (e = 0))
      (fun ir => .ok { ir with nsteps := 7000 }) (-1) exampleIr).2.2.2.2 (by decide)
      { exampleIr with nsteps := 7000 } rfl

/-- C12: for pairwise different enumerators and the macros `EI_DYNAMICS` and
`EI_TPI` as modelled, `my_integrator` returns `do_md` exactly for `eiMD`,
`eiBD`, `eiSD1`, `eiVV` and `eiVVAK`, `do_steep` exactly for `eiSteep`, `do_cg`
for `eiCG`, `do_nm` for `eiNM`, `do_lbfgs` for `eiLBFGS`, `do_tpi` exactly for
`eiTPI` and `eiTPIC`; it throws `NotImplementedError` exactly for
`eiSD2_REMOVED` and the `APIError` "Non existing integrator selected" exactly
for the values that are no case label; the two inner guards never throw. -/
theorem my_integrator_dispatch (N : Integrators) (ei : Nat) (hN : N.labels.Nodup) :
    (my_integrator N (EI_DYNAMICS_of N) (EI_TPI_of N) ei = .ok .do_md
      ↔ ei = N.eiMD ∨ ei = N.eiBD ∨ ei = N.eiSD1 ∨ ei = N.eiVV ∨ ei = N.eiVVAK)
    ∧ (my_integrator N (EI_DYNAMICS_of N) (EI_TPI_of N) ei = .ok .do_steep ↔ ei = N.eiSteep)
    ∧ (my_integrator N (EI_DYNAMICS_of N) (EI_TPI_of N) ei = .ok .do_cg ↔ ei = N.eiCG)
    ∧ (my_integrator N (EI_DYNAMICS_of N) (EI_TPI_of N) ei = .ok .do_nm ↔ ei = N.eiNM)
    ∧ (my_integrator N (EI_DYNAMICS_of N) (EI_TPI_of N) ei = .ok .do_lbfgs ↔ ei = N.eiLBFGS)
    ∧ (my_integrator N (EI_DYNAMICS_of N) (EI_TPI_of N) ei = .ok .do_tpi
      ↔ ei = N.eiTPI ∨ ei = N.eiTPIC)
    ∧ (my_integrator N (EI_DYNAMICS_of N) (EI_TPI_of N) ei
        = .error (.NotImplementedError "SD2 integrator has been removed")
      ↔ ei = N.eiSD2_REMOVED)
    ∧ (my_integrator N (EI_DYNAMICS_of N) (EI_TPI_of N) ei
        = .error (.APIError "Non existing integrator selected")
      ↔ ei ∉ N.labels)
    ∧ my_integrator N (EI_DYNAMICS_of N) (EI_TPI_of N) ei
        ≠ .error (.APIError "do_md integrator would be called for a non-dynamical integrator")
    ∧ my_integrator N (EI_DYNAMICS_of N) (EI_TPI_of N) ei
        ≠ .error (.APIError "do_tpi integrator would be called for a non-TPI integrator") := by
  simp only [Integrators.labels, List.nodup_cons, List.mem_cons, List.mem_singleton, not_or,
    List.not_mem_nil, not_false_eq_true, List.nodup_nil, and_true] at hN
  obtain ⟨⟨a1, a2, a3, a4, a5, a6, a7, a8, a9, a10, a11⟩, ⟨b1, b2, b3, b4, b5, b6, b7, b8, b9, b10⟩,
    ⟨c1, c2, c3, c4, c5, c6, c7, c8, c9⟩, ⟨d1, d2, d3, d4, d5, d6, d7, d8⟩,
    ⟨e1, e2, e3, e4, e5, e6, e7⟩, ⟨f1, f2, f3, f4, f5, f6⟩, ⟨g1, g2, g3, g4, g5⟩,
    ⟨h1, h2, h3, h4⟩, ⟨i1, i2, i3⟩, ⟨j1, j2⟩, k1⟩ := hN
  simp only [my_integrator, EI_DYNAMICS_of, EI_TPI_of, Integrators.labels, List.mem_cons,
    List.mem_singleton, List.not_mem_nil, or_false]
  by_cases m1 : ei = N.eiMD
  · subst m1; simp [*]
  by_cases m2 : ei = N.eiBD
  · subst m2; simp [*]
  by_cases m3 : ei = N.eiSD1
  · subst m3; simp [*]
  by_cases m4 : ei = N.eiVV
  · subst m4; simp [*]
  by_cases m5 : ei = N.eiVVAK
  · subst m5; simp [*]
  by_cases m6 : ei = N.eiSteep
  · subst m6; simp [*]
  by_cases m7 : ei = N.eiCG
  · subst m7; simp [*]
  by_cases m8 : ei = N.eiNM
  · subst m8; simp [*]
  by_cases m9 : ei = N.eiLBFGS
  · subst m9; simp [*]
  by_cases m10 : ei = N.eiTPI
  · subst m10; simp [*]
  by_cases m11 : ei = N.eiTPIC
  · subst m11; simp [*]
  by_cases m12 : ei = N.eiSD2_REMOVED
  · subst m12; simp [*]
  simp [*]

/-- Witness for C12 with the usual values of the enumerators: 9 (`eiSD1`), 8
(`eiTPIC`) and 12 (no integrator). -/
theorem my_integrator_dispatch_witness :
    my_integrator exampleIntegrators (EI_DYNAMICS_of exampleIntegrators)
        (EI_TPI_of exampleIntegrators) 9 = .ok .do_md
    ∧ my_integrator exampleIntegrators (EI_DYNAMICS_of exampleIntegrators)
        (EI_TPI_of exampleIntegrators) 8 = .ok .do_tpi
    ∧ my_integrator exampleIntegrators (EI_DYNAMICS_of exampleIntegrators)
        (EI_TPI_of exampleIntegrators) 12
        = .error (.APIError "Non existing integrator selected") := by
  have hN : exampleIntegrators.labels.Nodup := by decide
  refine ⟨(my_integrator_dispatch exampleIntegrators 9 hN).1.mpr (by decide),
    (my_integrator_dispatch exampleIntegrators 8 hN).2.2.2.2.2.1.mpr (by decide),
    (my_integrator_dispatch exampleIntegrators 12 hN).2.2.2.2.2.2.2.1.mpr (by decide)⟩

theorem bForceUseGPU_gpu : bForceUseGPU "gpu" = true := by decide

theorem walk_ok_of_no_dd (E : Extern M B D) (cr : t_commrec D) (mtop : M) (box : B)
    (ls : verletbuf_list_setup_t) (rlist_ok rlist_max : ℚ) (ir : t_inputrec)
    (hdd : cr.DOMAINDECOMP = false) :
    ∀ (cs : List Int) (n : Int) (r : ℚ) (d : D),
      ∃ p, walk E cr mtop box ls rlist_ok rlist_max ir cs n r d = .ok p := by
  intro cs
  induction cs with
  | nil => intro n r d; exact ⟨_, rfl⟩
  | cons v vs ih =>
    intro n r d
    have hc : ∀ (b : Bool) (x : ℚ),
        dd_check E cr box { ir with nstlist := v } d b x = .ok (true, d) := by
      intro b x; simp [dd_check, hdd]
    rw [walk, hc]
    simp only
    split
    · split
      · exact ih _ _ _
      · exact ⟨_, rfl⟩
    · exact ⟨_, rfl⟩

theorem increase_nstlist_ok_of_cpu (E : Extern M B D) (fp : Bool) (cr : t_commrec D)
    (ir : t_inputrec) (cmd : Int) (mtop : M) (box : B) (cpuinfo : CpuInfo)
    (hcmd : cmd ≤ 0) (hdd : cr.DOMAINDECOMP = false) :
    ∃ r, increase_nstlist E fp cr ir cmd mtop box false cpuinfo = .ok r := by
  rcases increase_nstlist_auto_cases E fp cr ir cmd mtop box false cpuinfo hcmd with
    ⟨out, h⟩ | ⟨_, _, h⟩ | ⟨_, _, h⟩
  · exact ⟨_, h⟩
  · cases h
  · obtain ⟨p, hp⟩ := walk_ok_of_no_dd E cr mtop box (E.verletbuf_get_list_setup true false)
      (tuner_bounds E ir mtop box false cpuinfo).1 (tuner_bounds E ir mtop box false cpuinfo).2
      ir hdd (nstlist_try.filter (fun v => decide (ir.nstlist < v))) ir.nstlist ir.rlist cr.dd
    rw [h, hp]
    exact ⟨_, rfl⟩

theorem prepare_verlet_scheme_ok_of_cpu (E : Extern M B D) (fp : Bool) (cr : t_commrec D)
    (ir : t_inputrec) (cmd : Int) (mtop : M) (box : B) (cpuinfo : CpuInfo)
    (hcmd : cmd ≤ 0) (hdd : cr.DOMAINDECOMP = false) :
    ∃ r, prepare_verlet_scheme E fp cr ir cmd mtop box false cpuinfo = .ok r := by
  have hn : ¬ cmd > 0 := by omega
  simp only [prepare_verlet_scheme, prepare_verlet_scheme_with, hn, false_and, if_false]
  split
  · obtain ⟨r, hr⟩ := increase_nstlist_ok_of_cpu E fp cr (update_rlist E fp ir mtop box false).1
      cmd mtop box cpuinfo hcmd hdd
    rw [hr]
    exact ⟨_, rfl⟩
  · exact ⟨_, rfl⟩

theorem not_forced_of_auto (nbpu_opt : String)
    (h : strncmp nbpu_opt.data "auto".data 4 = 0) : bForceUseGPU nbpu_opt = false := by
  have hd : "auto".data = ['a', 'u', 't', 'o'] := by decide
  have hg : "gpu".data = ['g', 'p', 'u'] := by decide
  rw [hd] at h
  simp only [bForceUseGPU, hg, decide_eq_false_iff_not]
  cases hs : nbpu_opt.data with
  | nil => rw [hs] at h; simp [strncmp] at h
  | cons c cs =>
    rw [hs] at h
    simp only [strncmp] at h ⊢
    by_cases hc : c = 'a'
    · subst hc
      simp
    · simp only [hc, if_false] at h
      exfalso
      apply hc
      have : (c.toNat : Int) = ('a'.toNat : Int) := by omega
      have h2 : c.toNat = 'a'.toNat := by exact_mod_cast this
      exact Char.ext (UInt32.ext (by simpa [Char.toNat, UInt32.toNat] using h2))

/-- C13, the code at the failing input: on the master rank, with the option
string "gpu" (GPU forced), the Verlet scheme, no compatible device and
`GMX_EMULATE_GPU` not set, the decision step of `mdrunner` returns without
fatal error and with `bUseGPU == FALSE`. -/
theorem forced_gpu_without_device_falls_back :
    bForceUseGPU "gpu" = true
    ∧ (exampleCr false).SIMMASTER = true
    ∧ exampleIr.cutoff_scheme = (exampleExtern (exampleRadius 1 1 1) 4 1).ecutsVERLET
    ∧ (mdrunner_gpu_decision (exampleExtern (exampleRadius 1 1 1) 4 1) false (exampleCr false)
        exampleIr 0 () () 0 false "gpu" false ⟨false⟩).map Prod.fst = .ok false := by
  refine ⟨bForceUseGPU_gpu, rfl, rfl, ?_⟩
  simp only [mdrunner_gpu_decision, bForceUseGPU_gpu]
  norm_num [mdrunner_setup, mdrunner_setup_with, prepare_verlet_scheme_with, update_rlist,
    increase_nstlist, entry_block, scan_nstlist_ind, nstlist_try_at, nstlist_try, NNSTL,
    exampleIr, exampleCr, search_block, tune_loop, tune_body, dd_check, decide_candidate,
    finish_tuning, rlist_bounds, listfac, exampleExtern, exampleRadius, square,
    nbnxnReferenceNstlist, nbnxn_cpu_listfac_ok, nbnxn_cpu_listfac_max, Except.map]

/-- The two other cases of the decision step with a forced GPU, on the master
rank: settings that `nbnxn_gpu_acceleration_supported` rejects (with a device
or emulation) and a cut-off scheme other than Verlet both end in `gmx_fatal`. -/
theorem forced_gpu_sibling_paths (tuner : Tuner M B D) (E : Extern M B D) (fplog : Bool)
    (cr : t_commrec D) (inputrec : t_inputrec) (nstlist_cmdline : Int) (mtop : M) (box : B)
    (n_dev_compatible : Int) (GMX_EMULATE_GPU bRerunMD : Bool) (cpuinfo : CpuInfo)
    (hm : cr.SIMMASTER = true) :
    (inputrec.cutoff_scheme = E.ecutsVERLET →
      (n_dev_compatible > 0 ∨ GMX_EMULATE_GPU = true) →
      E.nbnxn_gpu_acceleration_supported inputrec bRerunMD = false →
      mdrunner_setup_with tuner E fplog cr inputrec nstlist_cmdline mtop box n_dev_compatible
          GMX_EMULATE_GPU true bRerunMD cpuinfo
        = .error (.gmx_fatal
            "GPU acceleration requested, but not supported with the given input settings"))
    ∧ (inputrec.cutoff_scheme ≠ E.ecutsVERLET →
      ∃ msg, mdrunner_setup_with tuner E fplog cr inputrec nstlist_cmdline mtop box
          n_dev_compatible GMX_EMULATE_GPU true bRerunMD cpuinfo = .error (.gmx_fatal msg)) := by
  constructor
  · intro hv hdev hsup
    have h1 : (decide (n_dev_compatible > 0) || GMX_EMULATE_GPU) = true := by
      rcases hdev with h | h
      · simp [h]
      · simp [h]
    simp [mdrunner_setup_with, hm, hv, h1, hsup]
  · intro hv
    by_cases hc : nstlist_cmdline > 0
    · exact ⟨"Can not set nstlist with the group cut-off scheme",
        by simp only [mdrunner_setup_with, hm, if_true, if_neg hv, if_pos hc]⟩
    · exact ⟨"GPU requested, but can't be used without cutoff-scheme=Verlet",
        by simp only [mdrunner_setup_with, hm, if_true, if_neg hv, if_neg hc]⟩

/-- C14: if the option string begins with "auto" (GPU merely attempted), no
interval is given on the command line and no device qualifies (no compatible
device and no emulation, or settings that `nbnxn_gpu_acceleration_supported`
rejects, or a cut-off scheme other than Verlet), the decision step returns
without fatal error and with `bUseGPU == FALSE`.  The decomposition is not yet
set up when the step runs (`DOMAINDECOMP(cr)` is false). -/
theorem attempted_gpu_falls_back (E : Extern M B D) (fplog : Bool) (cr : t_commrec D)
    (inputrec : t_inputrec) (nstlist_cmdline : Int) (mtop : M) (box : B)
    (n_dev_compatible : Int) (GMX_EMULATE_GPU : Bool) (nbpu_opt : String) (bRerunMD : Bool)
    (cpuinfo : CpuInfo)
    (hauto : strncmp nbpu_opt.data "auto".data 4 = 0) (hcmd : nstlist_cmdline ≤ 0)
    (hdd : cr.DOMAINDECOMP = false)
    (hnone : (n_dev_compatible ≤ 0 ∧ GMX_EMULATE_GPU = false)
      ∨ E.nbnxn_gpu_acceleration_supported inputrec bRerunMD = false
      ∨ inputrec.cutoff_scheme ≠ E.ecutsVERLET) :
    ∃ run, mdrunner_gpu_decision E fplog cr inputrec nstlist_cmdline mtop box n_dev_compatible
        GMX_EMULATE_GPU nbpu_opt bRerunMD cpuinfo = .ok (false, run) := by
  have hf := not_forced_of_auto nbpu_opt hauto
  have hn : ¬ nstlist_cmdline > 0 := by omega
  obtain ⟨r, hr⟩ := prepare_verlet_scheme_ok_of_cpu E fplog cr inputrec nstlist_cmdline mtop box
    cpuinfo hcmd hdd
  have hr2 : prepare_verlet_scheme_with (increase_nstlist E) E fplog cr inputrec
      nstlist_cmdline mtop box false cpuinfo = .ok r := hr
  simp only [mdrunner_gpu_decision, mdrunner_setup, mdrunner_setup_with, hf]
  split
  · split
    · -- Verlet scheme
      rename_i hv
      by_cases hgo : (decide (n_dev_compatible > 0) || GMX_EMULATE_GPU) = true
      · have hsup : E.nbnxn_gpu_acceleration_supported inputrec bRerunMD = false := by
          rcases hnone with ⟨h1, h2⟩ | h | h
          · exfalso
            simp only [Bool.or_eq_true, decide_eq_true_eq] at hgo
            rcases hgo with h | h
            · omega
            · rw [h2] at h; cases h
          · exact h
          · exact absurd hv h
        simp only [hgo, hsup, Bool.not_false, Bool.and_self, if_true, Bool.false_eq_true,
          if_false, hr2, Except.map]
        exact ⟨_, rfl⟩
      · simp only [Bool.not_eq_true] at hgo
        simp only [hgo, Bool.false_and, Bool.false_eq_true, if_false, hr2, Except.map]
        exact ⟨_, rfl⟩
    · simp only [if_neg hn, Bool.false_eq_true, if_false]
      exact ⟨_, rfl⟩
  · exact ⟨_, rfl⟩

/-- Witness for C14: option "auto", no device, no emulation. -/
theorem attempted_gpu_falls_back_witness :
    strncmp "auto".data "auto".data 4 = 0
    ∧ ∃ run, mdrunner_gpu_decision (exampleExtern (exampleRadius 1 1 1) 4 1) true
        (exampleCr false) exampleIr 0 () () 0 false "auto" false ⟨false⟩ = .ok (false, run) :=
  ⟨by decide,
   attempted_gpu_falls_back (exampleExtern (exampleRadius 1 1 1) 4 1) true (exampleCr false)
     exampleIr 0 () () 0 false "auto" false ⟨false⟩ (by decide) (by decide) rfl
     (Or.inl ⟨by decide, rfl⟩)⟩

theorem example_spawn_block :
    mdrunner_spawn_block exampleThreads exampleArgs exampleIr false false = .ok exampleSpawned := by
  simp [mdrunner_spawn_block, spawn_hw_opt, start_threads_call, mdrunner_start_threads,
    exampleThreads, exampleArgs, exampleCr, exampleSpawned, exampleMda]

theorem start_threads_call_mda (X : Threads D) (hw_opt : gmx_hw_opt_t)
    (a m : mdrunner_arglist D) (h : (start_threads_call X hw_opt a).mda = some m) :
    ¬ hw_opt.nthreads_tmpi < 2
    ∧ m = { a with hw_opt := hw_opt, fnm := X.dup_tfn a.nfile a.fnm, imdport := 0 } := by
  simp only [start_threads_call, mdrunner_start_threads] at h
  split at h
  · cases h
  · rename_i hn
    refine ⟨hn, ?_⟩
    split at h <;>
    · simp only [Option.some.injEq] at h
      rw [← h]

theorem spawn_block_mda (X : Threads D) (a : mdrunner_arglist D) (inputrec : t_inputrec)
    (bUseGPU doMembed : Bool) (s : Spawned D) (m : mdrunner_arglist D)
    (hblock : mdrunner_spawn_block X a inputrec bUseGPU doMembed = .ok s)
    (hm : s.mda = some m) :
    s.hw_opt = spawn_hw_opt X a inputrec bUseGPU doMembed
    ∧ (start_threads_call X (spawn_hw_opt X a inputrec bUseGPU doMembed) a).mda = some m := by
  simp only [mdrunner_spawn_block] at hblock
  split at hblock
  · split at hblock
    · cases hblock
    · split at hblock
      · split at hblock
        · cases hblock
        · simp only [Except.ok.injEq] at hblock
          subst hblock
          exact ⟨rfl, hm⟩
      · simp only [Except.ok.injEq] at hblock
        subst hblock
        cases hm
  · simp only [Except.ok.injEq] at hblock
    subst hblock
    cases hm

/-- Counterexample to C15 as stated: the coordinating rank is called with a log
file, `nthreads_tmpi == 0` and IMD port 8888; the spawned rank 1 re-enters
`mdrunner` with no log file, `nthreads_tmpi == 4` and IMD port 0. -/
theorem spawned_arguments_differ :
    (mdrunner_spawn_block exampleThreads exampleArgs exampleIr false false).map
        (fun s => s.mda.map (fun m =>
          ((mdrunner_start_fn exampleThreads 1 m).fplog,
           (mdrunner_start_fn exampleThreads 1 m).hw_opt.nthreads_tmpi,
           (mdrunner_start_fn exampleThreads 1 m).imdport)))
      = .ok (some (none, 4, 0))
    ∧ exampleArgs.fplog = some 1 ∧ exampleArgs.hw_opt.nthreads_tmpi = 0
    ∧ exampleArgs.imdport = 8888 := by
  refine ⟨?_, rfl, rfl, rfl⟩
  simp [mdrunner_spawn_block, spawn_hw_opt, start_threads_call, mdrunner_start_threads,
    mdrunner_start_fn, exampleThreads, exampleArgs, exampleCr, Except.map]

/-- C15, amended: when the spawning block of `mdrunner` spawns threads with the
argument list `m`, every spawned thread calls `mdrunner` with the values that
the coordinating rank holds at the time of spawning for every parameter of
`mdrunner_start_threads` other than `cr`, `fnm` and `fplog`: `hw_opt` is the
coordinating rank's hardware options as updated before the spawn, all other
values are those passed to `mdrunner_start_threads`; `fplog` is passed on
only to a thread that is `MASTER`, and `cr` is reinitialised for the thread.
(`imdport` is no parameter of `mdrunner_start_threads`.) -/
theorem spawned_arguments_duplicated (X : Threads D) (a : mdrunner_arglist D)
    (inputrec : t_inputrec) (bUseGPU doMembed : Bool) (s : Spawned D)
    (m : mdrunner_arglist D) (thread : Nat)
    (hblock : mdrunner_spawn_block X a inputrec bUseGPU doMembed = .ok s)
    (hm : s.mda = some m) :
    (mdrunner_start_fn X thread m).hw_opt = s.hw_opt
    ∧ (mdrunner_start_fn X thread m).fplog
        = (if (mdrunner_start_fn X thread m).cr.MASTER then a.fplog else none)
    ∧ (mdrunner_start_fn X thread m).cr = X.reinitialize_commrec_for_this_thread thread a.cr
    ∧ (mdrunner_start_fn X thread m).nfile = a.nfile
    ∧ (mdrunner_start_fn X thread m).oenv = a.oenv
    ∧ (mdrunner_start_fn X thread m).bVerbose = a.bVerbose
    ∧ (mdrunner_start_fn X thread m).nstglobalcomm = a.nstglobalcomm
    ∧ (mdrunner_start_fn X thread m).ddxyz = a.ddxyz
    ∧ (mdrunner_start_fn X thread m).dd_rank_order = a.dd_rank_order
    ∧ (mdrunner_start_fn X thread m).npme = a.npme
    ∧ (mdrunner_start_fn X thread m).rdd = a.rdd
    ∧ (mdrunner_start_fn X thread m).rconstr = a.rconstr
    ∧ (mdrunner_start_fn X thread m).dddlb_opt = a.dddlb_opt
    ∧ (mdrunner_start_fn X thread m).dlb_scale = a.dlb_scale
    ∧ (mdrunner_start_fn X thread m).ddcsx = a.ddcsx
    ∧ (mdrunner_start_fn X thread m).ddcsy = a.ddcsy
    ∧ (mdrunner_start_fn X thread m).ddcsz = a.ddcsz
    ∧ (mdrunner_start_fn X thread m).nbpu_opt = a.nbpu_opt
    ∧ (mdrunner_start_fn X thread m).nstlist_cmdline = a.nstlist_cmdline
    ∧ (mdrunner_start_fn X thread m).nsteps_cmdline = a.nsteps_cmdline
    ∧ (mdrunner_start_fn X thread m).nstepout = a.nstepout
    ∧ (mdrunner_start_fn X thread m).resetstep = a.resetstep
    ∧ (mdrunner_start_fn X thread m).nmultisim = a.nmultisim
    ∧ (mdrunner_start_fn X thread m).repl_ex_nst = a.repl_ex_nst
    ∧ (mdrunner_start_fn X thread m).repl_ex_nex = a.repl_ex_nex
    ∧ (mdrunner_start_fn X thread m).repl_ex_seed = a.repl_ex_seed
    ∧ (mdrunner_start_fn X thread m).pforce = a.pforce
    ∧ (mdrunner_start_fn X thread m).cpt_period = a.cpt_period
    ∧ (mdrunner_start_fn X thread m).max_hours = a.max_hours
    ∧ (mdrunner_start_fn X thread m).Flags = a.Flags := by
  obtain ⟨hs, hcall⟩ := spawn_block_mda X a inputrec bUseGPU doMembed s m hblock hm
  obtain ⟨_, rfl⟩ := start_threads_call_mda X _ a m hcall
  rw [hs]
  unfold mdrunner_start_fn
  exact ⟨rfl, rfl, rfl, rfl, rfl, rfl, rfl, rfl, rfl, rfl, rfl, rfl, rfl, rfl, rfl, rfl, rfl, rfl,
    rfl, rfl, rfl, rfl, rfl, rfl, rfl, rfl, rfl, rfl, rfl, rfl⟩

/-- Witness for C15 amended on the example, for the spawned thread 2. -/
theorem spawned_arguments_duplicated_witness :
    (mdrunner_start_fn exampleThreads 2 exampleMda).hw_opt = exampleSpawned.hw_opt
    ∧ (mdrunner_start_fn exampleThreads 2 exampleMda).nstlist_cmdline
        = exampleArgs.nstlist_cmdline
    ∧ (mdrunner_start_fn exampleThreads 2 exampleMda).Flags = exampleArgs.Flags := by
  have h := spawned_arguments_duplicated exampleThreads exampleArgs exampleIr false false
    exampleSpawned exampleMda 2 example_spawn_block rfl
  exact ⟨h.1, h.2.2.2.2.2.2.2.2.2.2.2.2.2.2.2.2.2.2.1,
    h.2.2.2.2.2.2.2.2.2.2.2.2.2.2.2.2.2.2.2.2.2.2.2.2.2.2.2.2.2⟩

/-- Counterexample to C16 as stated: in the example the argument list handed to
the spawned ranks and the options the spawned rank 1 passes to `mdrunner` have
`nthreads_tmpi == 4`, not 1. -/
theorem spawned_rank_sees_requested_count :
    (mdrunner_spawn_block exampleThreads exampleArgs exampleIr false false).map
        (fun s => s.mda.map (fun m =>
          (m.hw_opt.nthreads_tmpi, (mdrunner_start_fn exampleThreads 1 m).hw_opt.nthreads_tmpi)))
      = .ok (some (4, 4)) := by
  rw [example_spawn_block]
  rfl

/-- C16, amended: a spawned rank re-enters `mdrunner` with the coordinating
rank's `nthreads_tmpi`, which is at least 2; if it is not the master of the
simulation (`SIMMASTER(cr)` is false for its reinitialised communication
record), the spawning block returns for it without spawning, whatever the
other inputs are: the block is guarded by `SIMMASTER(cr)`. -/
theorem spawned_rank_does_not_respawn (X : Threads D) (a : mdrunner_arglist D)
    (inputrec : t_inputrec) (bUseGPU doMembed : Bool) (s : Spawned D)
    (m : mdrunner_arglist D) (thread : Nat)
    (hblock : mdrunner_spawn_block X a inputrec bUseGPU doMembed = .ok s)
    (hm : s.mda = some m)
    (hrank : (X.reinitialize_commrec_for_this_thread thread a.cr).SIMMASTER = false) :
    m.hw_opt.nthreads_tmpi = s.hw_opt.nthreads_tmpi
    ∧ (mdrunner_start_fn X thread m).hw_opt.nthreads_tmpi = s.hw_opt.nthreads_tmpi
    ∧ 2 ≤ s.hw_opt.nthreads_tmpi
    ∧ ∀ (inputrec1 : t_inputrec) (bUseGPU1 doMembed1 : Bool),
        mdrunner_spawn_block X (mdrunner_start_fn X thread m) inputrec1 bUseGPU1 doMembed1
          = .ok { cr := (mdrunner_start_fn X thread m).cr,
                  hw_opt := (mdrunner_start_fn X thread m).hw_opt, mda := none } := by
  obtain ⟨hs, hcall⟩ := spawn_block_mda X a inputrec bUseGPU doMembed s m hblock hm
  obtain ⟨hn, rfl⟩ := start_threads_call_mda X _ a m hcall
  rw [hs]
  refine ⟨rfl, rfl, by omega, ?_⟩
  intro inputrec1 bUseGPU1 doMembed1
  have hc : (mdrunner_start_fn X thread
      { a with hw_opt := spawn_hw_opt X a inputrec bUseGPU doMembed,
               fnm := X.dup_tfn a.nfile a.fnm, imdport := 0 }).cr.SIMMASTER = false := hrank
  simp only [mdrunner_spawn_block, hc, Bool.false_eq_true, if_false]

/-- Witness for C16 amended: the spawned rank 1 of the example. -/
theorem spawned_rank_does_not_respawn_witness :
    (mdrunner_start_fn exampleThreads 1 exampleMda).hw_opt.nthreads_tmpi = 4
    ∧ mdrunner_spawn_block exampleThreads (mdrunner_start_fn exampleThreads 1 exampleMda)
        exampleIr false false
      = .ok { cr := (mdrunner_start_fn exampleThreads 1 exampleMda).cr,
              hw_opt := (mdrunner_start_fn exampleThreads 1 exampleMda).hw_opt, mda := none } := by
  have h := spawned_rank_does_not_respawn exampleThreads exampleArgs exampleIr false false
    exampleSpawned exampleMda 1 example_spawn_block rfl
    (by simp [exampleThreads])
  exact ⟨h.2.1, h.2.2.2 exampleIr false false⟩

/-- C17: `mdrunner_start_threads` returns the commrec of the caller, without
calling `tMPI_Init_fn`, when `hw_opt->nthreads_tmpi < 2`; otherwise it calls
`tMPI_Init_fn` and returns the null pointer if and only if the value returned
is not `TMPI_SUCCESS`; and when the call in `mdrunner` returns the null
pointer, the spawning block is aborted by the fatal error "Failed to spawn
threads". -/
theorem spawn_failure_is_fatal (X : Threads D) (hw_opt : gmx_hw_opt_t) (a : mdrunner_arglist D)
    (inputrec : t_inputrec) (bUseGPU doMembed : Bool) :
    (hw_opt.nthreads_tmpi < 2 →
      start_threads_call X hw_opt a = { cr := some a.cr, mda := none })
    ∧ (¬ hw_opt.nthreads_tmpi < 2 →
      ∃ m, (start_threads_call X hw_opt a).mda = some m
        ∧ ((start_threads_call X hw_opt a).cr = none
            ↔ X.tMPI_Init_fn hw_opt.nthreads_tmpi m ≠ X.TMPI_SUCCESS))
    ∧ (a.cr.SIMMASTER = true → ¬ (a.npme > 0 ∧ a.hw_opt.nthreads_tmpi ≤ 0) →
      (spawn_hw_opt X a inputrec bUseGPU doMembed).nthreads_tmpi > 1 →
      (start_threads_call X (spawn_hw_opt X a inputrec bUseGPU doMembed) a).cr = none →
      mdrunner_spawn_block X a inputrec bUseGPU doMembed
        = .error (.gmx_comm "Failed to spawn threads")) := by
  refine ⟨?_, ?_, ?_⟩
  · intro h
    simp only [start_threads_call, mdrunner_start_threads, if_pos h]
  · intro h
    simp only [start_threads_call, mdrunner_start_threads, if_neg h]
    split
    · rename_i hret
      exact ⟨_, rfl, by simp only [true_iff]; exact hret⟩
    · rename_i hret
      refine ⟨_, rfl, ?_⟩
      simp only [false_iff, reduceCtorEq]
      exact hret
  · intro hm hp hn hnull
    simp only [mdrunner_spawn_block, hm, if_true, if_neg hp, if_pos hn, hnull]

/-- Witness for C17: `tMPI_Init_fn` returns 1 while `TMPI_SUCCESS` is 0. -/
theorem spawn_failure_is_fatal_witness :
    mdrunner_spawn_block { exampleThreads with tMPI_Init_fn := fun _ _ => 1 } exampleArgs
        exampleIr false false
      = .error (.gmx_comm "Failed to spawn threads") := by
  refine (spawn_failure_is_fatal { exampleThreads with tMPI_Init_fn := fun _ _ => 1 }
    { nthreads_tmpi := 4, others := [] } exampleArgs exampleIr false false).2.2 rfl
    (by simp [exampleArgs]) (by simp [spawn_hw_opt, exampleThreads, exampleArgs]) ?_
  simp [start_threads_call, mdrunner_start_threads, spawn_hw_opt, exampleThreads, exampleArgs]

/-- C18: if neither the electrostatics nor the Lennard-Jones type uses PME, a
request `npme > 0` is a collective fatal error and otherwise `npme` is set to
0; so whenever the check returns a value of `npme` other than 0, PME is used
for electrostatics or Lennard-Jones. -/
theorem pme_ranks_only_with_pme (EEL_PME EVDW_PME : Int → Bool) (inputrec : t_inputrec)
    (npme : Int) :
    ((EEL_PME inputrec.coulombtype = false ∧ EVDW_PME inputrec.vdwtype = false) →
      (npme > 0 → mdrunner_pme_check EEL_PME EVDW_PME inputrec npme
          = .error (.gmx_fatal_collective
              "PME-only ranks are requested, but the system does not use PME for electrostatics or LJ"))
      ∧ (¬ npme > 0 → mdrunner_pme_check EEL_PME EVDW_PME inputrec npme = .ok 0))
    ∧ (∀ npme1, mdrunner_pme_check EEL_PME EVDW_PME inputrec npme = .ok npme1 → npme1 ≠ 0 →
        EEL_PME inputrec.coulombtype = true ∨ EVDW_PME inputrec.vdwtype = true) := by
  constructor
  · rintro ⟨h1, h2⟩
    constructor
    · intro hn
      simp [mdrunner_pme_check, h1, h2, hn]
    · intro hn
      simp [mdrunner_pme_check, h1, h2, hn]
  · intro npme1 h hne
    by_contra hc
    simp only [not_or, Bool.not_eq_true] at hc
    simp only [mdrunner_pme_check, hc.1, hc.2, Bool.or_self, Bool.not_false, if_true] at h
    split at h
    · cases h
    · simp only [Except.ok.injEq] at h
      exact hne h.symm

/-- Witness for C18: no PME, with `npme` 1 and with `npme` -1. -/
theorem pme_ranks_only_with_pme_witness :
    mdrunner_pme_check (fun c => decide (c = 1)) (fun v => decide (v = 1))
        { exampleIr with coulombtype := 0, vdwtype := 0 } 1
      = .error (.gmx_fatal_collective
          "PME-only ranks are requested, but the system does not use PME for electrostatics or LJ")
    ∧ mdrunner_pme_check (fun c => decide (c = 1)) (fun v => decide (v = 1))
        { exampleIr with coulombtype := 0, vdwtype := 0 } (-1) = .ok 0 := by
  have h := (pme_ranks_only_with_pme (fun c => decide (c = 1)) (fun v => decide (v = 1))
    { exampleIr with coulombtype := 0, vdwtype := 0 } 1).1 ⟨by decide, by decide⟩
  have h2 := (pme_ranks_only_with_pme (fun c => decide (c = 1)) (fun v => decide (v = 1))
    { exampleIr with coulombtype := 0, vdwtype := 0 } (-1)).1 ⟨by decide, by decide⟩
  exact ⟨h.1 (by decide), h2.2 (by decide)⟩

/-- C19: for insertion runs (`EI_TPI`), normal-mode runs (`eiNM`) and runs that
are not parallel, lines 1063-1089 do not call `init_domain_decomposition`
(the result is the same for every function in its place and for every `-dd`
and `-npme`): the rank gets the combined duty `DUTY_PP | DUTY_PME`,
`cr->npmenodes == 0` and `npme_major == npme_minor == 1`, and the
decomposition state is unchanged; the only other outcome is the fatal error
for `pbc=screw`, raised after these assignments. -/
theorem combined_duty_without_decomposition (U : Duties)
    (init_domain_decomposition :
      t_commrec D → Int × Int × Int → Int → Except Err (Decomposed D))
    (cr : t_commrec D) (inputrec : t_inputrec) (ddxyz : Int × Int × Int) (npme : Int)
    (h : U.EI_TPI inputrec.eI = true ∨ inputrec.eI = U.eiNM ∨ cr.PAR = false) :
    mdrunner_duty_block U init_domain_decomposition cr inputrec ddxyz npme
      = (if inputrec.ePBC = U.epbcSCREW then
          .error (.gmx_fatal "pbc=screw is only implemented with domain decomposition")
         else .ok { cr := { cr with npmenodes := 0, duty := U.DUTY_PP ||| U.DUTY_PME },
                    npme_major := 1, npme_minor := 1 })
    ∧ EndsWith (mdrunner_duty_block U init_domain_decomposition cr inputrec ddxyz npme)
        (fun r => r.cr.dd = cr.dd ∧ r.cr.DOMAINDECOMP = cr.DOMAINDECOMP
          ∧ r.cr.duty = U.DUTY_PP ||| U.DUTY_PME ∧ r.cr.npmenodes = 0
          ∧ r.npme_major = 1 ∧ r.npme_minor = 1) := by
  have hc : ¬ (cr.PAR && !(U.EI_TPI inputrec.eI || decide (inputrec.eI = U.eiNM))) = true := by
    rcases h with h | h | h
    · simp [h]
    · simp [h]
    · simp [h]
  have heq : mdrunner_duty_block U init_domain_decomposition cr inputrec ddxyz npme
      = (if inputrec.ePBC = U.epbcSCREW then
          .error (.gmx_fatal "pbc=screw is only implemented with domain decomposition")
         else .ok { cr := { cr with npmenodes := 0, duty := U.DUTY_PP ||| U.DUTY_PME },
                    npme_major := 1, npme_minor := 1 }) := by
    simp only [mdrunner_duty_block, if_neg hc]
  refine ⟨heq, ?_⟩
  rw [heq]
  split
  · trivial
  · exact ⟨rfl, rfl, rfl, rfl, rfl, rfl⟩

/-- Witness for C19: a parallel insertion run (`eiTPI`) with `-dd 2 2 1 -npme 1`
and a decomposition function that would abort if it were called. -/
theorem combined_duty_without_decomposition_witness :
    mdrunner_duty_block exampleDuties (fun _ _ _ => .error .out_of_fuel)
        { exampleCr false with PAR := true } { exampleIr with eI := 7 } (2, 2, 1) 1
      = .ok { cr := { exampleCr false with PAR := true, npmenodes := 0, duty := 3 },
              npme_major := 1, npme_minor := 1 } := by
  have h := (combined_duty_without_decomposition exampleDuties (fun _ _ _ => .error .out_of_fuel)
    { exampleCr false with PAR := true } { exampleIr with eI := 7 } (2, 2, 1) 1
    (Or.inl (by decide))).1
  rw [h]
  rfl

/-- C24: the pair `(listfac_ok, listfac_max)` is (1.20, 1.30) with a GPU,
otherwise (1.22, 1.3) for a CPU with AVX-512ER and (1.05, 1.09) for any other
CPU; in each class `1 < listfac_ok < listfac_max`; so for a cube root that is
monotone and maps 1 to 1, and a reference radius with
`rlistWithReferenceNstlist + rlist_inc >= 0`, the bounds of lines 460-461
satisfy `rlistWithReferenceNstlist <= rlist_ok <= rlist_max`. -/
theorem listfac_by_hardware_class (E : Extern M B D) (mtop : M) (box : B)
    (ls : verletbuf_list_setup_t) (bGPU : Bool) (cpuinfo : CpuInfo)
    (rlistWithReferenceNstlist : ℚ)
    (hmono : ∀ x y : ℚ, x ≤ y → E.cbrt x ≤ E.cbrt y) (hone : E.cbrt 1 = 1)
    (hinc : 0 ≤ rlistWithReferenceNstlist
      + E.nbnxn_get_rlist_effective_inc ls.cluster_size_j ((E.natoms mtop : ℚ) / E.det box)) :
    listfac bGPU cpuinfo
        = (if bGPU then (120 / 100, 130 / 100)
           else if cpuinfo.X86_Avx512ER then (122 / 100, 13 / 10) else (105 / 100, 109 / 100))
    ∧ 1 < (listfac bGPU cpuinfo).1
    ∧ (listfac bGPU cpuinfo).1 < (listfac bGPU cpuinfo).2
    ∧ rlistWithReferenceNstlist
        ≤ (rlist_bounds E mtop box ls (listfac bGPU cpuinfo).1 (listfac bGPU cpuinfo).2
            rlistWithReferenceNstlist).1
    ∧ (rlist_bounds E mtop box ls (listfac bGPU cpuinfo).1 (listfac bGPU cpuinfo).2
            rlistWithReferenceNstlist).1
        ≤ (rlist_bounds E mtop box ls (listfac bGPU cpuinfo).1 (listfac bGPU cpuinfo).2
            rlistWithReferenceNstlist).2 := by
  have h1 : 1 < (listfac bGPU cpuinfo).1 := by
    unfold listfac
    split
    · norm_num [nbnxn_gpu_listfac_ok]
    · split
      · norm_num [nbnxn_knl_listfac_ok]
      · norm_num [nbnxn_cpu_listfac_ok]
  have h2 : (listfac bGPU cpuinfo).1 < (listfac bGPU cpuinfo).2 := by
    unfold listfac
    split
    · norm_num [nbnxn_gpu_listfac_ok, nbnxn_gpu_listfac_max]
    · split
      · norm_num [nbnxn_knl_listfac_ok, nbnxn_knl_listfac_max]
      · norm_num [nbnxn_cpu_listfac_ok, nbnxn_cpu_listfac_max]
  have c1 : 1 ≤ E.cbrt (listfac bGPU cpuinfo).1 := by
    have := hmono 1 _ (le_of_lt h1)
    rwa [hone] at this
  have c2 : E.cbrt (listfac bGPU cpuinfo).1 ≤ E.cbrt (listfac bGPU cpuinfo).2 :=
    hmono _ _ (le_of_lt h2)
  refine ⟨?_, h1, h2, ?_, ?_⟩
  · unfold listfac
    split
    · norm_num [nbnxn_gpu_listfac_ok, nbnxn_gpu_listfac_max]
    · split
      · norm_num [nbnxn_knl_listfac_ok, nbnxn_knl_listfac_max]
      · norm_num [nbnxn_cpu_listfac_ok, nbnxn_cpu_listfac_max]
  · simp only [rlist_bounds]
    nlinarith [mul_nonneg hinc (sub_nonneg.mpr c1)]
  · simp only [rlist_bounds]
    nlinarith [mul_le_mul_of_nonneg_left c2 hinc]

/-- Witness for C24: a CPU with AVX-512ER, reference radius 1, increment 0 and
the identity in place of the cube root. -/
theorem listfac_by_hardware_class_witness :
    listfac false ⟨true⟩ = (122 / 100, 13 / 10)
    ∧ (1 : ℚ) ≤ (rlist_bounds (exampleExtern (exampleRadius 1 1 1) 4 1) () () ⟨4, 4⟩
          (listfac false ⟨true⟩).1 (listfac false ⟨true⟩).2 1).1
    ∧ (rlist_bounds (exampleExtern (exampleRadius 1 1 1) 4 1) () () ⟨4, 4⟩
          (listfac false ⟨true⟩).1 (listfac false ⟨true⟩).2 1).1
        ≤ (rlist_bounds (exampleExtern (exampleRadius 1 1 1) 4 1) () () ⟨4, 4⟩
          (listfac false ⟨true⟩).1 (listfac false ⟨true⟩).2 1).2 := by
  have h := listfac_by_hardware_class (exampleExtern (exampleRadius 1 1 1) 4 1) () () ⟨4, 4⟩
    false ⟨true⟩ 1 (fun x y hxy => hxy) rfl (by norm_num [exampleExtern])
  exact ⟨h.1, h.2.2.2.1, h.2.2.2.2⟩

/-- C25: for an integrator of the MD family without temperature coupling
(`EI_MD(ir->eI)` and `ir->etc == etcNO`), `prepare_verlet_scheme` returns with
`*ir` and the decomposition unchanged whenever no interval is pinned, and also
when an interval is pinned for a dynamical integrator with a positive
tolerance; the only other outcome is the fatal error of lines 591-595. -/
theorem nve_buffer_retained (E : Extern M B D) (fplog : Bool) (cr : t_commrec D)
    (ir : t_inputrec) (nstlist_cmdline : Int) (mtop : M) (box : B) (bUseGPU : Bool)
    (cpuinfo : CpuInfo) (hmd : E.EI_MD ir.eI = true) (hetc : ir.etc = E.etcNO) :
    ((nstlist_cmdline > 0 → E.EI_DYNAMICS ir.eI = true ∧ ir.verletbuf_tol > 0) →
      ∃ out, prepare_verlet_scheme E fplog cr ir nstlist_cmdline mtop box bUseGPU cpuinfo
        = .ok { ir := ir, dd := cr.dd, out := out })
    ∧ EndsWith (prepare_verlet_scheme E fplog cr ir nstlist_cmdline mtop box bUseGPU cpuinfo)
        (fun r => r.ir = ir ∧ r.dd = cr.dd) := by
  have hupd : update_rlist E fplog ir mtop box bUseGPU = (ir, []) := by
    simp [update_rlist, hmd, hetc]
  have hnve : (E.EI_MD ir.eI && decide (ir.etc = E.etcNO)) = true := by simp [hmd, hetc]
  have hinc : ∃ out, increase_nstlist E fplog cr ir nstlist_cmdline mtop box bUseGPU cpuinfo
      = .ok { ir := ir, dd := cr.dd, out := out } := by
    by_cases hcmd : nstlist_cmdline ≤ 0
    · by_cases hone : ir.nstlist = 1
      · exact ⟨[], by simp [increase_nstlist, entry_block, hcmd, hone]⟩
      · rw [increase_nstlist, entry_block_auto fplog ir nstlist_cmdline bUseGPU hcmd hone]
        by_cases hs : start_index ir.nstlist = NNSTL
        · simp only [if_pos hs]
          exact ⟨_, rfl⟩
        · simp only [if_neg hs, hnve, if_true]
          exact ⟨_, rfl⟩
    · simp only [increase_nstlist, entry_block, hcmd, if_false, hnve, if_true]
      exact ⟨_, rfl⟩
  obtain ⟨out, hout⟩ := hinc
  have key : ¬ (nstlist_cmdline > 0 ∧ (E.EI_DYNAMICS ir.eI = false ∨ ir.verletbuf_tol ≤ 0)) →
      ∃ out, prepare_verlet_scheme E fplog cr ir nstlist_cmdline mtop box bUseGPU cpuinfo
        = .ok { ir := ir, dd := cr.dd, out := out } := by
    intro hf
    simp only [prepare_verlet_scheme, prepare_verlet_scheme_with, hupd, if_neg hf]
    split
    · rw [hout]
      exact ⟨_, rfl⟩
    · exact ⟨_, rfl⟩
  constructor
  · intro hpin
    apply key
    rintro ⟨hc, h⟩
    obtain ⟨hd, ht⟩ := hpin hc
    rcases h with h | h
    · rw [hd] at h; cases h
    · exact absurd ht (not_lt.mpr h)
  · by_cases hf : nstlist_cmdline > 0 ∧ (E.EI_DYNAMICS ir.eI = false ∨ ir.verletbuf_tol ≤ 0)
    · simp only [prepare_verlet_scheme, prepare_verlet_scheme_with, hupd, if_pos hf]
      trivial
    · obtain ⟨o, ho⟩ := key hf
      rw [ho]
      exact ⟨rfl, rfl⟩

/-- Witness for C25: `eiMD` without temperature coupling and the pinned interval
25, which is not applied. -/
theorem nve_buffer_retained_witness :
    ∃ out, prepare_verlet_scheme (exampleExtern (exampleRadius 1 (3 / 2) 1) 4 1) true
        (exampleCr false) { exampleIr with eI := 0, etc := 0 } 25 () () false ⟨false⟩
      = .ok { ir := { exampleIr with eI := 0, etc := 0 }, dd := 0, out := out } :=
  (nve_buffer_retained (exampleExtern (exampleRadius 1 (3 / 2) 1) 4 1) true
    (exampleCr false) { exampleIr with eI := 0, etc := 0 } 25 () () false ⟨false⟩
    (by simp [exampleExtern, exampleIr]) rfl).1
    (fun _ => ⟨by simp [exampleExtern, exampleIr], by norm_num [exampleIr]⟩)

theorem tune_body_ind (E : Extern M B D) (cr : t_commrec D) (cmd : Int) (mtop : M) (box : B)
    (ls : verletbuf_list_setup_t) (rlist_ok rlist_max : ℚ) (s s1 : Tune D)
    (h : tune_body E cr cmd mtop box ls rlist_ok rlist_max s = .ok s1) :
    s1.nstlist_ind = s.nstlist_ind + 1 := by
  simp only [tune_body] at h
  split at h
  · cases h
  · split at h
    · cases h
    · simp only [Except.ok.injEq] at h
      subst h
      simp only [decide_candidate]
      split
      · split <;> rfl
      · rfl

theorem tune_body_error (E : Extern M B D) (cr : t_commrec D) (cmd : Int) (mtop : M) (box : B)
    (ls : verletbuf_list_setup_t) (rlist_ok rlist_max : ℚ) (s : Tune D) (e : Err)
    (h : tune_body E cr cmd mtop box ls rlist_ok rlist_max s = .error e)
    (hi : cmd ≤ 0 → s.nstlist_ind < NNSTL) :
    ∃ msg, e = .gmx_incons msg := by
  simp only [tune_body] at h
  split at h
  · rename_i e1 he
    split at he
    · rename_i hc
      have hlt : s.nstlist_ind < nstlist_try.length := hi hc
      simp [nstlist_try_at, List.getElem?_eq_getElem hlt, Except.map] at he
    · cases he
  · rename_i ir1 _
    split at h
    · rename_i e2 hdd
      simp only [Except.error.injEq] at h
      subst h
      exact dd_check_error _ _ _ _ _ _ _ _ hdd
    · cases h

theorem tune_loop_ind (E : Extern M B D) (cr : t_commrec D) (cmd : Int) (mtop : M) (box : B)
    (ls : verletbuf_list_setup_t) (rlist_ok rlist_max : ℚ) :
    ∀ (fuel : Nat) (s s1 : Tune D),
      tune_loop E cr cmd mtop box ls rlist_ok rlist_max fuel s = .ok s1 →
      s.nstlist_ind < s1.nstlist_ind ∧ s1.nstlist_ind ≤ s.nstlist_ind + fuel := by
  intro fuel
  induction fuel with
  | zero => intro s s1 h; simp [tune_loop] at h
  | succ fuel ih =>
    intro s s1 h
    rw [tune_loop] at h
    cases hb : tune_body E cr cmd mtop box ls rlist_ok rlist_max s with
    | error e => rw [hb] at h; cases h
    | ok s2 =>
      rw [hb] at h
      have h2 := tune_body_ind E cr cmd mtop box ls rlist_ok rlist_max s s2 hb
      simp only at h
      split at h
      · have := ih s2 s1 h
        omega
      · simp only [Except.ok.injEq] at h
        subst h
        omega

theorem tune_loop_auto_error (E : Extern M B D) (cr : t_commrec D) (cmd : Int) (mtop : M)
    (box : B) (ls : verletbuf_list_setup_t) (rlist_ok rlist_max : ℚ) (hcmd : cmd ≤ 0)
    (s : Tune D) (hi : s.nstlist_ind < NNSTL) (e : Err)
    (h : tune_loop E cr cmd mtop box ls rlist_ok rlist_max (NNSTL - s.nstlist_ind) s
      = .error e) :
    ∃ msg, e = .gmx_incons msg := by
  have key := tune_loop_eq_walk E cr cmd mtop box ls rlist_ok rlist_max s.ir hcmd
    (NNSTL - s.nstlist_ind) s hi (by omega) (fun v => rfl)
  rw [h] at key
  cases hw : walk E cr mtop box ls rlist_ok rlist_max s.ir (nstlist_try.drop s.nstlist_ind)
      s.nstlist_prev s.rlist_prev s.dd with
  | error e2 =>
    rw [hw] at key
    simp only [Except.map, Except.error.injEq] at key
    subst key
    exact walk_error _ _ _ _ _ _ _ _ _ _ _ _ _ hw
  | ok p => rw [hw] at key; simp [Except.map] at key

/-- C26: `increase_nstlist` never reads `nstlist_try` at an index that is not
below `NNSTL` = 3 and never uses up the iteration bound; the scan of lines
375-378 ends after at most `NNSTL + 1` tests with an index of at most `NNSTL`;
in automatic mode the loop of lines 470-524, entered with `nstlist_ind` below
`NNSTL`, ends within `NNSTL - nstlist_ind` passes, each of which increases
`nstlist_ind` by one; with a pinned interval the loop makes exactly one pass. -/
theorem tuner_search_is_safe (E : Extern M B D) (fp : Bool) (cr : t_commrec D)
    (ir : t_inputrec) (nstlist_cmdline : Int) (mtop : M) (box : B) (bGPU : Bool)
    (cpuinfo : CpuInfo) :
    increase_nstlist E fp cr ir nstlist_cmdline mtop box bGPU cpuinfo
        ≠ .error .index_out_of_range
    ∧ increase_nstlist E fp cr ir nstlist_cmdline mtop box bGPU cpuinfo ≠ .error .out_of_fuel
    ∧ scan_nstlist_ind ir.nstlist (NNSTL + 1) 0 = .ok (start_index ir.nstlist)
    ∧ start_index ir.nstlist ≤ NNSTL
    ∧ NNSTL = 3
    ∧ (nstlist_cmdline ≤ 0 →
        ∀ (ls : verletbuf_list_setup_t) (rlist_ok rlist_max : ℚ) (s : Tune D),
          s.nstlist_ind < NNSTL →
          tune_loop E cr nstlist_cmdline mtop box ls rlist_ok rlist_max
              (NNSTL - s.nstlist_ind) s ≠ .error .out_of_fuel
          ∧ tune_loop E cr nstlist_cmdline mtop box ls rlist_ok rlist_max
              (NNSTL - s.nstlist_ind) s ≠ .error .index_out_of_range
          ∧ ∀ s1, tune_loop E cr nstlist_cmdline mtop box ls rlist_ok rlist_max
              (NNSTL - s.nstlist_ind) s = .ok s1 →
            s.nstlist_ind < s1.nstlist_ind ∧ s1.nstlist_ind ≤ NNSTL)
    ∧ (0 < nstlist_cmdline →
        ∀ (ls : verletbuf_list_setup_t) (rlist_ok rlist_max : ℚ) (s : Tune D) (fuel : Nat),
          tune_loop E cr nstlist_cmdline mtop box ls rlist_ok rlist_max (fuel + 1) s
            = tune_loop E cr nstlist_cmdline mtop box ls rlist_ok rlist_max 1 s
          ∧ tune_loop E cr nstlist_cmdline mtop box ls rlist_ok rlist_max 1 s
              ≠ .error .out_of_fuel
          ∧ tune_loop E cr nstlist_cmdline mtop box ls rlist_ok rlist_max 1 s
              ≠ .error .index_out_of_range
          ∧ ∀ s1, tune_loop E cr nstlist_cmdline mtop box ls rlist_ok rlist_max 1 s = .ok s1 →
            s1.nstlist_ind = s.nstlist_ind + 1) := by
  have herr : ∀ e, increase_nstlist E fp cr ir nstlist_cmdline mtop box bGPU cpuinfo = .error e →
      e ≠ .index_out_of_range ∧ e ≠ .out_of_fuel := by
    intro e he
    rcases increase_nstlist_error E fp cr ir nstlist_cmdline mtop box bGPU cpuinfo e he with
      h | ⟨msg, h⟩ <;> subst h <;> exact ⟨fun h => Err.noConfusion h, fun h => Err.noConfusion h⟩
  refine ⟨fun h => (herr _ h).1 rfl, fun h => (herr _ h).2 rfl, scan_eq _, ?_, rfl, ?_, ?_⟩
  · rcases start_cases ir.nstlist with ⟨_, e⟩ | ⟨_, _, e⟩ | ⟨_, _, e⟩ | ⟨_, e⟩ <;>
      rw [e] <;> simp [NNSTL, nstlist_try]
  · intro hcmd ls rlist_ok rlist_max s hi
    have herr2 := tune_loop_auto_error E cr nstlist_cmdline mtop box ls rlist_ok rlist_max hcmd s hi
    refine ⟨?_, ?_, ?_⟩
    · intro h
      obtain ⟨msg, hm⟩ := herr2 _ h
      cases hm
    · intro h
      obtain ⟨msg, hm⟩ := herr2 _ h
      cases hm
    · intro s1 h
      have := tune_loop_ind E cr nstlist_cmdline mtop box ls rlist_ok rlist_max _ s s1 h
      omega
  · intro hcmd ls rlist_ok rlist_max s fuel
    have h1 := tune_loop_pinned E cr nstlist_cmdline mtop box ls rlist_ok rlist_max hcmd fuel s
    have h0 := tune_loop_pinned E cr nstlist_cmdline mtop box ls rlist_ok rlist_max hcmd 0 s
    have hn : ¬ nstlist_cmdline ≤ 0 := by omega
    have herr2 : ∀ e, tune_body E cr nstlist_cmdline mtop box ls rlist_ok rlist_max s = .error e →
        ∃ msg, e = .gmx_incons msg := fun e he =>
      tune_body_error E cr nstlist_cmdline mtop box ls rlist_ok rlist_max s e he
        (fun hc => absurd hc hn)
    simp only [Nat.zero_add] at h0
    rw [h1, h0]
    refine ⟨rfl, ?_, ?_, ?_⟩
    · intro h
      obtain ⟨msg, hm⟩ := herr2 _ h
      cases hm
    · intro h
      obtain ⟨msg, hm⟩ := herr2 _ h
      cases hm
    · intro s1 h
      exact tune_body_ind E cr nstlist_cmdline mtop box ls rlist_ok rlist_max s s1 h

/-- Witness for C26: the loop entered with `nstlist_ind` = 0 in the scenario of
the specification. -/
theorem tuner_search_is_safe_witness :
    ∀ s1, tune_loop exampleSmallBox (exampleCr false) 0 () () ⟨4, 4⟩ (105 / 100) (109 / 100)
        (NNSTL - exampleStart.nstlist_ind) exampleStart = .ok s1 →
      exampleStart.nstlist_ind < s1.nstlist_ind ∧ s1.nstlist_ind ≤ NNSTL :=
  ((tuner_search_is_safe exampleSmallBox true (exampleCr false) exampleIr 0 () () false
    ⟨false⟩).2.2.2.2.2.1 (by decide) ⟨4, 4⟩ (105 / 100) (109 / 100) exampleStart
    (by decide)).2.2

/-- The rejection branch of lines 526-534 hands `gmx_warning` the message for
the test that failed and prints the other message to the log file. -/
theorem finish_tuning_rejects (fp : Bool) (cr : t_commrec D) (nstlist_orig : Int)
    (out : List Event) (s : Tune D) (h : (!s.bBox || !s.bDD) = true) :
    (finish_tuning fp cr nstlist_orig out s).out
      = out ++ [Event.warning (.lit (if s.bBox = false then box_err else dd_err))]
          ++ (if fp then [Event.log (.lit (if s.bBox = false then dd_err else box_err))]
              else []) := by
  simp only [finish_tuning, h, if_true]
  cases s.bBox <;> simp

/-- C27, the code at the failing input: the pinned interval 50 is rejected.
When the radius does not fit the box the warning is `box_err` and the log
file gets `dd_err`; when the decomposition rejects the radius the warning is
`dd_err` and the log file gets `box_err`. -/
theorem rejected_pin_logs_other_reason :
    (increase_nstlist (exampleExtern (fun _ => 3) 4 1) true (exampleCr false) exampleIr 50
        () () false ⟨false⟩).map (fun r => (r.ir.nstlist, r.out))
      = .ok (10, [Event.warning (.lit box_err), Event.log (.lit dd_err)])
    ∧ (increase_nstlist (exampleExtern (fun _ => 3 / 2) 4 1) true (exampleCr true) exampleIr 50
        () () false ⟨false⟩).map (fun r => (r.ir.nstlist, r.out))
      = .ok (10, [Event.warning (.lit dd_err), Event.log (.lit box_err)])
    ∧ box_err ≠ dd_err := by
  refine ⟨?_, ?_, by decide⟩
  · norm_num [increase_nstlist, entry_block, search_block, tune_loop, tune_body, dd_check,
      decide_candidate, finish_tuning, rlist_bounds, listfac, exampleExtern, exampleIr,
      exampleCr, square, NNSTL, nstlist_try, nbnxnReferenceNstlist, nbnxn_cpu_listfac_ok,
      nbnxn_cpu_listfac_max, Except.map]
  · norm_num [increase_nstlist, entry_block, search_block, tune_loop, tune_body, dd_check,
      decide_candidate, finish_tuning, rlist_bounds, listfac, exampleExtern, exampleIr,
      exampleCr, square, NNSTL, nstlist_try, nbnxnReferenceNstlist, nbnxn_cpu_listfac_ok,
      nbnxn_cpu_listfac_max, Except.map]

theorem tuned_out (fp : Bool) (cr : t_commrec D) (ir : t_inputrec) (out : List Event)
    (p : Int × ℚ × D) (t : Text) (h : Event.warning t ∈ (tuned fp cr ir out p).out) :
    Event.warning t ∈ out := by
  obtain ⟨n, r, d⟩ := p
  simp only [tuned, finish_tuning, Bool.not_true, Bool.or_self, Bool.false_eq_true,
    if_false] at h
  split at h
  · simp only [List.mem_append] at h
    rcases h with (h | h) | h
    · exact h
    · split at h <;> simp at h
    · split at h <;> simp at h
  · exact h

/-- In automatic mode the rejection branch of lines 526-534 is not reached: no
warning is issued. -/
theorem automatic_mode_never_rejects (E : Extern M B D) (fp : Bool) (cr : t_commrec D)
    (ir : t_inputrec) (cmd : Int) (mtop : M) (box : B) (bGPU : Bool) (cpuinfo : CpuInfo)
    (hcmd : cmd ≤ 0) (r : Run D)
    (h : increase_nstlist E fp cr ir cmd mtop box bGPU cpuinfo = .ok r) (t : Text) :
    Event.warning t ∉ r.out := by
  have hg : Event.warning t ∉ gpu_note fp ir bGPU := by
    unfold gpu_note; split <;> simp
  by_cases hone : ir.nstlist = 1
  · simp only [increase_nstlist, entry_block, hcmd, hone, if_true, Except.ok.injEq] at h
    subst h; simp
  rw [increase_nstlist, entry_block_auto fp ir cmd bGPU hcmd hone] at h
  by_cases hs : start_index ir.nstlist = NNSTL
  · simp only [if_pos hs, Except.ok.injEq] at h
    subst h; exact hg
  have hlt : start_index ir.nstlist < NNSTL := by
    rcases start_cases ir.nstlist with ⟨_, e⟩ | ⟨_, _, e⟩ | ⟨_, _, e⟩ | ⟨_, e⟩ <;>
      rw [e] at hs ⊢ <;> simp [NNSTL, nstlist_try] at hs ⊢
  simp only [if_neg hs] at h
  split at h
  · simp only [Except.ok.injEq] at h
    subst h
    simp only [List.mem_append, not_or]
    refine ⟨⟨hg, ?_⟩, ?_⟩ <;> split <;> simp
  · split at h
    · cases h
    · split at h
      · simp only [Except.ok.injEq] at h
        subst h
        simp only [List.mem_append, not_or]
        refine ⟨⟨hg, ?_⟩, ?_⟩ <;> split <;> simp
      · rw [search_block_auto E fp cr ir cmd mtop box bGPU cpuinfo _ _ hcmd hlt] at h
        cases hw : walk E cr mtop box (E.verletbuf_get_list_setup true bGPU)
          (tuner_bounds E ir mtop box bGPU cpuinfo).1 (tuner_bounds E ir mtop box bGPU cpuinfo).2
          ir (nstlist_try.drop (start_index ir.nstlist)) ir.nstlist ir.rlist cr.dd with
        | error e => rw [hw] at h; cases h
        | ok p =>
          rw [hw] at h
          simp only [Except.map, Except.ok.injEq] at h
          subst h
          exact fun hm => hg (tuned_out fp cr ir _ p t hm)

end Runner

namespace Gmxfio

theorem encode_loop_full (maxlen : Int) :
    ∀ (s : List Char) (i : Nat), (∀ c ∈ s, c ≠ '\x00') → (i : Int) + s.length ≤ maxlen - 1 →
      encode_loop maxlen s i = (s.map encode_char, i + s.length) := by
  intro s
  induction s with
  | nil => intro i _ _; rfl
  | cons c t ih =>
    intro i hnul hlen
    have hc : c ≠ '\x00' := hnul c (List.mem_cons_self _ _)
    have hi : (i : Int) < maxlen - 1 := by
      simp only [List.length_cons, Nat.cast_add, Nat.cast_one] at hlen; omega
    have ht := ih (i + 1) (fun d hd => hnul d (List.mem_cons_of_mem _ hd))
      (by simp only [List.length_cons, Nat.cast_add, Nat.cast_one] at hlen ⊢; omega)
    simp only [encode_loop, hc, ne_eq, not_false_eq_true, hi, and_self, if_true, ht,
      List.map_cons, encode_char, List.length_cons, Prod.mk.injEq, true_and]
    omega

theorem decode_loop_full (maxlen : Int) :
    ∀ (s : List Char) (i : Nat), (∀ c ∈ s, c ≠ '\x00') → (i : Int) + s.length ≤ maxlen - 1 →
      decode_loop maxlen s i = (s.map decode_char, i + s.length) := by
  intro s
  induction s with
  | nil => intro i _ _; rfl
  | cons c t ih =>
    intro i hnul hlen
    have hc : c ≠ '\x00' := hnul c (List.mem_cons_self _ _)
    have hi : (i : Int) < maxlen - 1 := by
      simp only [List.length_cons, Nat.cast_add, Nat.cast_one] at hlen; omega
    have ht := ih (i + 1) (fun d hd => hnul d (List.mem_cons_of_mem _ hd))
      (by simp only [List.length_cons, Nat.cast_add, Nat.cast_one] at hlen ⊢; omega)
    simp only [decode_loop, hc, ne_eq, not_false_eq_true, hi, and_self, if_true, ht,
      List.map_cons, decode_char, List.length_cons, Prod.mk.injEq, true_and]
    omega

theorem strlen_of_no_nul (s : List Char) (h : ∀ c ∈ s, c ≠ '\x00') : strlen s = s.length := by
  unfold strlen
  rw [List.takeWhile_eq_self_iff.mpr]
  intro c hc
  simpa using h c hc

theorem encode_char_ne_nul (c : Char) (h : c ≠ '\x00') : encode_char c ≠ '\x00' := by
  unfold encode_char
  split
  · decide
  · exact h

/-- What reading back a written string gives: every space, tab and underscore
of `s` has become a space. -/
theorem ascread_ascwrite (s : List Char) (hnul : ∀ c ∈ s, c ≠ '\x00') (hlen : s.length < 256) :
    ascread_string (ascwrite_string s) = s.map (fun c => decode_char (encode_char c)) := by
  have he : encode_string 256 s = s.map encode_char := by
    unfold encode_string
    rw [encode_loop_full 256 s 0 hnul (by simp only [Nat.cast_zero, zero_add]; omega)]
  have hnul2 : ∀ c ∈ s.map encode_char, c ≠ '\x00' := by
    intro c hc
    obtain ⟨d, hd, rfl⟩ := List.mem_map.mp hc
    exact encode_char_ne_nul d (hnul d hd)
  unfold ascread_string ascwrite_string decode_string
  rw [he, strlen_of_no_nul _ hnul2,
    decode_loop_full _ _ 0 hnul2 (by simp only [Nat.cast_zero, zero_add]; omega)]
  simp only [List.map_map]
  rfl

/-- Counterexample to C20 as stated: the string "a_b" (length 3) is written as
"a_b" and read back as "a b". -/
theorem underscore_not_restored :
    ("a_b".data).length < 256
    ∧ ascread_string (ascwrite_string "a_b".data) = "a b".data
    ∧ ascread_string (ascwrite_string "a_b".data) ≠ "a_b".data := by
  have h : ascread_string (ascwrite_string "a_b".data) = "a b".data := by
    rw [ascread_ascwrite _ (by decide) (by decide)]
    decide
  refine ⟨by decide, h, ?_⟩
  rw [h]
  decide

/-- C20, amended: for every string `s` with `strlen(s) < 256` that holds no
underscore and no tab, `decode_string` applied with `maxlen = strlen + 1` (as
`do_ascread` does) to the output of `encode_string(256, s)` yields `s` again. -/
theorem string_round_trip (s : List Char) (hnul : ∀ c ∈ s, c ≠ '\x00')
    (hlen : s.length < 256) (hus : '_' ∉ s) (htab : '\t' ∉ s) :
    strlen s = s.length
    ∧ decode_string ((strlen (encode_string 256 s) : Int) + 1) (encode_string 256 s) = s := by
  refine ⟨strlen_of_no_nul s hnul, ?_⟩
  have h := ascread_ascwrite s hnul hlen
  unfold ascread_string ascwrite_string at h
  rw [h]
  conv_rhs => rw [← List.map_id s]
  apply List.map_congr_left
  intro c hc
  have h1 : c ≠ '_' := fun e => hus (e ▸ hc)
  have h2 : c ≠ '\t' := fun e => htab (e ▸ hc)
  unfold decode_char encode_char
  by_cases hsp : c = ' '
  · subst hsp; decide
  · simp [hsp, h1, h2]

/-- Witness for C20 amended: a string with a space. -/
theorem string_round_trip_witness :
    decode_string ((strlen (encode_string 256 "my protein".data) : Int) + 1)
        (encode_string 256 "my protein".data) = "my protein".data :=
  (string_round_trip "my protein".data (by decide) (by decide) (by decide) (by decide)).2

theorem in_ftpset_loop_eq (ftp : Int) (set : List Int) :
    ∀ (k i : Nat) (b : Bool), i + k ≤ set.length →
      in_ftpset_loop ftp set k i b = .ok (b || decide (ftp ∈ (set.drop i).take k)) := by
  intro k
  induction k with
  | zero => intro i b _; simp [in_ftpset_loop]
  | succ k ih =>
    intro i b h
    have hi : i < set.length := by omega
    rw [in_ftpset_loop, List.getElem?_eq_getElem hi]
    simp only
    rw [ih (i + 1) _ (by omega), List.drop_eq_getElem_cons hi, List.take_succ_cons]
    congr 1
    by_cases hv : ftp = set[i]
    · simp [hv]
    · simp [hv]

theorem in_ftpset_eq (ftp : Int) (nset : Int) (set : List Int) (h : nset ≤ set.length) :
    in_ftpset ftp nset set = .ok (decide (ftp ∈ set.take nset.toNat)) := by
  unfold in_ftpset
  rw [in_ftpset_loop_eq ftp set nset.toNat 0 false (by omega)]
  simp

theorem in_ftpset_asize (ftp : Int) (set : List Int) :
    in_ftpset ftp (asize set) set = .ok (decide (ftp ∈ set)) := by
  unfold asize
  rw [in_ftpset_eq ftp _ set (le_refl _)]
  simp

theorem gmx_fio_check_ok (fio : Int) (st : Fio) (i : Nat)
    (h : gmx_fio_check fio st = .ok i) :
    fio = i ∧ i < st.FIO_table.length := by
  simp only [gmx_fio_check] at h
  split at h
  · simp only [Except.ok.injEq] at h
    omega
  · cases h

theorem gmx_fio_check_of_lt (i : Nat) (st : Fio) (h : i < st.FIO_table.length) :
    gmx_fio_check (i : Int) st = .ok i := by
  simp [gmx_fio_check, h]

/-- What `gmx_fio_select` does for a handle in range, by the file type of its
record. -/
theorem gmx_fio_select_eq (T : FileTypes) (X : Files) (st : Fio) (i : Nat) (r : t_fileio)
    (hr : st.FIO_table[i]? = some r) :
    gmx_fio_select T X (i : Int) st =
      if r.iFTP ∈ ftpXDR T then
        .ok { st with do_read := .do_xdr, do_write := .do_xdr, curfio := some i }
      else if r.iFTP ∈ ftpASC T then
        .ok { st with do_read := .do_ascread, do_write := .do_ascwrite, curfio := some i }
      else if r.iFTP ∈ ftpBIN T then
        .ok { st with do_read := .do_binread, do_write := .do_binwrite, curfio := some i }
      else
        st.cur.bind (fun cur =>
          .error (.gmx_fatal ("Can not read/write topologies to file type "
            ++ X.ftp2ext cur.iFTP))) := by
  have hi : i < st.FIO_table.length := by
    by_contra hn
    rw [List.getElem?_eq_none (by omega)] at hr
    cases hr
  simp only [gmx_fio_select, gmx_fio_check_of_lt i st hi, hr, in_ftpset_asize]
  by_cases h1 : r.iFTP ∈ ftpXDR T
  · simp [h1]
  by_cases h2 : r.iFTP ∈ ftpASC T
  · simp [h1, h2]
  by_cases h3 : r.iFTP ∈ ftpBIN T
  · simp [h1, h2, h3]
  simp only [h1, h2, h3, decide_False, if_false]

/-- The three sets of file types are pairwise disjoint when the enumerators
are pairwise different. -/
theorem ftp_sets_disjoint (T : FileTypes) (h : T.named.Nodup) :
    (∀ ftp, ftp ∈ ftpXDR T → ftp ∉ ftpASC T ∧ ftp ∉ ftpBIN T)
    ∧ (∀ ftp, ftp ∈ ftpASC T → ftp ∉ ftpBIN T) := by
  simp only [FileTypes.named, List.nodup_cons, List.mem_cons, List.mem_singleton, not_or,
    List.not_mem_nil, not_false_eq_true, List.nodup_nil, and_true] at h
  obtain ⟨⟨a1, a2, a3, a4, a5, a6, a7, a8, a9, a10⟩, ⟨b1, b2, b3, b4, b5, b6, b7, b8, b9⟩,
    ⟨c1, c2, c3, c4, c5, c6, c7, c8⟩, ⟨d1, d2, d3, d4, d5, d6, d7⟩,
    ⟨e1, e2, e3, e4, e5, e6⟩, ⟨f1, f2, f3, f4, f5⟩, ⟨g1, g2, g3, g4⟩,
    ⟨h1, h2, h3⟩, ⟨i1, i2⟩, j1⟩ := h
  simp only [ftpXDR, ftpASC, ftpBIN, List.mem_cons, List.mem_singleton, List.not_mem_nil,
    or_false, not_or]
  constructor
  · rintro ftp (rfl | rfl | rfl | rfl | rfl) <;> simp [*]
  · rintro ftp (rfl | rfl | rfl) <;> simp [*]

/-- C21, the code at the failing input: a file of a type that is in none of the
three sets is opened while no handle has been selected (`curfio` is `NULL`);
`gmx_fio_select` for its handle reads `curfio->iFTP` and so dereferences the
null pointer before `gmx_fatal` is called. -/
theorem select_unnamed_type_first :
    (gmx_fio_open exampleTypes exampleFiles (some "conf.g96") "r".data Fio.initial).map
        (fun o => (o.nfio, o.st.curfio, o.st.FIO_table.map (fun r => r.iFTP)))
      = .ok (0, none, [20])
    ∧ (20 : Int) ∉ exampleTypes.named
    ∧ (gmx_fio_open exampleTypes exampleFiles (some "conf.g96") "r".data Fio.initial).bind
        (fun o => gmx_fio_select exampleTypes exampleFiles o.nfio o.st)
      = .error .null_dereference := by
  refine ⟨?_, by decide, ?_⟩ <;> rfl

/-- C29, the code at the failing input: "topol.tpr" and "traj.trr" are opened
as the handles 0 and 1 and the handle 1 is selected; `gmx_fio_getname(0)`
returns "traj.trr", the name of the selected handle, although the record of
the handle 0 holds "topol.tpr"; `gmx_fio_getftp(0)` and `gmx_fio_getread(0)`
return the values of the handle 0. -/
theorem getname_returns_selected_name :
    (((gmx_fio_open exampleTypes exampleFiles (some "topol.tpr") "r".data Fio.initial).bind
        (fun o => gmx_fio_open exampleTypes exampleFiles (some "traj.trr") "r".data o.st)).bind
        (fun o => gmx_fio_select exampleTypes exampleFiles 1 o.st)).map
        (fun st => (st.FIO_table.map (fun r => (r.bOpen, r.fn)), gmx_fio_getname 0 st,
          gmx_fio_getname 1 st, gmx_fio_getftp 0 st, gmx_fio_getread 0 st))
      = .ok ([(true, "topol.tpr"), (true, "traj.trr")], .ok "traj.trr", .ok "traj.trr",
          .ok 0, .ok true) := by
  rfl

/-- The value of `gmx_fio_getname` does not depend on its argument beyond the
range check: it is the name in the record that `curfio` points to. -/
theorem gmx_fio_getname_eq (st : Fio) (i : Nat) (h : i < st.FIO_table.length) :
    gmx_fio_getname (i : Int) st = st.cur.map (fun cur => cur.fn) := by
  simp only [gmx_fio_getname, gmx_fio_check_of_lt i st h]

theorem first_closed_spec :
    ∀ (l : List t_fileio) (i : Nat),
      i ≤ first_closed l i ∧ first_closed l i ≤ i + l.length
      ∧ (∀ j, j < first_closed l i - i → (l[j]?).map (fun r => r.bOpen) = some true)
      ∧ (first_closed l i < i + l.length →
          (l[first_closed l i - i]?).map (fun r => r.bOpen) = some false) := by
  intro l
  induction l with
  | nil => intro i; simp [first_closed]
  | cons r rs ih =>
    intro i
    by_cases hr : r.bOpen = true
    · have h := ih (i + 1)
      obtain ⟨h1, h2, h3, h4⟩ := h
      have he : first_closed (r :: rs) i = first_closed rs (i + 1) := by
        simp [first_closed, hr]
      rw [he]
      refine ⟨by omega, by simp only [List.length_cons]; omega, ?_, ?_⟩
      · intro j hj
        cases j with
        | zero => simp [hr]
        | succ j =>
          simp only [List.getElem?_cons_succ]
          exact h3 j (by omega)
      · intro hlt
        have h5 := h4 (by simp only [List.length_cons] at hlt; omega)
        have hk : first_closed rs (i + 1) - i = (first_closed rs (i + 1) - (i + 1)) + 1 := by
          omega
        rw [hk, List.getElem?_cons_succ]
        exact h5
    · have he : first_closed (r :: rs) i = i := by simp [first_closed, hr]
      rw [he]
      refine ⟨le_refl _, by omega, ?_, ?_⟩
      · intro j hj; omega
      · intro _
        simp only [Nat.sub_self, List.getElem?_cons_zero, Option.map_some', Option.some.injEq]
        simpa using hr

theorem open_newmode_head (T : FileTypes) (X : Files) (fn : Option String)
    (mode newmode : List Char) (h : open_newmode T X fn mode = .ok newmode) :
    (newmode.head? = some 'r' ↔ mode.head? = some 'r') := by
  have key : ∀ m : List Char, (m.head? = some 'r' ↔ mode.head? = some 'r') →
      ∀ n, ((if Runner.strncmp (X.ftp2ftype (X.fn2ftp fn)) "ASCII".data 5 ≠ 0 then
          (if 'b' ∉ m ∧ 'B' ∉ m then (Except.ok (m ++ ['b']) : Except Err (List Char))
           else .ok m)
        else .ok m) = .ok n) → (n.head? = some 'r' ↔ mode.head? = some 'r') := by
    intro m hm n hn
    split at hn
    · split at hn
      · simp only [Except.ok.injEq] at hn
        subst hn
        cases m with
        | nil =>
          simp only [List.head?_nil, false_iff, reduceCtorEq] at hm
          simp only [List.nil_append, List.head?_cons, Option.some.injEq]
          constructor
          · intro h; exact absurd h (by decide)
          · intro h; exact absurd h hm
        | cons c cs => simpa using hm
      · simp only [Except.ok.injEq] at hn
        subst hn; exact hm
    · simp only [Except.ok.injEq] at hn
      subst hn; exact hm
  simp only [open_newmode] at h
  split at h
  · cases h
  · rename_i m hc
    split at hc
    · simp only [Except.ok.injEq] at hc
      subst hc
      exact key mode Iff.rfl newmode h
    · split at hc
      · rename_i hr
        simp only [Except.ok.injEq] at hc
        subst hc
        exact key ['r'] (by simp [hr]) newmode h
      · rename_i hr
        split at hc
        · rename_i hw
          simp only [Except.ok.injEq] at hc
          subst hc
          exact key ['w'] (by simp [hr]) newmode h
        · split at hc
          · simp only [Except.ok.injEq] at hc
            subst hc
            exact key ['a'] (by simp [hr]) newmode h
          · cases hc

theorem open_record_fields (T : FileTypes) (X : Files) (fn : Option String)
    (newmode : List Char) (r : t_fileio) (out : List Note)
    (h : open_record T X fn newmode = .ok (r, out)) :
    r.bOpen = true ∧ r.bRead = decide (newmode.head? = some 'r') ∧ r.bDebug = false := by
  simp only [open_record] at h
  split at h
  · split at h
    · cases h
    · split at h
      · cases h
      · split at h
        · cases h
        · simp only [Except.ok.injEq, Prod.mk.injEq] at h
          rw [← h.1]
          exact ⟨rfl, rfl, rfl⟩
    · split at h
      · cases h
      · simp only [Except.ok.injEq, Prod.mk.injEq] at h
        rw [← h.1]
        exact ⟨rfl, rfl, rfl⟩
  · simp only [Except.ok.injEq, Prod.mk.injEq] at h
    rw [← h.1]
    exact ⟨rfl, rfl, rfl⟩

theorem gmx_fio_open_eq (T : FileTypes) (X : Files) (fn : Option String) (mode : List Char)
    (st : Fio) (o : Opened) (h : gmx_fio_open T X fn mode st = .ok o) :
    ∃ newmode r, open_newmode T X fn mode = .ok newmode
      ∧ open_record T X fn newmode = .ok (r, o.out)
      ∧ o.nfio = first_closed st.FIO_table 0
      ∧ o.st = { st with FIO_table :=
          if first_closed st.FIO_table 0 = st.FIO_table.length then st.FIO_table ++ [r]
          else st.FIO_table.set (first_closed st.FIO_table 0) r } := by
  simp only [gmx_fio_open] at h
  split at h
  · cases h
  · rename_i newmode hm
    split at h
    · cases h
    · rename_i r out hr
      refine ⟨newmode, r, hm, ?_⟩
      split at h
      · rename_i hi
        simp only [Except.ok.injEq] at h
        subst h
        exact ⟨hr, hi.symm, by simp only [hi, if_true]⟩
      · rename_i hi
        simp only [Except.ok.injEq] at h
        subst h
        exact ⟨hr, rfl, by simp only [hi, if_false]⟩

/-- The slot that `gmx_fio_open` takes and what it leaves in the table. -/
theorem gmx_fio_open_slot (T : FileTypes) (X : Files) (fn : Option String) (mode : List Char)
    (st : Fio) (o : Opened) (h : gmx_fio_open T X fn mode st = .ok o) :
    o.nfio = first_closed st.FIO_table 0
    ∧ o.nfio ≤ st.FIO_table.length
    ∧ (∀ j, j < o.nfio → (st.FIO_table[j]?).map (fun r => r.bOpen) = some true)
    ∧ (o.nfio < st.FIO_table.length →
        (st.FIO_table[o.nfio]?).map (fun r => r.bOpen) = some false)
    ∧ o.st.FIO_table.length
        = (if o.nfio = st.FIO_table.length then st.FIO_table.length + 1
           else st.FIO_table.length)
    ∧ (∃ r, o.st.FIO_table[o.nfio]? = some r ∧ r.bOpen = true
        ∧ r.bRead = decide (mode.head? = some 'r') ∧ r.bDebug = false)
    ∧ (∀ j, j ≠ o.nfio → o.st.FIO_table[j]? = st.FIO_table[j]?)
    ∧ o.st.curfio = st.curfio ∧ o.st.do_read = st.do_read ∧ o.st.do_write = st.do_write := by
  obtain ⟨newmode, r, hm, hr, hn, hst⟩ := gmx_fio_open_eq T X fn mode st o h
  obtain ⟨f1, f2, f3⟩ := open_record_fields T X fn newmode r o.out hr
  obtain ⟨_, s2, s3, s4⟩ := first_closed_spec st.FIO_table 0
  simp only [Nat.zero_add, Nat.sub_zero] at s2 s3 s4
  have hread : r.bRead = decide (mode.head? = some 'r') := by
    rw [f2]
    exact decide_eq_decide.mpr (open_newmode_head T X fn mode newmode hm)
  rw [hn, hst]
  refine ⟨rfl, s2, s3, s4, ?_, ?_, ?_, rfl, rfl, rfl⟩
  · simp only
    split <;> simp
  · refine ⟨r, ?_, f1, hread, f3⟩
    simp only
    split
    · rename_i hi
      rw [hi]
      simp
    · rename_i hi
      have : first_closed st.FIO_table 0 < st.FIO_table.length := by omega
      simp [List.getElem?_set, this]
  · intro j hj
    simp only
    split
    · rename_i hi
      rw [hi] at hj
      by_cases hlt : j < st.FIO_table.length
      · rw [List.getElem?_append_left hlt]
      · have hgt : st.FIO_table.length < j := by omega
        rw [List.getElem?_eq_none (by simp; omega), List.getElem?_eq_none (by omega)]
    · rw [List.getElem?_set_ne (Ne.symm hj)]

theorem gmx_fio_close_eq (fio : Int) (st st1 : Fio) (h : gmx_fio_close fio st = .ok st1) :
    ∃ i : Nat, fio = i ∧ i < st.FIO_table.length
      ∧ st1.FIO_table = st.FIO_table.modify (fun r => { r with bOpen := false }) i := by
  simp only [gmx_fio_close] at h
  split at h
  · cases h
  · rename_i i hi
    obtain ⟨h1, h2⟩ := gmx_fio_check_ok fio st i hi
    simp only [Except.ok.injEq] at h
    subst h
    exact ⟨i, h1, h2, rfl⟩

theorem inUse_open (T : FileTypes) (X : Files) (fn : Option String) (mode : List Char)
    (st : Fio) (hs : List Nat) (o : Opened) (hin : InUse st hs)
    (h : gmx_fio_open T X fn mode st = .ok o) : InUse o.st (o.nfio :: hs) := by
  obtain ⟨h1, h2, h3, h4, h5, ⟨r, h6, h7, _, _⟩, h8, _⟩ := gmx_fio_open_slot T X fn mode st o h
  obtain ⟨hnd, hall⟩ := hin
  have hlen : st.FIO_table.length ≤ o.st.FIO_table.length := by
    rw [h5]; split <;> omega
  have hnot : o.nfio ∉ hs := by
    intro hmem
    obtain ⟨hl, hopen⟩ := hall _ hmem
    have := h4 hl
    rw [hopen] at this
    cases this
  refine ⟨List.nodup_cons.mpr ⟨hnot, hnd⟩, ?_⟩
  intro x hx
  rcases List.mem_cons.mp hx with rfl | hx
  · refine ⟨?_, by rw [h6]; simp [h7]⟩
    rw [h5]; split <;> omega
  · obtain ⟨hl, hopen⟩ := hall _ hx
    have hne : x ≠ o.nfio := fun e => hnot (e ▸ hx)
    exact ⟨by omega, by rw [h8 x hne]; exact hopen⟩

theorem inUse_close (fio : Int) (st st1 : Fio) (hs : List Nat) (hin : InUse st hs)
    (h : gmx_fio_close fio st = .ok st1) :
    InUse st1 (hs.filter (fun x => (x : Int) ≠ fio)) := by
  obtain ⟨i, rfl, hi, ht⟩ := gmx_fio_close_eq fio st st1 h
  obtain ⟨hnd, hall⟩ := hin
  refine ⟨hnd.filter _, ?_⟩
  intro x hx
  obtain ⟨hx1, hx2⟩ := List.mem_filter.mp hx
  have hne : i ≠ x := by
    intro e
    subst e
    simp at hx2
  obtain ⟨hl, hopen⟩ := hall x hx1
  rw [ht]
  exact ⟨by simpa using hl, by rw [List.getElem?_modify_ne _ _ hne]; exact hopen⟩

theorem inUse_run (T : FileTypes) (X : Files) :
    ∀ (cs : List Call) (st : Fio) (hs : List Nat) (st1 : Fio) (hs1 : List Nat),
      InUse st hs → run_calls T X cs st hs = .ok (st1, hs1) → InUse st1 hs1 := by
  intro cs
  induction cs with
  | nil =>
    intro st hs st1 hs1 hin h
    simp only [run_calls, Except.ok.injEq, Prod.mk.injEq] at h
    obtain ⟨rfl, rfl⟩ := h
    exact hin
  | cons c cs ih =>
    intro st hs st1 hs1 hin h
    cases c with
    | fio_open fn mode =>
      simp only [run_calls] at h
      split at h
      · cases h
      · rename_i o ho
        exact ih _ _ _ _ (inUse_open T X fn mode st hs o hin ho) h
    | fio_close fio =>
      simp only [run_calls] at h
      split at h
      · cases h
      · rename_i st2 hc
        exact ih _ _ _ _ (inUse_close fio st st2 hs hin hc) h

/-- C23: `gmx_fio_open` returns whenever the mode and the file are accepted;
the value returned is the lowest index whose slot is not open, or `nFIO` when
every slot is open, in which case the table grows by one; the slot returned is
marked open, with `bRead` true exactly when `mode` starts with `r` and
`bDebug` false; every other slot is as before; and after any sequence of
calls of `gmx_fio_open` and `gmx_fio_close` the handles in use are pairwise
distinct, lie in `[0, nFIO)` and have slots marked open. -/
theorem open_returns_free_handle (T : FileTypes) (X : Files) (fn : Option String)
    (mode : List Char) (st : Fio) :
    (∀ newmode r out, open_newmode T X fn mode = .ok newmode →
        open_record T X fn newmode = .ok (r, out) →
        ∃ o, gmx_fio_open T X fn mode st = .ok o)
    ∧ (∀ o, gmx_fio_open T X fn mode st = .ok o →
        o.nfio = first_closed st.FIO_table 0
        ∧ o.nfio ≤ st.FIO_table.length
        ∧ (∀ j, j < o.nfio → (st.FIO_table[j]?).map (fun r => r.bOpen) = some true)
        ∧ (o.nfio < st.FIO_table.length →
            (st.FIO_table[o.nfio]?).map (fun r => r.bOpen) = some false)
        ∧ o.st.FIO_table.length
            = (if o.nfio = st.FIO_table.length then st.FIO_table.length + 1
               else st.FIO_table.length)
        ∧ (∃ r, o.st.FIO_table[o.nfio]? = some r ∧ r.bOpen = true
            ∧ r.bRead = decide (mode.head? = some 'r') ∧ r.bDebug = false)
        ∧ (∀ j, j ≠ o.nfio → o.st.FIO_table[j]? = st.FIO_table[j]?))
    ∧ (∀ (cs : List Call) (st1 : Fio) (hs : List Nat),
        run_calls T X cs Fio.initial [] = .ok (st1, hs) → InUse st1 hs) := by
  refine ⟨?_, ?_, ?_⟩
  · intro newmode r out hm hr
    simp only [gmx_fio_open, hm, hr]
    split
    · exact ⟨_, rfl⟩
    · exact ⟨_, rfl⟩
  · intro o h
    obtain ⟨h1, h2, h3, h4, h5, h6, h7, _⟩ := gmx_fio_open_slot T X fn mode st o h
    exact ⟨h1, h2, h3, h4, h5, h6, h7⟩
  · intro cs st1 hs h
    exact inUse_run T X cs Fio.initial [] st1 hs
      ⟨List.nodup_nil, fun x hx => absurd hx (List.not_mem_nil x)⟩ h

/-- Witness for C23: the first file opened for reading. -/
theorem open_returns_free_handle_witness :
    ∃ o, gmx_fio_open exampleTypes exampleFiles (some "topol.tpr") "r".data Fio.initial = .ok o :=
  (open_returns_free_handle exampleTypes exampleFiles (some "topol.tpr") "r".data
    Fio.initial).1 ['r', 'b']
    { iFTP := 0, bOpen := true, bRead := true, bDouble := false, bDebug := false,
      bStdio := false, fn := "topol.tpr", fp := none,
      xdr := some (.opened "topol.tpr" ['r', 'b']) } [] rfl rfl

/-- Counterexample to C22 as stated: `real` is `float` (4 bytes); after
`gmx_fio_setprecision(fio, TRUE)` on a binary file, `do_binwrite` produces 4
bytes for one item of kind `eioREAL` and `do_binread` consumes 8. -/
theorem binread_follows_precision :
    (((gmx_fio_open exampleTypes exampleFiles (some "topol.tpb") "r".data Fio.initial).bind
        (fun o => gmx_fio_setprecision 0 true o.st)).bind
        (fun st => gmx_fio_select exampleTypes exampleFiles 0 st)).bind
        (fun st => st.cur.map (fun cur =>
          (st.do_read, exampleFiles.sizes.sizeof_real,
           do_binwrite exampleFiles.sizes cur .eioREAL 1 0,
           do_binread exampleFiles.sizes cur .eioREAL 1 0)))
      = .ok (.do_binread, 4, .ok 4, .ok 8) := by
  rfl

/-- C22, amended: `do_binwrite` produces, for every kind and count, a number
of bytes that does not depend on `bDouble` (for reals `sizeof(real)` per
component); `do_binread` consumes that same number when `bDouble` of the
current record has the value that `gmx_fio_open` gives it,
`sizeof(real) == sizeof(double)` (for a string, when the length read is the
length written); the number that `do_binread` consumes does not depend on
`bDouble` for the kinds other than `eioREAL`, `eioRVEC` and `eioNRVEC`; for
these three it is `sizeof(double)` per component when `bDouble` is set and
`sizeof(float)` per component when it is not, whatever the precision of
`real`. -/
theorem binary_sizes_agree (S : Sizes) (cur : t_fileio) (eio : Eio) (nitem len : Nat) :
    (cur.bDouble = decide (S.sizeof_real = S.sizeof_double) →
      do_binread S cur eio nitem (len + 1) = do_binwrite S cur eio nitem len)
    ∧ (∀ b, do_binwrite S { cur with bDouble := b } eio nitem len
        = do_binwrite S cur eio nitem len)
    ∧ (eio ≠ .eioREAL → eio ≠ .eioRVEC → eio ≠ .eioNRVEC →
        ∀ b ssize, do_binread S { cur with bDouble := b } eio nitem ssize
          = do_binread S cur eio nitem ssize)
    ∧ (∀ b ssize, do_binread S { cur with bDouble := b } .eioREAL 1 ssize
        = .ok (if b then S.sizeof_double else S.sizeof_float))
    ∧ (∀ b ssize, do_binread S { cur with bDouble := b } .eioRVEC 1 ssize
        = .ok (DIM * (if b then S.sizeof_double else S.sizeof_float)))
    ∧ (∀ b ssize, do_binread S { cur with bDouble := b } .eioNRVEC nitem ssize
        = .ok (nitem * (DIM * (if b then S.sizeof_double else S.sizeof_float))))
    ∧ do_binwrite S cur .eioREAL 1 len = .ok S.sizeof_real
    ∧ do_binwrite S cur .eioRVEC 1 len = .ok (DIM * S.sizeof_real)
    ∧ do_binwrite S cur .eioNRVEC nitem len = .ok (nitem * (DIM * S.sizeof_real)) := by
  refine ⟨?_, ?_, ?_, ?_, ?_, ?_, ?_, ?_, ?_⟩
  · intro hprec
    have hreal : (if cur.bDouble then S.sizeof_double else S.sizeof_float) = S.sizeof_real := by
      by_cases hd : S.sizeof_real = S.sizeof_double
      · simp [hprec, hd]
      · have hf : S.real_is_double = false := by
          by_contra hc
          simp only [Bool.not_eq_false] at hc
          exact hd (by simp [Sizes.sizeof_real, hc])
        have hd2 : ¬ S.sizeof_float = S.sizeof_double := by
          simpa [Sizes.sizeof_real, hf] using hd
        simp [hprec, Sizes.sizeof_real, hf, hd2]
    have hvec : (if cur.bDouble then S.sizeof_double * DIM else S.sizeof_float * DIM)
        = S.sizeof_rvec := by
      rw [Sizes.sizeof_rvec, ← hreal]
      split <;> exact Nat.mul_comm _ _
    cases eio <;>
      simp only [do_binread, do_binwrite, do_binread_depth, do_binwrite_depth, hreal, hvec]
  · intro b
    cases eio <;> simp only [do_binwrite, do_binwrite_depth, fe]
  · intro h1 h2 h3 b ssize
    cases eio <;>
      first
      | exact absurd rfl h1
      | exact absurd rfl h2
      | exact absurd rfl h3
      | simp only [do_binread, do_binread_depth, fe]
  · intro b ssize
    cases b <;> simp [do_binread, do_binread_depth, check_nitem]
  · intro b ssize
    cases b <;> simp [do_binread, do_binread_depth, check_nitem, Nat.mul_comm]
  · intro b ssize
    cases b <;> simp [do_binread, do_binread_depth, check_nitem, Nat.mul_comm]
  · simp [do_binwrite, do_binwrite_depth, check_nitem]
  · simp [do_binwrite, do_binwrite_depth, check_nitem, Sizes.sizeof_rvec]
  · simp [do_binwrite, do_binwrite_depth, check_nitem, Sizes.sizeof_rvec, Nat.mul_comm]

/-- Witness for C22 amended: a string of length 7 in a build with `real` =
`float`. -/
theorem binary_sizes_agree_witness :
    do_binread exampleFiles.sizes
        { iFTP := 8, bOpen := true, bRead := true, bDouble := false, bDebug := false,
          bStdio := false, fn := "topol.tpb", fp := none, xdr := none } .eioSTRING 1 (7 + 1)
      = do_binwrite exampleFiles.sizes
        { iFTP := 8, bOpen := true, bRead := true, bDouble := false, bDebug := false,
          bStdio := false, fn := "topol.tpb", fp := none, xdr := none } .eioSTRING 1 7 :=
  (binary_sizes_agree exampleFiles.sizes
    { iFTP := 8, bOpen := true, bRead := true, bDouble := false, bDebug := false,
      bStdio := false, fn := "topol.tpb", fp := none, xdr := none } .eioSTRING 1 7).1
    (by decide)

theorem encode_loop_eq (maxlen : Int) :
    ∀ (s : List Char) (i : Nat),
      encode_loop maxlen s i
        = (((s.takeWhile (fun c => c ≠ '\x00')).take (maxlen - 1 - i).toNat).map encode_char,
           i + ((s.takeWhile (fun c => c ≠ '\x00')).take (maxlen - 1 - i).toNat).length) := by
  intro s
  induction s with
  | nil => intro i; simp [encode_loop]
  | cons c t ih =>
    intro i
    by_cases hc : c = '\x00'
    · subst hc
      simp [encode_loop]
    by_cases hi : (i : Int) < maxlen - 1
    · have hk : (maxlen - 1 - (i : Int)).toNat = (maxlen - 1 - ((i + 1 : Nat) : Int)).toNat + 1 := by
        push_cast
        omega
      simp only [encode_loop, hc, ne_eq, not_false_eq_true, hi, and_self, if_true, ih (i + 1),
        decide_True, List.takeWhile_cons_of_pos, hk, List.take_succ_cons, List.map_cons,
        List.length_cons, encode_char, Prod.mk.injEq, true_and, decide_not]
      simp only [List.takeWhile_cons, hc, decide_False, Bool.not_false, if_true,
        List.take_succ_cons, List.map_cons, List.length_cons, encode_char, true_and]
      omega
    · have hk : (maxlen - 1 - (i : Int)).toNat = 0 := by omega
      simp [encode_loop, hc, hi, hk]

theorem decode_loop_eq (maxlen : Int) :
    ∀ (s : List Char) (i : Nat),
      decode_loop maxlen s i
        = (((s.takeWhile (fun c => c ≠ '\x00')).take (maxlen - 1 - i).toNat).map decode_char,
           i + ((s.takeWhile (fun c => c ≠ '\x00')).take (maxlen - 1 - i).toNat).length) := by
  intro s
  induction s with
  | nil => intro i; simp [decode_loop]
  | cons c t ih =>
    intro i
    by_cases hc : c = '\x00'
    · subst hc
      simp [decode_loop]
    by_cases hi : (i : Int) < maxlen - 1
    · have hk : (maxlen - 1 - (i : Int)).toNat = (maxlen - 1 - ((i + 1 : Nat) : Int)).toNat + 1 := by
        push_cast
        omega
      simp only [decode_loop, hc, ne_eq, not_false_eq_true, hi, and_self, if_true, ih (i + 1),
        hk, decide_not]
      simp only [List.takeWhile_cons, hc, decide_False, Bool.not_false, if_true,
        List.take_succ_cons, List.map_cons, List.length_cons, decode_char, true_and]
      rw [Prod.mk.injEq]
      exact ⟨rfl, by omega⟩
    · have hk : (maxlen - 1 - (i : Int)).toNat = 0 := by omega
      simp [decode_loop, hc, hi, hk]

theorem encode_char_props (c : Char) (h : c ≠ '\x00') :
    encode_char c ≠ ' ' ∧ encode_char c ≠ '\t' ∧ encode_char c ≠ '\x00'
      ∧ encode_char (encode_char c) = encode_char c := by
  unfold encode_char
  by_cases hs : c = ' ' ∨ c = '\t'
  · simp only [hs, if_true]
    decide
  · simp only [hs, if_false, not_false_eq_true, and_true]
    simp only [not_or] at hs
    exact ⟨hs.1, hs.2, h⟩

/-- C30, the code at the failing input: `do_ascwrite` prints 21 unsigned
characters on one line; the first call of `next_item` on that line writes
`bufindex[20]`, past the end of the array.  A line of 20 is read back item by
item. -/
theorem long_nuchar_line_overflows :
    (ascwrite_nuchar exampleText none "grpnr" (List.range 21) 21).map
        (fun line => ((items_of line).length, ascread_nuchar 21 (Reader.start [line])))
      = .ok (21, .error .index_out_of_range)
    ∧ (ascwrite_nuchar exampleText none "grpnr" (List.range 20) 20).map
        (fun line => ((items_of line).length,
          (ascread_nuchar 20 (Reader.start [line])).map (fun p => p.1)))
      = .ok (20, .ok ((List.range 20).map (Nat.toDigits 10))) := by
  constructor <;> rfl

theorem scan_run_eq (p : Char → Bool) :
    ∀ (l : List Char) (i : Nat),
      scan_run p l i
        = i + (l.takeWhile (fun c => decide (c ≠ '\x00' ∧ c ≠ ';' ∧ p c = true))).length := by
  intro l
  induction l with
  | nil => intro i; rfl
  | cons c cs ih =>
    intro i
    by_cases h : c ≠ '\x00' ∧ c ≠ ';' ∧ p c = true
    · simp only [scan_run, h, if_true, ih, List.takeWhile_cons, decide_True, List.length_cons]
      simp only [ne_eq, not_false_eq_true, and_self, h, decide_True, if_true, List.length_cons]
      omega
    · simp only [scan_run, h, if_false, List.takeWhile_cons, decide_False, List.length_nil]
      simp [h]

theorem takeWhile_append_stop {α : Type} (p : α → Bool) (x : α) (hx : p x = false) :
    ∀ l : List α, (l ++ [x]).takeWhile p = l.takeWhile p := by
  intro l
  induction l with
  | nil => simp [List.takeWhile, hx]
  | cons a as ih =>
    simp only [List.cons_append, List.takeWhile_cons, ih]

theorem dropWhile_head {α : Type} (p : α → Bool) :
    ∀ (l : List α) (c : α) (r : List α), l.dropWhile p = c :: r → p c = false := by
  intro l
  induction l with
  | nil => intro c r h; simp at h
  | cons a as ih =>
    intro c r h
    rw [List.dropWhile_cons] at h
    split at h
    · exact ih c r h
    · rename_i hp
      simp only [List.cons.injEq] at h
      rw [← h.1]
      simpa using hp

theorem takeWhile_nil_head {α : Type} (p : α → Bool) (c : α) (r : List α)
    (h : (c :: r).takeWhile p = []) : p c = false := by
  rw [List.takeWhile_cons] at h
  split at h
  · cases h
  · rename_i hp
    simpa using hp

theorem set_append_cons {α : Type} (a : List α) (x y : α) (b : List α) :
    (a ++ x :: b).set a.length y = a ++ y :: b := by
  induction a with
  | nil => rfl
  | cons c cs ih => simp only [List.cons_append, List.length_cons, List.set_cons_succ, ih]

theorem getD_append_cons {α : Type} (a : List α) (x d : α) (b : List α) :
    (a ++ x :: b).getD a.length d = x := by
  induction a with
  | nil => rfl
  | cons c cs ih => simpa using ih

theorem items_from_skip (w : List Char) (hw : ∀ c ∈ w, isspace c = true ∧ c ≠ ';')
    (x : List Char) : items_from (w ++ x) [] = items_from x [] := by
  induction w with
  | nil => rfl
  | cons c cs ih =>
    have hc := hw c (List.mem_cons_self _ _)
    simp only [List.cons_append, items_from, hc.2, if_false, hc.1, if_true, List.nil_append]
    exact ih (fun d hd => hw d (List.mem_cons_of_mem _ hd))

theorem items_from_word (t : List Char) (ht : ∀ c ∈ t, isspace c = false ∧ c ≠ ';') :
    ∀ (x cur : List Char), items_from (t ++ x) cur = items_from x (cur ++ t) := by
  induction t with
  | nil => intro x cur; simp
  | cons c cs ih =>
    intro x cur
    have hc := ht c (List.mem_cons_self _ _)
    simp only [List.cons_append, items_from, hc.2, if_false, hc.1, Bool.false_eq_true,
      List.append_eq]
    rw [ih (fun d hd => ht d (List.mem_cons_of_mem _ hd))]
    simp

theorem cstring_at_append (a t : List Char) (b : List Char) (ht : ∀ c ∈ t, c ≠ '\x00') :
    cstring_at (a ++ t ++ '\x00' :: b) a.length = t := by
  unfold cstring_at
  rw [List.append_assoc, List.drop_left]
  induction t with
  | nil => simp [List.takeWhile]
  | cons c cs ih =>
    have hc := ht c (List.mem_cons_self _ _)
    simp only [List.cons_append, List.takeWhile_cons, hc, ne_eq, not_false_eq_true,
      decide_True, if_true, List.cons.injEq, true_and]
    exact ih (fun d hd => ht d (List.mem_cons_of_mem _ hd))

theorem split_loop_spec :
    ∀ (fuel : Nat) (S pre : List Char) (bi : List Nat) (nbuf : Nat),
      (∀ c ∈ S, c ≠ '\x00') → S.length < fuel → bi.length = MAXBUF →
      nbuf + (items_from S []).length ≤ MAXBUF →
      ∃ s tail, split_loop fuel (pre ++ S ++ ['\x00']) pre.length bi nbuf = .ok s
        ∧ s.buf = pre ++ tail
        ∧ s.nbuf = nbuf + (items_from S []).length
        ∧ s.bufindex.length = MAXBUF
        ∧ (∀ k, k < nbuf → s.bufindex[k]? = bi[k]?)
        ∧ (∀ (k : Nat) (t : List Char), (items_from S [])[k]? = some t →
            ∃ j : Nat, s.bufindex[nbuf + k]? = some j ∧ cstring_at s.buf j = t) := by
  intro fuel
  induction fuel with
  | zero => intro S pre bi nbuf _ h; omega
  | succ fuel ih =>
    intro S pre bi nbuf hnul hfuel hbi hmax
    -- the white space `W`, the word `T` and the rest `R` of the text at `i`
    obtain ⟨W, S1, hW, hS1, hSW⟩ : ∃ W S1,
        W = S.takeWhile (fun c => decide (c ≠ '\x00' ∧ c ≠ ';' ∧ isspace c = true))
        ∧ S1 = S.dropWhile (fun c => decide (c ≠ '\x00' ∧ c ≠ ';' ∧ isspace c = true))
        ∧ S = W ++ S1 := ⟨_, _, rfl, rfl, (List.takeWhile_append_dropWhile _ _).symm⟩
    obtain ⟨T, R, hT, hR, hST⟩ : ∃ T R,
        T = S1.takeWhile (fun c => decide (c ≠ '\x00' ∧ c ≠ ';' ∧ (!isspace c) = true))
        ∧ R = S1.dropWhile (fun c => decide (c ≠ '\x00' ∧ c ≠ ';' ∧ (!isspace c) = true))
        ∧ S1 = T ++ R := ⟨_, _, rfl, rfl, (List.takeWhile_append_dropWhile _ _).symm⟩
    have hWp : ∀ c ∈ W, isspace c = true ∧ c ≠ ';' := by
      intro c hc
      rw [hW] at hc
      have := List.mem_takeWhile_imp hc
      simp only [decide_eq_true_eq] at this
      exact ⟨this.2.2, this.2.1⟩
    have hTp : ∀ c ∈ T, isspace c = false ∧ c ≠ ';' := by
      intro c hc
      rw [hT] at hc
      have := List.mem_takeWhile_imp hc
      simp only [decide_eq_true_eq, Bool.not_eq_true'] at this
      exact ⟨this.2.2, this.2.1⟩
    have hTnul : ∀ c ∈ T, c ≠ '\x00' := by
      intro c hc
      apply hnul
      rw [hSW, hST]
      simp [hc]
    have hitems : items_from S [] = items_from R T := by
      rw [hSW, hST, items_from_skip W hWp, items_from_word T hTp]
      rfl
    have hj0 : scan_run isspace ((pre ++ S ++ ['\x00']).drop pre.length) pre.length
        = (pre ++ W).length := by
      rw [scan_run_eq, List.append_assoc, List.drop_left,
        takeWhile_append_stop _ _ (by simp), ← hW, List.length_append]
    have hbuf1 : pre ++ S ++ ['\x00'] = (pre ++ W) ++ (S1 ++ ['\x00']) := by
      rw [hSW]; simp
    have hi1 : scan_run (fun c => !isspace c)
        ((pre ++ S ++ ['\x00']).drop (pre ++ W).length) (pre ++ W).length
        = (pre ++ W ++ T).length := by
      rw [scan_run_eq, hbuf1, List.drop_left, takeWhile_append_stop _ _ (by simp), ← hT,
        List.length_append (pre ++ W)]
    have hgt : ((pre ++ W ++ T).length > (pre ++ W).length) ↔ T ≠ [] := by
      rw [List.length_append (pre ++ W)]
      cases T with
      | nil => simp
      | cons c cs => simp
    rw [split_loop]
    simp only [hj0, hi1]
    cases hRc : R with
    | nil =>
      have hbuf : pre ++ S ++ ['\x00'] = (pre ++ W ++ T) ++ ['\x00'] := by
        rw [hSW, hST, hRc]; simp
      have hccc : (pre ++ S ++ ['\x00']).getD (pre ++ W ++ T).length '\x00' = '\x00' := by
        rw [hbuf]; exact getD_append_cons _ _ _ _
      rw [hitems, hRc] at hmax ⊢
      simp only [hccc, ne_eq, not_true_eq_false, false_and, if_false]
      by_cases hTe : T = []
      · subst hTe
        simp only [List.append_nil, gt_iff_lt, lt_self_iff_false, if_false]
        refine ⟨_, S ++ ['\x00'], rfl, by simp, by simp [items_from], hbi, fun k _ => rfl, ?_⟩
        intro k t hk
        simp [items_from] at hk
      · have hlen : (items_from [] T).length = 1 := by simp [items_from, hTe]
        rw [hlen] at hmax
        have hn : nbuf < MAXBUF := by omega
        simp only [hgt.mpr hTe, if_true, hn]
        refine ⟨_, W ++ T ++ ['\x00'], rfl, ?_, by simp [items_from, hTe],
          by simp [hbi], ?_, ?_⟩
        · simp only
          rw [hbuf, set_append_cons]
          simp
        · intro k hk
          simp only
          rw [List.getElem?_set_ne (by omega)]
        · intro k t hk
          simp only [items_from, hTe, if_false] at hk
          cases k with
          | zero =>
            simp only [List.getElem?_cons_zero, Option.some.injEq] at hk
            subst hk
            refine ⟨(pre ++ W).length, ?_, ?_⟩
            · simp only [Nat.add_zero]
              rw [List.getElem?_set_self (by omega)]
            · simp only
              rw [hbuf, set_append_cons]
              exact cstring_at_append (pre ++ W) T [] hTnul
          | succ k => simp at hk
    | cons c R1 =>
      have hbuf : pre ++ S ++ ['\x00'] = (pre ++ W ++ T) ++ c :: (R1 ++ ['\x00']) := by
        rw [hSW, hST, hRc]; simp
      have hccc : (pre ++ S ++ ['\x00']).getD (pre ++ W ++ T).length '\x00' = c := by
        rw [hbuf]; exact getD_append_cons _ _ _ _
      have hcnul : c ≠ '\x00' := by
        apply hnul
        rw [hSW, hST, hRc]
        simp
      have hcq2 : ¬ (c ≠ ';' ∧ isspace c = false) := by
        have := dropWhile_head _ S1 c R1 (by rw [← hR, hRc])
        simp only [decide_eq_false_iff_not, Bool.not_eq_true'] at this
        intro h
        exact this ⟨hcnul, h.1, h.2⟩
      rw [hitems, hRc] at hmax ⊢
      simp only [hccc]
      by_cases hTe : T = []
      · -- no word: the text goes on with a semicolon
        subst hTe
        have hcq1 : ¬ (c ≠ ';' ∧ isspace c = true) := by
          have := dropWhile_head _ S c R1 (by rw [← hS1, hST, hRc]; rfl)
          simp only [decide_eq_false_iff_not] at this
          intro h
          exact this ⟨hcnul, h.1, h.2⟩
        have hsemi : c = ';' := by
          by_contra hne
          cases hsp : isspace c with
          | true => exact hcq1 ⟨hne, hsp⟩
          | false => exact hcq2 ⟨hne, hsp⟩
        subst hsemi
        simp only [List.append_nil, gt_iff_lt, lt_self_iff_false, if_false, ne_eq,
          not_true_eq_false, and_false]
        refine ⟨_, S ++ ['\x00'], rfl, by simp, by simp [items_from], hbi, fun k _ => rfl, ?_⟩
        intro k t hk
        simp [items_from] at hk
      · by_cases hsemi : c = ';'
        · subst hsemi
          have hlen : (items_from (';' :: R1) T).length = 1 := by simp [items_from, hTe]
          rw [hlen] at hmax
          have hn : nbuf < MAXBUF := by omega
          simp only [hgt.mpr hTe, if_true, hn, ne_eq, not_true_eq_false, and_false, if_false]
          refine ⟨_, W ++ T ++ '\x00' :: (R1 ++ ['\x00']), rfl, ?_, by simp [items_from, hTe],
            by simp [hbi], ?_, ?_⟩
          · simp only
            rw [hbuf, set_append_cons]
            simp
          · intro k hk
            simp only
            rw [List.getElem?_set_ne (by omega)]
          · intro k t hk
            simp only [items_from, hTe, if_true, if_false] at hk
            cases k with
            | zero =>
              simp only [List.getElem?_cons_zero, Option.some.injEq] at hk
              subst hk
              refine ⟨(pre ++ W).length, ?_, ?_⟩
              · simp only [Nat.add_zero]
                rw [List.getElem?_set_self (by omega)]
              · simp only
                rw [hbuf, set_append_cons]
                exact cstring_at_append (pre ++ W) T _ hTnul
            | succ k => simp at hk
        · have hsp : isspace c = true := by
            cases hsp : isspace c with
            | true => rfl
            | false => exact absurd ⟨hsemi, hsp⟩ hcq2
          have hit : items_from (c :: R1) T = T :: items_from R1 [] := by
            simp [items_from, hsemi, hsp, hTe]
          rw [hit] at hmax ⊢
          simp only [List.length_cons] at hmax
          have hn : nbuf < MAXBUF := by omega
          simp only [hgt.mpr hTe, if_true, hn, ne_eq, hcnul, not_false_eq_true, hsemi, and_self]
          have hset : (pre ++ S ++ ['\x00']).set (pre ++ W ++ T).length '\x00'
              = (pre ++ W ++ T ++ ['\x00']) ++ R1 ++ ['\x00'] := by
            rw [hbuf, set_append_cons]; simp
          have hlen1 : (pre ++ W ++ T).length + 1 = (pre ++ W ++ T ++ ['\x00']).length := by
            simp only [List.length_append, List.length_singleton]
          rw [hset, hlen1]
          have hR1 : R1.length < fuel := by
            have : S.length = W.length + (T.length + (R1.length + 1)) := by
              rw [hSW, hST, hRc]; simp
            omega
          obtain ⟨s, tail, hs, hsbuf, hsn, hsl, hsold, hsnew⟩ :=
            ih R1 (pre ++ W ++ T ++ ['\x00']) (bi.set nbuf (pre ++ W).length) (nbuf + 1)
              (fun d hd => hnul d (by rw [hSW, hST, hRc]; simp [hd]))
              hR1 (by simp [hbi]) (by omega)
          refine ⟨s, W ++ T ++ '\x00' :: tail, hs, by rw [hsbuf]; simp,
            by rw [hsn]; simp only [List.length_cons]; omega, hsl, ?_, ?_⟩
          · intro k hk
            rw [hsold k (by omega), List.getElem?_set_ne (by omega)]
          · intro k t hk
            cases k with
            | zero =>
              simp only [List.getElem?_cons_zero, Option.some.injEq] at hk
              subst hk
              refine ⟨(pre ++ W).length, ?_, ?_⟩
              · simp only [Nat.add_zero]
                rw [hsold nbuf (by omega), List.getElem?_set_self (by omega)]
              · rw [hsbuf]
                have : pre ++ W ++ T ++ ['\x00'] ++ tail = (pre ++ W) ++ T ++ '\x00' :: tail := by
                  simp
                rw [this]
                exact cstring_at_append (pre ++ W) T tail hTnul
            | succ k =>
              simp only [List.getElem?_cons_succ] at hk
              obtain ⟨j, hj1, hj2⟩ := hsnew k t hk
              exact ⟨j, by rw [← hj1]; congr 1; omega, hj2⟩

theorem shift_loop_spec :
    ∀ (k i : Nat) (b : List Nat), 1 ≤ i → i + k ≤ b.length →
      ∃ b1, shift_loop k i b = .ok b1 ∧ b1.length = b.length
        ∧ (∀ m, m + 1 < i → b1[m]? = b[m]?)
        ∧ (∀ m, i ≤ m + 1 → m + 1 < i + k → b1[m]? = b[m + 1]?) := by
  intro k
  induction k with
  | zero =>
    intro i b _ _
    exact ⟨b, rfl, rfl, fun m _ => rfl, fun m h1 h2 => by omega⟩
  | succ k ih =>
    intro i b hi hlen
    have hlt : i < b.length := by omega
    rw [shift_loop, List.getElem?_eq_getElem hlt]
    simp only
    obtain ⟨b1, h1, h2, h3, h4⟩ := ih (i + 1) (b.set (i - 1) b[i]) (by omega)
      (by simp only [List.length_set]; omega)
    refine ⟨b1, h1, by rw [h2, List.length_set], ?_, ?_⟩
    · intro m hm
      rw [h3 m (by omega), List.getElem?_set_ne (by omega)]
    · intro m hm1 hm2
      by_cases he : m + 1 = i
      · rw [h3 m (by omega)]
        have : i - 1 = m := by omega
        rw [this, List.getElem?_set_self (by omega), he, List.getElem?_eq_getElem hlt]
      · rw [h4 m (by omega) (by omega), List.getElem?_set_ne (by omega)]

theorem next_item_buffered (lines : List (List Char)) (buf : List Char) (bi : List Nat)
    (n : Nat) (t : List Char) (items : List (List Char))
    (h : Buffered buf bi (n + 1) (t :: items)) :
    ∃ bi1, next_item lines buf bi (n + 1)
        = .ok (t, { lines := lines, buf := buf, bufindex := bi1, nbuf := n })
      ∧ Buffered buf bi1 n items := by
  obtain ⟨hn, hlen, hmax, hidx⟩ := h
  simp only [List.length_cons] at hn hmax
  obtain ⟨j0, hj0, hcs⟩ := hidx 0 t (List.getElem?_cons_zero)
  obtain ⟨bi1, hs1, hs2, _, hs4⟩ := shift_loop_spec n 1 bi (le_refl 1) (by omega)
  refine ⟨bi1, ?_, by omega, by rw [hs2, hlen], by omega, ?_⟩
  · rw [next_item, hj0]
    simp only [hs1, hcs]
  · intro k u hk
    have hkn : k < items.length := by
      by_contra hc
      rw [List.getElem?_eq_none (by omega)] at hk
      cases hk
    obtain ⟨j, hj1, hj2⟩ := hidx (k + 1) u (by simpa using hk)
    exact ⟨j, by rw [hs4 k (by omega) (by omega)]; exact hj1, hj2⟩

theorem split_line (line : List Char) (bi : List Nat) (hnul : ∀ c ∈ line, c ≠ '\x00')
    (hbi : bi.length = MAXBUF) (hmax : (items_of line).length ≤ MAXBUF) :
    ∃ s, split_loop (line.length + 1) (line ++ ['\x00']) 0 bi 0 = .ok s
      ∧ Buffered s.buf s.bufindex s.nbuf (items_of line) := by
  obtain ⟨s, tail, h1, _, h3, h4, _, h6⟩ :=
    split_loop_spec (line.length + 1) line [] bi 0 hnul (by omega) hbi
      (by simpa [items_of] using hmax)
  simp only [List.nil_append, List.length_nil, Nat.zero_add] at h1 h3 h6
  exact ⟨s, h1, h3, h4, hmax, h6⟩

theorem next_item_fresh :
    ∀ (lines : List (List Char)) (buf : List Char) (bi : List Nat),
      bi.length = MAXBUF → Readable lines →
      ((lines.map items_of).flatten = [] →
        next_item lines buf bi 0 = .error (.gmx_file "End of file"))
      ∧ (∀ t rest, (lines.map items_of).flatten = t :: rest →
          ∃ r, next_item lines buf bi 0 = .ok (t, r) ∧ Remaining r rest) := by
  intro lines
  induction lines with
  | nil =>
    intro buf bi _ _
    exact ⟨fun _ => rfl, fun t rest h => by simp at h⟩
  | cons line lines ih =>
    intro buf bi hbi hread
    have hl := hread line (List.mem_cons_self _ _)
    have hrest : Readable lines := fun l hm => hread l (List.mem_cons_of_mem _ hm)
    obtain ⟨s, hs, hb⟩ := split_line line bi hl.1 hbi hl.2
    have hstep : next_item (line :: lines) buf bi 0 = next_item lines s.buf s.bufindex s.nbuf := by
      rw [next_item, hs]
    rw [hstep]
    simp only [List.map_cons, List.flatten_cons]
    cases hit : items_of line with
    | nil =>
      rw [hit] at hb
      have hn : s.nbuf = 0 := hb.1
      rw [hn]
      simpa using ih s.buf s.bufindex hb.2.1 hrest
    | cons t0 items =>
      rw [hit] at hb
      have hn : s.nbuf = items.length + 1 := hb.1
      rw [hn] at hb ⊢
      obtain ⟨bi1, hnext, hbuf⟩ := next_item_buffered lines s.buf s.bufindex items.length t0 items hb
      constructor
      · intro h; simp at h
      · intro t rest h
        simp only [List.cons_append, List.cons.injEq] at h
        obtain ⟨rfl, rfl⟩ := h
        exact ⟨_, hnext, hrest, items, hbuf, rfl⟩

theorem next_item_remaining (r : Reader) :
    (Remaining r [] → r.next_item = .error (.gmx_file "End of file"))
    ∧ (∀ t rest, Remaining r (t :: rest) →
        ∃ r1, r.next_item = .ok (t, r1) ∧ Remaining r1 rest) := by
  constructor
  · rintro ⟨hread, items, hb, hrest⟩
    have hi : items = [] := (List.append_eq_nil.mp hrest).1
    subst hi
    have hn : r.nbuf = 0 := hb.1
    unfold Reader.next_item
    rw [hn]
    exact (next_item_fresh r.lines r.buf r.bufindex hb.2.1 hread).1 (by simpa using hrest)
  · rintro t rest ⟨hread, items, hb, hrest⟩
    unfold Reader.next_item
    cases items with
    | nil =>
      have hn : r.nbuf = 0 := hb.1
      rw [hn]
      exact (next_item_fresh r.lines r.buf r.bufindex hb.2.1 hread).2 t rest (by simpa using hrest)
    | cons t0 items =>
      have hn : r.nbuf = items.length + 1 := hb.1
      rw [hn] at hb ⊢
      simp only [List.cons_append, List.cons.injEq] at hrest
      obtain ⟨rfl, rfl⟩ := hrest
      obtain ⟨bi1, hnext, hbuf⟩ := next_item_buffered r.lines r.buf r.bufindex items.length t0 items hb
      exact ⟨_, hnext, hread, items, hbuf, rfl⟩

theorem read_items_remaining :
    ∀ (n : Nat) (r : Reader) (rest : List (List Char)), Remaining r rest → n ≤ rest.length →
      ∃ r1, read_items n r = .ok (rest.take n, r1) ∧ Remaining r1 (rest.drop n) := by
  intro n
  induction n with
  | zero => intro r rest h _; exact ⟨r, rfl, h⟩
  | succ n ih =>
    intro r rest h hn
    cases rest with
    | nil => simp at hn
    | cons t rest =>
      obtain ⟨r1, h1, h2⟩ := (next_item_remaining r).2 t rest h
      obtain ⟨r2, h3, h4⟩ := ih r1 rest h2 (by simpa using hn)
      refine ⟨r2, ?_, h4⟩
      rw [read_items, h1]
      simp only [h3, List.take_succ_cons]

theorem items_from_props :
    ∀ (l cur : List Char), (∀ c ∈ cur, isspace c = false ∧ c ≠ ';') →
      ∀ t ∈ items_from l cur, t ≠ [] ∧ ∀ c ∈ t, isspace c = false ∧ c ≠ ';' := by
  intro l
  induction l with
  | nil =>
    intro cur hcur t ht
    simp only [items_from] at ht
    split at ht
    · simp at ht
    · rename_i hne
      simp only [List.mem_singleton] at ht
      subst ht
      exact ⟨hne, hcur⟩
  | cons c cs ih =>
    intro cur hcur t ht
    simp only [items_from] at ht
    have hflush : t ∈ (if cur = [] then [] else [cur]) →
        t ≠ [] ∧ ∀ c ∈ t, isspace c = false ∧ c ≠ ';' := by
      intro h
      split at h
      · simp at h
      · rename_i hne
        simp only [List.mem_singleton] at h
        subst h
        exact ⟨hne, hcur⟩
    split at ht
    · exact hflush ht
    · rename_i hsemi
      split at ht
      · rcases List.mem_append.mp ht with h | h
        · exact hflush h
        · exact ih [] (fun d hd => absurd hd (List.not_mem_nil d)) t h
      · rename_i hsp
        apply ih (cur ++ [c]) _ t ht
        intro d hd
        rcases List.mem_append.mp hd with h | h
        · exact hcur d h
        · simp only [List.mem_singleton] at h
          subst h
          exact ⟨by simpa using hsp, hsemi⟩

/-- The text reader on lines of at most `MAXBUF` items: successive calls of
`next_item` return the items of the lines, line after line and in the order
of the line; lines without an item are skipped; the call after the last item
ends in `gmx_file("End of file")`; `bufindex` is never written past its end.
Every item is a non-empty string without white space and semicolon. -/
theorem next_item_returns_items (lines : List (List Char)) (hread : Readable lines) (n : Nat)
    (hn : n ≤ ((lines.map items_of).flatten).length) :
    (∃ r, read_items n (Reader.start lines) = .ok (((lines.map items_of).flatten).take n, r))
    ∧ read_items (((lines.map items_of).flatten).length + 1) (Reader.start lines)
        = .error (.gmx_file "End of file")
    ∧ (∀ t ∈ (lines.map items_of).flatten,
        t ≠ [] ∧ ∀ c ∈ t, isspace c = false ∧ c ≠ ';') := by
  have h0 : Remaining (Reader.start lines) ((lines.map items_of).flatten) :=
    ⟨hread, [], ⟨rfl, by simp [Reader.start], by simp, fun k t h => by simp at h⟩, rfl⟩
  refine ⟨?_, ?_, ?_⟩
  · obtain ⟨r, h1, _⟩ := read_items_remaining n _ _ h0 hn
    exact ⟨r, h1⟩
  · have key : ∀ (rest : List (List Char)) (r : Reader), Remaining r rest →
        read_items (rest.length + 1) r = .error (.gmx_file "End of file") := by
      intro rest
      induction rest with
      | nil =>
        intro r h
        rw [List.length_nil, read_items, (next_item_remaining r).1 h]
      | cons t rest ih =>
        intro r h
        obtain ⟨r1, h1, h2⟩ := (next_item_remaining r).2 t rest h
        rw [List.length_cons, read_items, h1]
        simp only [ih r1 h2]
    exact key _ _ h0
  · intro t ht
    obtain ⟨its, h1, h2⟩ := List.mem_flatten.mp ht
    obtain ⟨l, _, rfl⟩ := List.mem_map.mp h1
    exact items_from_props l [] (fun d hd => absurd hd (List.not_mem_nil d)) t h2

/-- A non-empty string without white space and semicolon is its own single item. -/
theorem items_of_word (t : List Char) (hne : t ≠ [])
    (ht : ∀ c ∈ t, isspace c = false ∧ c ≠ ';') : items_of t = [t] := by
  have h := items_from_word t ht [] []
  simp only [List.append_nil, List.nil_append] at h
  rw [items_of, h]
  simp [items_from, hne]

/-- Counterexample to C28 as stated: the string "a;b" is written unchanged; it
holds no blank and no tab, but `next_item` returns "a" for it and then
reaches the end of the file.  The empty string is written as the empty
string, for which `next_item` returns no item. -/
theorem encoded_string_not_one_token :
    encode_string 256 "a;b".data = "a;b".data
    ∧ (read_items 1 (Reader.start [encode_string 256 "a;b".data])).map (fun p => p.1)
        = .ok ["a".data]
    ∧ read_items 2 (Reader.start [encode_string 256 "a;b".data])
        = .error (.gmx_file "End of file")
    ∧ encode_string 256 [] = []
    ∧ read_items 1 (Reader.start [encode_string 256 []]) = .error (.gmx_file "End of file") := by
  refine ⟨?_, ?_, ?_, ?_, ?_⟩ <;> rfl

/-- C28, amended: for `maxlen >= 1`, `encode_string` writes the first
`min(strlen(src), maxlen - 1)` characters of `src`, with `_` for every blank
and tab, and the NUL at that index, which is inside `dst`; the string written
holds no blank, no tab and no NUL, and it is a single item for the text
reader when it is not empty and holds no semicolon, newline, vertical tab,
form feed or carriage return; encoding it again gives the same string;
`decode_string` writes the same prefix with a blank for every `_`. -/
theorem encode_string_spec (maxlen : Int) (s : List Char) (hmax : 1 ≤ maxlen) :
    encode_string maxlen s
        = ((s.takeWhile (fun c => c ≠ '\x00')).take (maxlen - 1).toNat).map encode_char
    ∧ (encode_string maxlen s).length = min (strlen s) (maxlen - 1).toNat
    ∧ (encode_loop maxlen s 0).2 = (encode_string maxlen s).length
    ∧ ((encode_loop maxlen s 0).2 : Int) ≤ maxlen - 1
    ∧ (∀ c ∈ encode_string maxlen s, c ≠ ' ' ∧ c ≠ '\t' ∧ c ≠ '\x00')
    ∧ (encode_string maxlen s ≠ [] →
        (∀ c ∈ encode_string maxlen s,
          c ≠ ';' ∧ c ≠ '\n' ∧ c ≠ '\x0b' ∧ c ≠ '\x0c' ∧ c ≠ '\r') →
        items_of (encode_string maxlen s) = [encode_string maxlen s]
        ∧ (read_items 1 (Reader.start [encode_string maxlen s])).map (fun p => p.1)
            = .ok [encode_string maxlen s])
    ∧ encode_string maxlen (encode_string maxlen s) = encode_string maxlen s
    ∧ decode_string maxlen s
        = ((s.takeWhile (fun c => c ≠ '\x00')).take (maxlen - 1).toNat).map decode_char
    ∧ (decode_string maxlen s).length = min (strlen s) (maxlen - 1).toNat := by
  have he : ∀ t : List Char, encode_string maxlen t
      = ((t.takeWhile (fun c => c ≠ '\x00')).take (maxlen - 1).toNat).map encode_char := by
    intro t
    unfold encode_string
    rw [encode_loop_eq]
    simp
  have hd : decode_string maxlen s
      = ((s.takeWhile (fun c => c ≠ '\x00')).take (maxlen - 1).toNat).map decode_char := by
    unfold decode_string
    rw [decode_loop_eq]
    simp
  have hmem : ∀ c ∈ encode_string maxlen s, c ≠ ' ' ∧ c ≠ '\t' ∧ c ≠ '\x00' := by
    intro c hc
    rw [he] at hc
    obtain ⟨d, hd1, rfl⟩ := List.mem_map.mp hc
    have hd2 : d ≠ '\x00' := by
      have := List.mem_takeWhile_imp (List.mem_of_mem_take hd1)
      simpa using this
    obtain ⟨h1, h2, h3, _⟩ := encode_char_props d hd2
    exact ⟨h1, h2, h3⟩
  have hlen : (encode_string maxlen s).length = min (strlen s) (maxlen - 1).toNat := by
    rw [he, List.length_map, List.length_take, strlen, Nat.min_comm]
  refine ⟨he s, hlen, ?_, ?_, hmem, ?_, ?_, hd, ?_⟩
  · rw [encode_loop_eq, he]
    simp
  · rw [encode_loop_eq]
    simp only [Nat.cast_zero, sub_zero, zero_add, List.length_take]
    omega
  · intro hne hclean
    have hword : ∀ c ∈ encode_string maxlen s, isspace c = false ∧ c ≠ ';' := by
      intro c hc
      obtain ⟨h1, h2, _⟩ := hmem c hc
      obtain ⟨h3, h4, h5, h6, h7⟩ := hclean c hc
      exact ⟨by simp [isspace, h1, h2, h4, h5, h6, h7], h3⟩
    have hitems := items_of_word (encode_string maxlen s) hne hword
    refine ⟨hitems, ?_⟩
    have hread : Readable [encode_string maxlen s] := by
      intro l hl
      simp only [List.mem_singleton] at hl
      subst hl
      exact ⟨fun c hc => (hmem c hc).2.2, by rw [hitems]; simp [MAXBUF]⟩
    have hflat : ([encode_string maxlen s].map items_of).flatten = [encode_string maxlen s] := by
      simp [hitems]
    obtain ⟨r, hr⟩ := (next_item_returns_items [encode_string maxlen s] hread 1
      (by rw [hflat]; simp)).1
    rw [hr, hflat]
    rfl
  · rw [he (encode_string maxlen s)]
    have h1 : (encode_string maxlen s).takeWhile (fun c => c ≠ '\x00')
        = encode_string maxlen s := by
      rw [List.takeWhile_eq_self_iff]
      intro c hc
      simpa using (hmem c hc).2.2
    have h2 : (encode_string maxlen s).take (maxlen - 1).toNat = encode_string maxlen s := by
      apply List.take_of_length_le
      rw [hlen]
      exact Nat.min_le_right _ _
    rw [h1, h2]
    conv_rhs => rw [← List.map_id (encode_string maxlen s)]
    apply List.map_congr_left
    intro c hc
    rw [he] at hc
    obtain ⟨d, hd1, rfl⟩ := List.mem_map.mp hc
    have hd2 : d ≠ '\x00' := by
      have := List.mem_takeWhile_imp (List.mem_of_mem_take hd1)
      simpa using this
    exact (encode_char_props d hd2).2.2.2
  · rw [hd, List.length_map, List.length_take, strlen, Nat.min_comm]

/-- Witness for C28 amended: a string of six characters and `maxlen` = 5. -/
theorem encode_string_spec_witness :
    encode_string 5 "a b\tcd".data = "a_b_".data
    ∧ items_of (encode_string 5 "a b\tcd".data) = [encode_string 5 "a b\tcd".data]
    ∧ encode_string 5 (encode_string 5 "a b\tcd".data) = "a_b_".data
    ∧ decode_string 5 "a_b_cd".data = "a b ".data := by
  have h := encode_string_spec 5 "a b\tcd".data (by decide)
  have h2 := encode_string_spec 5 "a_b_cd".data (by decide)
  have e1 : encode_string 5 "a b\tcd".data = "a_b_".data := by rw [h.1]; decide
  refine ⟨e1, ?_, ?_, ?_⟩
  · exact (h.2.2.2.2.2.1 (by rw [e1]; decide) (by rw [e1]; decide)).1
  · rw [h.2.2.2.2.2.2.1, e1]
  · rw [h2.2.2.2.2.2.2.2.1]; decide

/-- A line that holds only white space before its first semicolon, or before
its end, has no item. -/
theorem items_of_blank (w rest : List Char) (hw : ∀ c ∈ w, isspace c = true ∧ c ≠ ';') :
    items_of w = [] ∧ items_of (w ++ ';' :: rest) = [] := by
  constructor
  · have h := items_from_skip w hw []
    rw [List.append_nil] at h
    rw [items_of, h]
    rfl
  · rw [items_of, items_from_skip w hw]
    simp [items_from]

end Gmxfio
